import Mathlib

/-!
# Vanni chat client: streaming consumer and message state machine

Shallow embedding of `src/frontend/src/components/ChatContainer.jsx`.

Conventions of the embedding

* A JavaScript string is a `List Char`; one element stands for one UTF-16 code unit.
* A React state cell updated through `setX(prev => f prev)` is a field of a state record and
  the updater `f` is a pure function on that field; successive updaters compose in call order.
* `Date.now()` is an input: an updater that calls it takes the value as the argument `now`,
  and a handler reads it from the `clock` of its closure, call by call.
* `saveChat(newMessages)` called inside an updater is recorded in `saveChatCalls`; what the
  asynchronous call does later is not part of the stream handlers.
* A message object is the record `Message`; a field that is `undefined` in JavaScript is
  `false` for `isTemporary` (only its truthiness is ever read) and `none` for `id`.
-/

namespace Vanni

/-- JavaScript string, one `Char` per code unit. -/
abbrev Str := List Char

/-! ## String helpers used by the source -/

/-- White space and line terminators removed by `String.prototype.trim`. -/
def isTrimSpace (c : Char) : Bool :=
  let n := c.toNat
  n == 0x09 || n == 0x0A || n == 0x0B || n == 0x0C || n == 0x0D || n == 0x20 ||
  n == 0xA0 || n == 0x1680 || (0x2000 ≤ n && n ≤ 0x200A) ||
  n == 0x2028 || n == 0x2029 || n == 0x202F || n == 0x205F || n == 0x3000 || n == 0xFEFF

/-- Model of `s.trim()`. -/
def trim (s : Str) : Str :=
  ((s.dropWhile isTrimSpace).reverse.dropWhile isTrimSpace).reverse

/-- Model of `s.includes(t)`. -/
def includes : Str → Str → Bool
  | [], t => t.isEmpty
  | c :: s, t => t.isPrefixOf (c :: s) || includes s t

/-- Model of `s.split(sep)` for a one-character separator: never the empty list. -/
def splitOnChar (sep : Char) : Str → List Str
  | [] => [[]]
  | c :: s =>
    if c = sep then [] :: splitOnChar sep s
    else
      match splitOnChar sep s with
      | [] => [[c]]
      | seg :: segs => (c :: seg) :: segs

/-- Model of `s.indexOf(c, start)`: `none` stands for `-1`. -/
def indexOfFrom (c : Char) (s : Str) (start : Nat) : Option Nat :=
  let i := (s.drop start).findIdx (fun x => x == c)
  if i < (s.drop start).length then some (start + i) else none

/-- Model of `s.substring(a, b)` for `a ≤ b`. -/
def substring (s : Str) (a b : Nat) : Str :=
  (s.take b).drop a

/-! ## Data model -/

/-- A chat message: `{ role, content, isTemporary, id }`. -/
structure Message where
  role : Str
  content : Str
  isTemporary : Bool
  id : Option Nat
deriving DecidableEq, Repr

/-- Number of messages with `isTemporary` set. -/
def countTemporary (msgs : List Message) : Nat :=
  msgs.countP (fun msg => msg.isTemporary)

/-! ## Updaters passed to `setMessages` -/

/-- The updater in `handleSendMessage`, line 772: `prev => [...prev, userMessage]`. -/
def sendUpdate (userMessage : Message) (prev : List Message) : List Message :=
  prev ++ [userMessage]

/-- Placeholder pushed by `handleChatStreamingRequest`, lines 581-587. -/
def chatPlaceholder (now : Nat) : Message :=
  { role := "assistant".toList, content := [], isTemporary := true, id := some now }

/-- The updater of lines 582-587: `prev => [...prev, placeholder]`. -/
def chatPlaceholderUpdate (now : Nat) (prev : List Message) : List Message :=
  prev ++ [chatPlaceholder now]

/-- Placeholder pushed by `handleReactAgentStreamingRequest`, lines 333-339. -/
def reactPlaceholder (tempMessageId : Nat) : Message :=
  { role := "assistant".toList, content := "Researching...".toList, isTemporary := true,
    id := some tempMessageId }

/-- The updater of lines 334-339. -/
def reactPlaceholderUpdate (tempMessageId : Nat) (prev : List Message) : List Message :=
  prev ++ [reactPlaceholder tempMessageId]

/-- The updater of the chunk branch, lines 647-666: the first temporary message gets the
delta appended to its content; when there is none a new temporary message is pushed. -/
def chunkUpdate (now : Nat) (chunk : Str) (prev : List Message) : List Message :=
  match prev.findIdx? (fun msg => msg.isTemporary) with
  | some tempIndex =>
    match prev[tempIndex]? with
    | some old => prev.set tempIndex { old with content := old.content ++ chunk }
    | none => prev
  | none =>
    prev ++ [{ role := "assistant".toList, content := chunk, isTemporary := true, id := some now }]

/-- The updater of the done branch, lines 673-679 (the list that is returned). -/
def doneUpdate (prev : List Message) : List Message :=
  prev.map (fun msg => if msg.isTemporary then { msg with isTemporary := false } else msg)

/-- The test of lines 718-720 inside the media result filter: an assistant message whose
content contains `Processing information` or `Generating`. -/
def isProgressNote (msg : Message) : Bool :=
  msg.role == "assistant".toList &&
    (includes msg.content "Processing information".toList ||
     includes msg.content "Generating".toList)

/-- The filter of the media result branch, lines 716-721. -/
def mediaResultKeep (msg : Message) : Bool :=
  !(msg.isTemporary || isProgressNote msg)

/-- The updater of the media result branch, lines 715-726. -/
def mediaResultUpdate (message : Message) (prev : List Message) : List Message :=
  prev.filter mediaResultKeep ++ [message]

/-- The updater of the plain result branch, lines 728-732. -/
def plainResultUpdate (message : Message) (prev : List Message) : List Message :=
  prev.filter (fun msg => !msg.isTemporary) ++ [message]

/-- The result branch of `handleChatStreamingRequest`, lines 714-733. -/
def chatResultUpdate (isMediaRequest : Bool) (message : Message) (prev : List Message) :
    List Message :=
  if isMediaRequest then mediaResultUpdate message prev else plainResultUpdate message prev

/-- The updater of the catch block of `handleChatStreamingRequest`, line 747. -/
def chatFailureUpdate (prev : List Message) : List Message :=
  prev.filter (fun msg => !msg.isTemporary)

/-- The result updater of `handleReactAgentStreamingRequest`, lines 369-373. -/
def reactResultUpdate (tempMessageId : Nat) (message : Message) (prev : List Message) :
    List Message :=
  prev.filter (fun msg => msg.id != some tempMessageId) ++ [message]

/-- Fallback message of the catch block of `handleReactAgentStreamingRequest`. -/
def reactFallback : Message :=
  { role := "assistant".toList,
    content := "Sorry, I encountered an error with the research agent. Please try again.".toList,
    isTemporary := false, id := none }

/-- The two updaters of the catch block of `handleReactAgentStreamingRequest`, lines 391-395. -/
def reactFailureUpdate (prev : List Message) : List Message :=
  prev.filter (fun msg => !msg.isTemporary) ++ [reactFallback]

/-! ## `JSON.parse`

The built-in parser, embedded for the JSON grammar of ECMA-404: the four white-space
characters, objects, arrays, strings with escapes, numbers and the three literals. A number
keeps its lexeme; the handlers never read one. A `\u` escape is read as the `Char` of its
code, so escapes of surrogate code units are not represented. Recursion is on a fuel
argument that `JSONparse` sets to twice the input length plus two, more than the depth of
any parse. -/

/-- Value returned by `JSON.parse`. -/
inductive Json where
  | null
  | bool (b : Bool)
  | num (lexeme : Str)
  | str (s : Str)
  | arr (items : List Json)
  | obj (members : List (Str × Json))

/-- JSON white space: space, tab, line feed, carriage return. -/
def isJsonSpace (c : Char) : Bool :=
  c == ' ' || c == '\t' || c == '\n' || c == '\r'

/-- Drop leading JSON white space. -/
def skipJsonSpace (s : Str) : Str := s.dropWhile isJsonSpace

/-- Value of one hexadecimal digit. -/
def hexDigit (c : Char) : Option Nat :=
  if '0' ≤ c ∧ c ≤ '9' then some (c.toNat - '0'.toNat)
  else if 'a' ≤ c ∧ c ≤ 'f' then some (c.toNat - 'a'.toNat + 10)
  else if 'A' ≤ c ∧ c ≤ 'F' then some (c.toNat - 'A'.toNat + 10)
  else none

/-- The escape that follows a backslash inside a string. -/
def parseEscape : Str → Option (Char × Str)
  | 'u' :: a :: b :: c :: d :: rest =>
    match hexDigit a, hexDigit b, hexDigit c, hexDigit d with
    | some x, some y, some z, some w => some (Char.ofNat (((x * 16 + y) * 16 + z) * 16 + w), rest)
    | _, _, _, _ => none
  | e :: rest =>
    if e = '"' then some ('"', rest)
    else if e = '\\' then some ('\\', rest)
    else if e = '/' then some ('/', rest)
    else if e = 'b' then some (Char.ofNat 8, rest)
    else if e = 'f' then some (Char.ofNat 12, rest)
    else if e = 'n' then some ('\n', rest)
    else if e = 'r' then some ('\r', rest)
    else if e = 't' then some ('\t', rest)
    else none
  | [] => none

/-- The characters of a string after its opening quote, up to the closing quote. -/
def parseStringBody : Nat → Str → Option (Str × Str)
  | 0, _ => none
  | _ + 1, [] => none
  | fuel + 1, c :: rest =>
    if c = '"' then some ([], rest)
    else if c = '\\' then
      match parseEscape rest with
      | some (x, rest2) =>
        match parseStringBody fuel rest2 with
        | some (body, out) => some (x :: body, out)
        | none => none
      | none => none
    else if c.toNat < 0x20 then none
    else
      match parseStringBody fuel rest with
      | some (body, out) => some (c :: body, out)
      | none => none

/-- One or more decimal digits. -/
def parseDigits (s : Str) : Option (Str × Str) :=
  let ds := s.takeWhile Char.isDigit
  if ds.isEmpty then none else some (ds, s.dropWhile Char.isDigit)

/-- Integer part of a number: a single zero, or digits. -/
def parseInt (s : Str) : Option (Str × Str) :=
  match s with
  | '0' :: rest => some (['0'], rest)
  | _ => parseDigits s

/-- Optional fraction of a number. -/
def parseFrac (s : Str) : Option (Str × Str) :=
  match s with
  | '.' :: rest =>
    match parseDigits rest with
    | some (ds, out) => some ('.' :: ds, out)
    | none => none
  | _ => some ([], s)

/-- Optional exponent of a number. -/
def parseExp (s : Str) : Option (Str × Str) :=
  match s with
  | c :: rest =>
    if c = 'e' ∨ c = 'E' then
      match rest with
      | sgn :: rest2 =>
        if sgn = '+' ∨ sgn = '-' then
          match parseDigits rest2 with
          | some (ds, out) => some (c :: sgn :: ds, out)
          | none => none
        else
          match parseDigits rest with
          | some (ds, out) => some (c :: ds, out)
          | none => none
      | [] => none
    else some ([], s)
  | [] => some ([], s)

/-- A JSON number, returned as its lexeme. -/
def parseNumber (s : Str) : Option (Str × Str) :=
  let (sign, s1) := match s with
    | '-' :: rest => (['-'], rest)
    | _ => ([], s)
  match parseInt s1 with
  | none => none
  | some (i, s2) =>
    match parseFrac s2 with
    | none => none
    | some (f, s3) =>
      match parseExp s3 with
      | none => none
      | some (e, s4) => some (sign ++ i ++ f ++ e, s4)

mutual
/-- A JSON value, with the unread rest of the input. -/
def parseValue : Nat → Str → Option (Json × Str)
  | 0, _ => none
  | fuel + 1, s =>
    match skipJsonSpace s with
    | [] => none
    | c :: rest =>
      if c = '{' then
        match skipJsonSpace rest with
        | '}' :: out => some (Json.obj [], out)
        | _ => (parseMembers fuel rest).map (fun r => (Json.obj r.1, r.2))
      else if c = '[' then
        match skipJsonSpace rest with
        | ']' :: out => some (Json.arr [], out)
        | _ => (parseElements fuel rest).map (fun r => (Json.arr r.1, r.2))
      else if c = '"' then
        (parseStringBody (rest.length + 1) rest).map (fun r => (Json.str r.1, r.2))
      else if c = '-' ∨ c.isDigit then
        (parseNumber (c :: rest)).map (fun r => (Json.num r.1, r.2))
      else
        match c :: rest with
        | 't' :: 'r' :: 'u' :: 'e' :: out => some (Json.bool true, out)
        | 'f' :: 'a' :: 'l' :: 's' :: 'e' :: out => some (Json.bool false, out)
        | 'n' :: 'u' :: 'l' :: 'l' :: out => some (Json.null, out)
        | _ => none
/-- The elements of a non-empty array after its opening bracket. -/
def parseElements : Nat → Str → Option (List Json × Str)
  | 0, _ => none
  | fuel + 1, s =>
    match parseValue fuel s with
    | none => none
    | some (v, rest) =>
      match skipJsonSpace rest with
      | c :: out =>
        if c = ',' then (parseElements fuel out).map (fun r => (v :: r.1, r.2))
        else if c = ']' then some ([v], out)
        else none
      | [] => none
/-- The members of a non-empty object after its opening brace. -/
def parseMembers : Nat → Str → Option (List (Str × Json) × Str)
  | 0, _ => none
  | fuel + 1, s =>
    match skipJsonSpace s with
    | '"' :: rest =>
      match parseStringBody (rest.length + 1) rest with
      | none => none
      | some (key, rest2) =>
        match skipJsonSpace rest2 with
        | ':' :: rest3 =>
          match parseValue fuel rest3 with
          | none => none
          | some (v, rest4) =>
            match skipJsonSpace rest4 with
            | c :: out =>
              if c = ',' then (parseMembers fuel out).map (fun r => ((key, v) :: r.1, r.2))
              else if c = '}' then some ([(key, v)], out)
              else none
            | [] => none
        | _ => none
    | _ => none
end

/-- Model of `JSON.parse(text)`: `none` stands for the thrown `SyntaxError`. -/
def JSONparse (text : Str) : Option Json :=
  match parseValue (2 * text.length + 2) text with
  | some (v, rest) => if (skipJsonSpace rest).isEmpty then some v else none
  | none => none

/-! ## Stream events

The handlers read `data.type`, `data.status`, `data.chunk`, `data.message` and
`data.thread_id` of the parsed line. The embedding is typed: it covers the lines whose
fields have the types of the wire format (text status, text delta, message object with text
`role` and `content`, text thread id). A line that parses but carries a field of another
type is outside the embedding and `decodeData` returns `none` for it. -/

/-- Member `key` of a parsed object, as `data[key]` reads it: the last duplicate wins. -/
def Json.member (key : Str) : Json → Option Json
  | Json.obj members => (members.reverse.find? (fun kv => kv.1 == key)).map (fun kv => kv.2)
  | _ => none

/-- Typed stream event. -/
inductive StreamEvent where
  | status (text : Str)
  | chunk (delta : Str)
  | done (thread_id : Option Str)
  | result (message : Message) (thread_id : Option Str)
deriving DecidableEq, Repr

/-- What the body of the per-line `try` does with one line. -/
inductive LineOutcome where
  /-- `JSON.parse` or the read of `data.type` threw; the per-line `catch` logs and goes on. -/
  | thrown
  /-- The line parsed and no branch of the `if` chain on `data.type` was taken. -/
  | ignored
  /-- The line parsed to a well-typed event. -/
  | event (e : StreamEvent)
deriving DecidableEq, Repr

/-- Value of a string of decimal digits. -/
def digitsValue (ds : Str) : Nat :=
  ds.foldl (fun acc c => acc * 10 + (c.toNat - '0'.toNat)) 0

/-- Optional text field: absent or `null` reads as falsy, text as itself. -/
def decodeOptText : Option Json → Option (Option Str)
  | none => some none
  | some Json.null => some none
  | some (Json.str s) => some (some s)
  | some _ => none

/-- Optional flag: absent or `null` reads as falsy. -/
def decodeOptFlag : Option Json → Option Bool
  | none => some false
  | some Json.null => some false
  | some (Json.bool b) => some b
  | some _ => none

/-- Optional message id: absent, `null`, or a plain non-negative integer of at most fifteen
digits, which a JavaScript number holds exactly. -/
def decodeOptId : Option Json → Option (Option Nat)
  | none => some none
  | some Json.null => some none
  | some (Json.num lexeme) =>
    if lexeme.all Char.isDigit && lexeme.length ≤ 15 then some (some (digitsValue lexeme))
    else none
  | some _ => none

/-- Typed reading of `data.message`. -/
def decodeMessage : Option Json → Option Message
  | some (Json.obj members) =>
    match Json.member "role".toList (Json.obj members),
          Json.member "content".toList (Json.obj members),
          decodeOptFlag (Json.member "isTemporary".toList (Json.obj members)),
          decodeOptId (Json.member "id".toList (Json.obj members)) with
    | some (Json.str role), some (Json.str content), some flag, some id =>
      some { role := role, content := content, isTemporary := flag, id := id }
    | _, _, _, _ => none
  | _ => none

/-- Typed reading of a parsed line, following the `if` chain on `data.type`
(lines 641, 644, 671, 689). `null.type` throws a `TypeError`; on a number, string, boolean or
array `data.type` is `undefined`. -/
def decodeData : Json → Option LineOutcome
  | Json.null => some LineOutcome.thrown
  | Json.obj members =>
    match Json.member "type".toList (Json.obj members) with
    | some (Json.str ty) =>
      if ty = "status".toList then
        match Json.member "status".toList (Json.obj members) with
        | some (Json.str text) => some (LineOutcome.event (StreamEvent.status text))
        | _ => none
      else if ty = "chunk".toList then
        match Json.member "chunk".toList (Json.obj members) with
        | some (Json.str delta) => some (LineOutcome.event (StreamEvent.chunk delta))
        | _ => none
      else if ty = "done".toList then
        match decodeOptText (Json.member "thread_id".toList (Json.obj members)) with
        | some tid => some (LineOutcome.event (StreamEvent.done tid))
        | none => none
      else if ty = "result".toList then
        match decodeMessage (Json.member "message".toList (Json.obj members)),
              decodeOptText (Json.member "thread_id".toList (Json.obj members)) with
        | some message, some tid => some (LineOutcome.event (StreamEvent.result message tid))
        | _, _ => none
      else some LineOutcome.ignored
    | _ => some LineOutcome.ignored
  | _ => some LineOutcome.ignored

/-- The `try` body applied to one line: `JSON.parse(line)` and the dispatch on `data.type`. -/
def parseLine (line : Str) : Option LineOutcome :=
  match JSONparse line with
  | none => some LineOutcome.thrown
  | some data => decodeData data

/-! ## Component state and the closure of one handler call -/

/-- The state cells the stream handlers write, with the calls of `saveChat` they make and
the number of `Date.now()` calls made so far. `fullResponse` is the local variable of
`handleChatStreamingRequest` (line 625). -/
structure ChatState where
  messages : List Message
  threadId : Option Str
  chatIdRef : Str
  agentStatus : Str
  isLoading : Bool
  isGeneratingMedia : Bool
  generatingMediaType : Option Str
  fullResponse : Str
  saveChatCalls : List (List Message)
  dateNowCalls : Nat
deriving DecidableEq, Repr

/-- What a handler call closes over: the `threadId` and `isGeneratingMedia` of the render
that created it, `isMediaRequest` computed at lines 568-577, and the clock, where
`clock k` is the value of the call number `k` of `Date.now()`. -/
structure Closure where
  threadId : Option Str
  isGeneratingMedia : Bool
  isMediaRequest : Bool
  clock : Nat → Nat

/-- JavaScript truthiness of a nullable string. -/
def truthy : Option Str → Bool
  | some (_ :: _) => true
  | _ => false

/-- Lines 681-684 and 735-738 (375-378 in the research handler):
`if (!threadId && data.thread_id) { setThreadId(..); chatIdRef.current = .. }`. -/
def adoptThreadId (env : Closure) (thread_id : Option Str) (st : ChatState) : ChatState :=
  match thread_id with
  | some tid =>
    if !truthy env.threadId && truthy (some tid) then
      { st with threadId := some tid, chatIdRef := tid }
    else st
  | none => st

/-- The condition of lines 580 and 646: `!isMediaRequest && !isGeneratingMedia`. -/
def showsPlaceholder (env : Closure) : Bool :=
  !env.isMediaRequest && !env.isGeneratingMedia

/-! ## `handleChatStreamingRequest` -/

/-- Branches of lines 641-739 on a typed event. -/
def chatApplyEvent (env : Closure) (st : ChatState) : StreamEvent → ChatState
  | StreamEvent.status text => { st with agentStatus := text }
  | StreamEvent.chunk delta =>
    if showsPlaceholder env then
      { st with
        messages := chunkUpdate (env.clock st.dateNowCalls) delta st.messages
        dateNowCalls :=
          if st.messages.any (fun msg => msg.isTemporary) then st.dateNowCalls
          else st.dateNowCalls + 1 }
    else { st with fullResponse := st.fullResponse ++ delta }
  | StreamEvent.done thread_id =>
    let newMessages := doneUpdate st.messages
    adoptThreadId env thread_id
      { st with
        messages := newMessages
        saveChatCalls := st.saveChatCalls ++ [newMessages]
        isLoading := false
        agentStatus := [] }
  | StreamEvent.result message thread_id =>
    let newMessages := chatResultUpdate env.isMediaRequest message st.messages
    adoptThreadId env thread_id
      { st with
        isLoading := false
        agentStatus := []
        isGeneratingMedia := false
        generatingMediaType := none
        messages := newMessages
        saveChatCalls := st.saveChatCalls ++ [newMessages] }

/-- One iteration of the `for (const line of lines)` loop, lines 635-743. -/
def chatHandleLine (env : Closure) (st : ChatState) (line : Str) : Option ChatState :=
  if (trim line).isEmpty then some st
  else
    match parseLine line with
    | none => none
    | some LineOutcome.thrown => some st
    | some LineOutcome.ignored => some st
    | some (LineOutcome.event e) => some (chatApplyEvent env st e)

/-- The lines of one network read, line 633:
`chunk.split('\n').filter(line => line.trim())`. -/
def chatLinesOf (chunk : Str) : List Str :=
  (splitOnChar '\n' chunk).filter (fun line => !(trim line).isEmpty)

/-- One iteration of the read loop, lines 627-744, for one decoded network chunk. -/
def chatReadChunk (env : Closure) (st : ChatState) (chunk : Str) : Option ChatState :=
  (chatLinesOf chunk).foldlM (chatHandleLine env) st

/-- The read loop over the chunks the reader delivers before it reports the end. -/
def chatReadLoop (env : Closure) (st : ChatState) (chunks : List Str) : Option ChatState :=
  chunks.foldlM (chatReadChunk env) st

/-- What `fetch` and the body reader do during one request. -/
inductive Transport where
  /-- `fetch` rejects. -/
  | rejected
  /-- A response arrives with the given `ok` flag; its body delivers `chunks`, then the
  reader ends, or its next `read()` rejects. -/
  | response (ok : Bool) (chunks : List Str) (readFails : Bool)

/-- The `catch` block of lines 745-751. -/
def chatCatch (st : ChatState) : ChatState :=
  { st with
    messages := chatFailureUpdate st.messages
    isGeneratingMedia := false
    generatingMediaType := none
    isLoading := false }

/-- The state after `setIsLoading(true)` and the placeholder of lines 566-588. -/
def chatStart (env : Closure) (st : ChatState) : ChatState :=
  if showsPlaceholder env then
    { st with
      isLoading := true
      messages := chatPlaceholderUpdate (env.clock st.dateNowCalls) st.messages
      dateNowCalls := st.dateNowCalls + 1 }
  else { st with isLoading := true }

/-- Model of `handleChatStreamingRequest`, lines 564-753. -/
def handleChatStreamingRequest (env : Closure) (message : Message) (net : Transport)
    (st : ChatState) : Option ChatState :=
  if message.role = "user".toList then
    match net with
    | Transport.rejected => some (chatCatch (chatStart env st))
    | Transport.response false _ _ => some (chatCatch (chatStart env st))
    | Transport.response true chunks readFails =>
      match chatReadLoop env { chatStart env st with fullResponse := [] } chunks with
      | none => none
      | some st2 => if readFails then some (chatCatch st2) else some st2
  else some st

/-! ## `handleReactAgentStreamingRequest` -/

/-- The inner `while` loop of lines 352-384 on the accumulated `buffer`, from
`lastNewlineIndex`: the trimmed non-empty lines that reach the `try` block, in order, and
the final `lastNewlineIndex`. The first argument bounds the number of iterations. -/
def reactLineLoop : Nat → Str → Nat → List Str × Nat
  | 0, _, lastNewlineIndex => ([], lastNewlineIndex)
  | fuel + 1, buffer, lastNewlineIndex =>
    match indexOfFrom '\n' buffer lastNewlineIndex with
    | none => ([], lastNewlineIndex)
    | some newlineIndex =>
      let line := trim (substring buffer lastNewlineIndex newlineIndex)
      let out := reactLineLoop fuel buffer (newlineIndex + 1)
      if line.isEmpty then out else (line :: out.1, out.2)

/-- Lines 348-357 and 387 for one decoded chunk: the new buffer content is appended, the
loop extracts the lines, and the text after the last newline stays in the buffer. -/
def reactFeed (buffer chunk : Str) : List Str × Str :=
  let full := buffer ++ chunk
  let out := reactLineLoop (full.length + 1) full 0
  (out.1, full.drop out.2)

/-- Branches of lines 364-379 on a typed event; `chunk` and `done` events take no branch. -/
def reactApplyEvent (env : Closure) (tempMessageId : Nat) (st : ChatState) :
    StreamEvent → ChatState
  | StreamEvent.status text => { st with agentStatus := text }
  | StreamEvent.result message thread_id =>
    let newMessages := reactResultUpdate tempMessageId message st.messages
    adoptThreadId env thread_id
      { st with
        messages := newMessages
        saveChatCalls := st.saveChatCalls ++ [newMessages] }
  | _ => st

/-- The `try` block of lines 361-383 on one extracted line. -/
def reactHandleLine (env : Closure) (tempMessageId : Nat) (st : ChatState) (line : Str) :
    Option ChatState :=
  match parseLine line with
  | none => none
  | some LineOutcome.thrown => some st
  | some LineOutcome.ignored => some st
  | some (LineOutcome.event e) => some (reactApplyEvent env tempMessageId st e)

/-- One iteration of the read loop, lines 344-388: component state and `buffer`. -/
def reactReadChunk (env : Closure) (tempMessageId : Nat) (acc : ChatState × Str)
    (chunk : Str) : Option (ChatState × Str) :=
  let fed := reactFeed acc.2 chunk
  match fed.1.foldlM (reactHandleLine env tempMessageId) acc.1 with
  | none => none
  | some st => some (st, fed.2)

/-- The read loop over the chunks the reader delivers before it reports the end. -/
def reactReadLoop (env : Closure) (tempMessageId : Nat) (acc : ChatState × Str)
    (chunks : List Str) : Option (ChatState × Str) :=
  chunks.foldlM (reactReadChunk env tempMessageId) acc

/-- The lines that reach `JSON.parse` while the chunks are read, with the final buffer. -/
def reactLinesOfChunks : Str → List Str → List Str × Str
  | buffer, [] => ([], buffer)
  | buffer, chunk :: chunks =>
    let fed := reactFeed buffer chunk
    let out := reactLinesOfChunks fed.2 chunks
    (fed.1 ++ out.1, out.2)

/-- The `catch` block of lines 389-395. -/
def reactCatch (st : ChatState) : ChatState :=
  { st with messages := reactFailureUpdate st.messages }

/-- The `finally` block of lines 396-399. -/
def reactFinally (st : ChatState) : ChatState :=
  { st with isLoading := false, agentStatus := [] }

/-- The state after lines 308-309. -/
def reactStart (st : ChatState) : ChatState :=
  { st with isLoading := true, agentStatus := "Initializing research agent...".toList }

/-- Model of `handleReactAgentStreamingRequest`, lines 306-401. The handler does not test
`response.ok`. -/
def handleReactAgentStreamingRequest (env : Closure) (message : Message) (net : Transport)
    (st : ChatState) : Option ChatState :=
  if message.role = "user".toList then
    match net with
    | Transport.rejected => some (reactFinally (reactCatch (reactStart st)))
    | Transport.response _ chunks readFails =>
      let st1 := reactStart st
      let tempMessageId := env.clock st1.dateNowCalls
      let st2 :=
        { st1 with
          messages := reactPlaceholderUpdate tempMessageId st1.messages
          dateNowCalls := st1.dateNowCalls + 1 }
      match reactReadLoop env tempMessageId (st2, []) chunks with
      | none => none
      | some (st3, _) =>
        if readFails then some (reactFinally (reactCatch st3)) else some (reactFinally st3)
  else some st

/-- Temporary messages are never interior: every message before the last is committed. -/
def temporaryOnlyLast (msgs : List Message) : Bool :=
  msgs.dropLast.all (fun msg => !msg.isTemporary)

/-! ## `handleSendMessage` and the intent classification -/

/-- Model of `s.startsWith(p)`. -/
def startsWith (s p : Str) : Bool := p.isPrefixOf s

/-- Model of `s.endsWith(p)`. -/
def endsWith (s p : Str) : Bool := p.isSuffixOf s

/-- Lower-casing of one code unit, as far as a test against ASCII text can see it: the
ASCII capitals, and the two characters outside ASCII whose lower case contains an ASCII
letter (the Kelvin sign and the dotted capital I). Every other character lower-cases to
characters outside ASCII and is left as it is. -/
def lowerChar (c : Char) : Str :=
  if 'A' ≤ c ∧ c ≤ 'Z' then [Char.ofNat (c.toNat + 32)]
  else if c.toNat = 0x212A then ['k']
  else if c.toNat = 0x0130 then ['i', Char.ofNat 0x0307]
  else [c]

/-- Model of `s.toLowerCase()` for the keyword tests of the source. -/
def toLowerCase (s : Str) : Str := (s.map lowerChar).flatten

/-- The media request test of `handleChatStreamingRequest`, lines 569-577, on the
lower-cased message text. -/
def isMediaRequestOf (messageText : Str) : Bool :=
  (includes messageText "generate".toList ||
   includes messageText "create".toList ||
   includes messageText "make".toList) &&
  (includes messageText "image".toList ||
   includes messageText "picture".toList ||
   includes messageText "music".toList ||
   includes messageText "audio".toList ||
   includes messageText "song".toList)

/-- The list `songTerms` of line 781. -/
def songTerms : List Str :=
  ["song".toList, "music".toList, "audio".toList, "tune".toList, "melody".toList,
   "compose".toList]

/-- The list `audioVerbs` of line 782. -/
def audioVerbs : List Str :=
  ["generate".toList, "create".toList, "make".toList, "compose".toList, "play".toList]

/-- The test `isAudioRequest` of lines 784-788. -/
def isAudioRequest (messageText : Str) : Bool :=
  songTerms.any (fun term => includes messageText term) &&
  (audioVerbs.any (fun verb => includes messageText verb) ||
   startsWith messageText "play".toList ||
   startsWith messageText "sing".toList)

/-- The test `isImageRequest` of lines 790-799. -/
def isImageRequest (messageText : Str) : Bool :=
  !isAudioRequest messageText &&
  ((includes messageText "image".toList ||
    includes messageText "picture".toList ||
    includes messageText "photo".toList ||
    includes messageText "drawing".toList) &&
   (includes messageText "generate".toList ||
    includes messageText "create".toList ||
    includes messageText "draw".toList ||
    includes messageText "make".toList))

/-- Intent tag of a user text. -/
inductive Intent where
  | none
  | image
  | audio
deriving DecidableEq, Repr

/-- The tag chosen by the `if` / `else if` of lines 801-809. -/
def classifyIntent (messageText : Str) : Intent :=
  if isAudioRequest messageText then Intent.audio
  else if isImageRequest messageText then Intent.image
  else Intent.none

/-- The value `handleSendMessage` leaves in `generatingMediaType` for an intent. -/
def Intent.mediaTypeTag : Intent → Option Str
  | Intent.none => Option.none
  | Intent.image => some "image".toList
  | Intent.audio => some "audio".toList

/-- The test of line 763 (a regular expression with flag `i` anchored at the end):
the file name ends in an image extension, whatever the case of its ASCII letters. -/
def isImageFile (fileUrl : Str) : Bool :=
  [".jpg".toList, ".jpeg".toList, ".png".toList, ".gif".toList, ".webp".toList].any
    (fun ext => endsWith (fileUrl.map Char.toLower) ext)

/-- The options of `handleSendMessage` that it reads. -/
structure SendOptions where
  file_url : Option Str
  deep_research : Bool
  use_agent : Bool

/-- The copy `userMessage` built at lines 758-770. -/
def buildUserMessage (message : Message) (options : SendOptions) : Message :=
  if truthy options.file_url then
    let fileUrl := options.file_url.getD []
    if isImageFile fileUrl then
      { message with
        content := message.content ++ "\n\n![Uploaded Image](".toList ++ fileUrl ++ ")".toList }
    else
      { message with
        content := message.content ++ "\n\n[Uploaded File](".toList ++ fileUrl ++ ")".toList }
  else message

/-- The state cells and refs of the component outside the stream handlers, around the
cells the stream handlers write (`view`). -/
structure Session where
  view : ChatState
  user : Bool
  chatTitle : Str
  isLoadingChat : Bool
  mediaType : Option Str
  chatLastUpdatedRef : Option Str
  saveInProgress : Bool
deriving DecidableEq, Repr

/-- The state cells a function created during one render closes over. Refs are not part
of it: a function reads them from the session when it runs. -/
structure Render where
  user : Bool
  threadId : Option Str
  chatTitle : Str
  isLoadingChat : Bool
  messages : List Message
  isGeneratingMedia : Bool
deriving DecidableEq, Repr

/-- The render of the current state. -/
def renderOf (s : Session) : Render :=
  { user := s.user, threadId := s.view.threadId, chatTitle := s.chatTitle,
    isLoadingChat := s.isLoadingChat, messages := s.view.messages,
    isGeneratingMedia := s.view.isGeneratingMedia }

/-- The stream handler `handleSendMessage` starts, lines 813-819. -/
inductive Dispatch where
  /-- The message is not a user message: line 774 returns. -/
  | nothing
  /-- `handleReactAgentStreamingRequest(userMessage, options)`. -/
  | research (userMessage : Message)
  /-- `handleChatStreamingRequest(userMessage, options)`. -/
  | chat (userMessage : Message)
deriving DecidableEq, Repr

/-- The synchronous part of `handleSendMessage`, lines 755-811: the state it leaves. -/
def handleSendMessage (message : Message) (options : SendOptions) (s : Session) : Session :=
  let userMessage := buildUserMessage message options
  let s1 : Session :=
    { s with
      chatLastUpdatedRef := Option.none
      view := { s.view with messages := sendUpdate userMessage s.view.messages } }
  if userMessage.role = "user".toList then
    let messageText := toLowerCase userMessage.content
    let intent := classifyIntent messageText
    { s1 with
      mediaType :=
        match intent with
        | Intent.audio => some "music".toList
        | Intent.image => some "image".toList
        | Intent.none => s1.mediaType
      view :=
        { s1.view with
          isGeneratingMedia := intent != Intent.none
          generatingMediaType := intent.mediaTypeTag
          isLoading := true } }
  else s1

/-- The handler call at the end of `handleSendMessage`, lines 813-819. -/
def dispatchOf (message : Message) (options : SendOptions) : Dispatch :=
  let userMessage := buildUserMessage message options
  if userMessage.role = "user".toList then
    if options.deep_research then Dispatch.research userMessage
    else Dispatch.chat userMessage
  else Dispatch.nothing

/-- The closure of the `handleChatStreamingRequest` that `handleSendMessage` calls: the
handler of the same render, so its `threadId` and `isGeneratingMedia` are the values of
that render, not the ones `handleSendMessage` has just set. -/
def chatClosureOf (r : Render) (userMessage : Message) (clock : Nat → Nat) : Closure :=
  { threadId := r.threadId, isGeneratingMedia := r.isGeneratingMedia,
    isMediaRequest := isMediaRequestOf (toLowerCase userMessage.content), clock := clock }

/-! ## Persistence: `saveChat`, `loadChat`, `updateChatTitle`

The records of the persistence service are typed like the wire events: identities and
titles are text, the last-updated value and the identity of a save response may be
absent. `fetchChatHistory()` only refreshes the sidebar list and is left out. -/

/-- A request to the persistence service. -/
inductive RemoteWrite where
  /-- `POST /api/chat/save` with body `{ chatId, title, messages }`. -/
  | create (chatId : Str) (title : Str) (messages : List Message)
  /-- `PUT /api/chat/${chatId}/update` with body `{ title, messages, preserveTimestamp }`;
  the flag is `true` exactly when the value sent is `true`. -/
  | update (chatId : Str) (title : Str) (messages : List Message) (preserveTimestamp : Bool)
deriving DecidableEq, Repr

/-- The message list a request carries. -/
def RemoteWrite.messages : RemoteWrite → List Message
  | RemoteWrite.create _ _ msgs => msgs
  | RemoteWrite.update _ _ msgs _ => msgs

/-- The title a request carries. -/
def RemoteWrite.title : RemoteWrite → Str
  | RemoteWrite.create _ title _ => title
  | RemoteWrite.update _ title _ _ => title

/-- Whether a request asks the store to keep its timestamp. -/
def RemoteWrite.preservesTimestamp : RemoteWrite → Bool
  | RemoteWrite.create _ _ _ => false
  | RemoteWrite.update _ _ _ flag => flag

/-- Line 448: `threadId || chatIdRef.current`. -/
def effectiveChatId (threadId : Option Str) (chatIdRef : Str) : Str :=
  match threadId with
  | some (c :: rest) => c :: rest
  | _ => chatIdRef

/-- Lines 449-456: the title of the request. -/
def deriveTitle (chatTitle : Str) (currentMessages : List Message) : Str :=
  if chatTitle = "New Chat".toList ∧ currentMessages.length > 0 then
    match currentMessages.find? (fun m => m.role == "user".toList) with
    | some firstUserMsg =>
      if firstUserMsg.content.length > 30 then
        substring firstUserMsg.content 0 30 ++ "...".toList
      else substring firstUserMsg.content 0 30
    | none => chatTitle
  else chatTitle

/-- Line 441: `currentMessages[currentMessages.length - 1]?.isTemporary`. -/
def lastIsTemporary (currentMessages : List Message) : Bool :=
  match currentMessages.getLast? with
  | some last => last.isTemporary
  | none => false

/-- The guards of lines 434-443: `true` when `saveChat` goes on to line 445. -/
def saveChatProceeds (r : Render) (currentMessages : List Message) (s : Session) : Bool :=
  !(!r.user || currentMessages.length == 0 ||
      !currentMessages.any (fun m => m.role == "user".toList) || r.isLoadingChat) &&
  !s.saveInProgress &&
  !lastIsTemporary currentMessages

/-- Lines 448-488 of `saveChat`: the request it sends. -/
def saveChatRequest (r : Render) (currentMessages : List Message) (s : Session) :
    RemoteWrite :=
  let chatId := effectiveChatId r.threadId s.view.chatIdRef
  let title := deriveTitle r.chatTitle currentMessages
  let messagesToSave := currentMessages.filter (fun msg => !msg.isTemporary)
  let isJustLoading :=
    truthy s.chatLastUpdatedRef &&
    !startsWith chatId "temp_".toList &&
    !startsWith chatId "new_".toList
  if !chatId.isEmpty && !startsWith chatId "temp_".toList && !startsWith chatId "new_".toList
  then RemoteWrite.update chatId title messagesToSave isJustLoading
  else RemoteWrite.create chatId title messagesToSave

/-- The part of `saveChat` before its `await`, lines 433-488: `none` when a guard returns,
else the request sent. -/
def saveChatBegin (r : Render) (currentMessages : List Message) (s : Session) :
    Option RemoteWrite :=
  if saveChatProceeds r currentMessages s then some (saveChatRequest r currentMessages s)
  else none

/-- The record `response.data.chat` of a save response. -/
structure SavedChat where
  id : Option Str
  title : Str
  lastUpdated : Option Str
deriving DecidableEq, Repr

/-- What the awaited request of `saveChat` or `updateChatTitle` gives. -/
inductive SaveReply where
  /-- The request rejects or throws. -/
  | failed
  /-- A response with `success` false. -/
  | refused
  /-- A response with `success` true and the stored record. -/
  | succeeded (chat : SavedChat)
deriving DecidableEq, Repr

/-- Lines 490-504: the handling of a response with `success` true. `threadId` is the one
of the closure, `title` the local variable of lines 449-456. -/
def saveChatSuccess (r : Render) (title : Str) (chat : SavedChat) (s : Session) : Session :=
  let s1 : Session :=
    if truthy chat.id &&
        (!truthy r.threadId || startsWith (r.threadId.getD []) "temp_".toList) then
      { s with view := { s.view with threadId := chat.id, chatIdRef := chat.id.getD [] } }
    else s
  let s2 : Session :=
    if title == "New Chat".toList || endsWith title "...".toList then
      { s1 with chatTitle := chat.title }
    else s1
  { s2 with chatLastUpdatedRef := chat.lastUpdated }

/-- The part of `saveChat` after its `await`, lines 490-510, with the `finally` block. -/
def saveChatFinish (r : Render) (title : Str) (reply : SaveReply) (s : Session) : Session :=
  match reply with
  | SaveReply.succeeded chat => { saveChatSuccess r title chat s with saveInProgress := false }
  | _ => { s with saveInProgress := false }

/-- Model of one uninterrupted `saveChat(currentMessages)`, lines 433-511: the request it
sends, if any, and the session it leaves. -/
def saveChat (r : Render) (currentMessages : List Message) (reply : SaveReply)
    (s : Session) : Option RemoteWrite × Session :=
  match saveChatBegin r currentMessages s with
  | none => (none, s)
  | some w => (some w, saveChatFinish r w.title reply { s with saveInProgress := true })

/-- The record `response.data.chat` of a load response. -/
structure LoadedChat where
  messages : List Message
  title : Str
  chatId : Str
  lastUpdated : Option Str
deriving DecidableEq, Repr

/-- Model of `loadChat`, lines 822-847, after its `await`: `none` stands for a request
that fails or a response without `success`. -/
def loadChat (reply : Option LoadedChat) (s : Session) : Session :=
  match reply with
  | some chatData =>
    { s with
      view :=
        { s.view with
          messages := chatData.messages
          threadId := some chatData.chatId
          chatIdRef := chatData.chatId }
      chatTitle := chatData.title
      chatLastUpdatedRef :=
        if truthy chatData.lastUpdated then chatData.lastUpdated else s.chatLastUpdatedRef
      isLoadingChat := false }
  | none => { s with isLoadingChat := false }

/-- The request of `updateChatTitle`, lines 1342-1351: `none` when the guard returns. The
body has no `preserveTimestamp`. -/
def updateChatTitleRequest (r : Render) (newTitle : Str) : Option RemoteWrite :=
  if !r.user || !truthy r.threadId || startsWith (r.threadId.getD []) "temp_".toList ||
      r.isLoadingChat then none
  else some (RemoteWrite.update (r.threadId.getD []) newTitle r.messages false)

/-- Model of `updateChatTitle`, lines 1342-1360. -/
def updateChatTitle (r : Render) (newTitle : Str) (reply : SaveReply) (s : Session) :
    Option RemoteWrite × Session :=
  match updateChatTitleRequest r newTitle with
  | none => (none, s)
  | some w =>
    match reply with
    | SaveReply.succeeded _ => (some w, { s with chatTitle := newTitle })
    | _ => (some w, s)

/-! ## `clearConversation` and the debounced save -/

/-- Decimal digits of a number, as a template literal prints it. -/
def decimal (n : Nat) : Str := (Nat.repr n).toList

/-- Model of `clearConversation`, lines 849-854; `now` is the value of `Date.now()`. -/
def clearConversation (now : Nat) (s : Session) : Session :=
  { s with
    view := { s.view with
              messages := []
              threadId := none
              chatIdRef := "temp_".toList ++ decimal now }
    chatTitle := "New Chat".toList }

/-- The guards of the effect of lines 513-524: `true` when it goes on to set its timer. -/
def effectProceeds (r : Render) : Bool :=
  !(!r.user || r.messages.length == 0 ||
      !r.messages.any (fun m => m.role == "user".toList) || r.isLoadingChat) &&
  !lastIsTemporary r.messages

/-- A handler other than `saveChat` applied to the session: the in-flight flag is kept. -/
def keepFlag (run : Session → Session) (s : Session) : Session :=
  { run s with saveInProgress := s.saveInProgress }

/-- What can happen to the component, as far as saving is concerned. -/
inductive Occurrence where
  /-- A handler other than `saveChat` runs and takes the session `s` to `run s`;
  `saveInProgress` stays as it is, since only `saveChat` writes it. `messagesSet` tells
  whether the handler called `setMessages`, which makes the effect of lines 513-524 clean
  up and run again. -/
  | handler (run : Session → Session) (messagesSet : Bool)
  /-- A stream updater calls `saveChat(msgs)`, the function of the render `r`. -/
  | direct (r : Render) (msgs : List Message)
  /-- The response to the oldest request of `saveChat` in flight arrives. -/
  | reply (reply : SaveReply)

/-- The component over time: the session, the pending timer of the effect with the time
it is due and the render that set it, the `saveChat` calls awaiting their response with
their closure and local `title`, and the requests sent so far with their times (ms). -/
structure Timeline where
  session : Session
  timer : Option (Nat × Render)
  inFlight : List (Render × Str)
  writes : List (Nat × RemoteWrite)

/-- A call `saveChat(msgs)` of the render `r` at time `t`, up to its `await`. -/
def callSave (t : Nat) (r : Render) (msgs : List Message) (tl : Timeline) : Timeline :=
  match saveChatBegin r msgs tl.session with
  | none => tl
  | some w =>
    { tl with
      session := { tl.session with saveInProgress := true }
      inFlight := tl.inFlight ++ [(r, w.title)]
      writes := tl.writes ++ [(t, w)] }

/-- The timer of the effect fires when it is due at time `t`: line 520 calls
`saveChat(messages)` with the function and the list of the render that set the timer. -/
def fireDue (t : Nat) (tl : Timeline) : Timeline :=
  match tl.timer with
  | some (due, r) =>
    if due ≤ t then callSave due r r.messages { tl with timer := none } else tl
  | none => tl

/-- The effect of lines 513-524 after a commit at time `t` that changed `messages`: the
clean-up clears the timer, and the effect sets a new one of 2000 ms when its guards pass. -/
def rerunEffect (t : Nat) (tl : Timeline) : Timeline :=
  { tl with
    timer := if effectProceeds (renderOf tl.session) then some (t + 2000, renderOf tl.session)
             else none }

/-- One occurrence at time `t`, after the timer has fired if it was due. -/
def occur (tl : Timeline) (ev : Nat × Occurrence) : Timeline :=
  let tl1 := fireDue ev.1 tl
  match ev.2 with
  | Occurrence.handler run messagesSet =>
    let tl2 : Timeline := { tl1 with session := keepFlag run tl1.session }
    if messagesSet then rerunEffect ev.1 tl2 else tl2
  | Occurrence.direct r msgs => callSave ev.1 r msgs tl1
  | Occurrence.reply reply =>
    match tl1.inFlight with
    | [] => tl1
    | (r, title) :: rest =>
      { tl1 with session := saveChatFinish r title reply tl1.session, inFlight := rest }

/-- The occurrences in order, then quiet until time `quietUntil`. -/
def runTimeline (tl : Timeline) (events : List (Nat × Occurrence)) (quietUntil : Nat) :
    Timeline :=
  fireDue quietUntil (events.foldl occur tl)

/-- A timeline that starts in the given session with no timer and nothing in flight. -/
def timelineOf (s : Session) : Timeline :=
  { session := s, timer := none, inFlight := [], writes := [] }

/-- The number of `saveChat` calls awaiting their response agrees with the in-flight flag:
one when it is set, none when it is clear. -/
def flagMatchesInFlight (tl : Timeline) : Bool :=
  tl.inFlight.length == (if tl.session.saveInProgress then 1 else 0)

/-- Each time of the list is at or after the previous one and less than 2000 ms after
it; `prev` is the time before the first. -/
def withinWindow : Nat → List (Nat × (Session → Session)) → Bool
  | _, [] => true
  | prev, (t, _) :: rest => decide (prev ≤ t) && decide (t < prev + 2000) && withinWindow t rest

/-- A burst of message changes as occurrences: each is a handler that set `messages`. -/
def burstOf (changes : List (Nat × (Session → Session))) : List (Nat × Occurrence) :=
  changes.map (fun p => (p.1, Occurrence.handler p.2 true))

/-- The session after the handlers of a burst ran in order. -/
def burstSession (s : Session) (changes : List (Nat × (Session → Session))) : Session :=
  changes.foldl (fun acc p => keepFlag p.2 acc) s

/-- The time of the last change of a burst. -/
def lastTime (first : Nat × (Session → Session)) (rest : List (Nat × (Session → Session))) :
    Nat :=
  (rest.getLast?.getD first).1

/-- The timeline right after a handler set `messages` at time `p.1`, when no timer was
due: the handler has run and the effect has run again. -/
def afterChange (tl : Timeline) (p : Nat × (Session → Session)) : Timeline :=
  rerunEffect p.1 { tl with session := keepFlag p.2 tl.session }

/-- Every request sent so far carries committed messages only. -/
def writesCommitted (tl : Timeline) : Bool :=
  tl.writes.all (fun w => w.2.messages.all (fun msg => !msg.isTemporary))

/-! ## The steps of a conversation that has not been stored -/

/-- The state of the component when it mounts, lines 219-246; `now` is the value of
`Date.now()` and `user` tells whether a user is signed in. -/
def initialSession (now : Nat) (user : Bool) : Session :=
  { view :=
      { messages := [], threadId := none, chatIdRef := "temp_".toList ++ decimal now,
        agentStatus := [], isLoading := false, isGeneratingMedia := false,
        generatingMediaType := none, fullResponse := [], saveChatCalls := [],
        dateNowCalls := 0 }
    user := user, chatTitle := "New Chat".toList, isLoadingChat := false,
    mediaType := none, chatLastUpdatedRef := none, saveInProgress := false }

/-- Whether a stream event carries a truthy `thread_id`. -/
def StreamEvent.carriesThreadId : StreamEvent → Bool
  | StreamEvent.done thread_id => truthy thread_id
  | StreamEvent.result _ thread_id => truthy thread_id
  | _ => false

/-- The steps of a conversation that has not been stored: everything the component does
to the session except `loadChat` and a `saveChat` response with `success` true. -/
inductive Step where
  /-- The synchronous part of `handleSendMessage`. -/
  | send (message : Message) (options : SendOptions)
  /-- The start of `handleChatStreamingRequest` with the closure `env`. -/
  | chatStarted (env : Closure)
  /-- One event of the chat stream. -/
  | chatEvent (env : Closure) (e : StreamEvent)
  /-- The `catch` block of `handleChatStreamingRequest`. -/
  | chatFailed
  /-- The start of `handleReactAgentStreamingRequest`. -/
  | researchStarted
  /-- One event of the research stream. -/
  | researchEvent (env : Closure) (tempMessageId : Nat) (e : StreamEvent)
  /-- The `catch` block of `handleReactAgentStreamingRequest`. -/
  | researchFailed
  /-- The `finally` block of `handleReactAgentStreamingRequest`. -/
  | researchEnded
  /-- A call of `saveChat` up to its `await`. -/
  | saveBegun (r : Render) (msgs : List Message)
  /-- The request of `saveChat` rejects (`refused` false) or is answered without success. -/
  | saveUnsuccessful (r : Render) (title : Str) (refused : Bool)
  /-- A call of `updateChatTitle` with its response. -/
  | renamed (r : Render) (newTitle : Str) (reply : SaveReply)
  /-- A call of `clearConversation` when `Date.now()` is `now`. -/
  | cleared (now : Nat)

/-- The session after one step. -/
def applyStep (s : Session) : Step → Session
  | Step.send message options => handleSendMessage message options s
  | Step.chatStarted env => { s with view := chatStart env s.view }
  | Step.chatEvent env e => { s with view := chatApplyEvent env s.view e }
  | Step.chatFailed => { s with view := chatCatch s.view }
  | Step.researchStarted => { s with view := reactStart s.view }
  | Step.researchEvent env tempMessageId e =>
    { s with view := reactApplyEvent env tempMessageId s.view e }
  | Step.researchFailed => { s with view := reactCatch s.view }
  | Step.researchEnded => { s with view := reactFinally s.view }
  | Step.saveBegun r msgs =>
    match saveChatBegin r msgs s with
    | some _ => { s with saveInProgress := true }
    | none => s
  | Step.saveUnsuccessful r title refused =>
    saveChatFinish r title (if refused then SaveReply.refused else SaveReply.failed) s
  | Step.renamed r newTitle reply => (updateChatTitle r newTitle reply s).2
  | Step.cleared now => clearConversation now s

/-- Whether a step is a stream event with a truthy `thread_id`. -/
def Step.carriesThreadId : Step → Bool
  | Step.chatEvent _ e => e.carriesThreadId
  | Step.researchEvent _ _ e => e.carriesThreadId
  | _ => false

/-- A conversation that has no identity yet: no `threadId` and a client-local id that
starts with `temp_`. -/
def isUnsaved (s : Session) : Bool :=
  !truthy s.view.threadId && startsWith s.view.chatIdRef "temp_".toList

/-! ## `saveChat` when the client-local id may be absent

`loadChat` stores `chatData.chatId` without a test (lines 833-834): after a record
without `chatId`, `threadId` and `chatIdRef.current` are both `undefined`. The definitions
below follow lines 448-488 for that case too. When the client-local id is a text they
give the request of `saveChatRequest`. -/

/-- The cells `saveChat` reads to choose its endpoint: the `threadId` of its closure,
`chatIdRef.current` and `chatLastUpdatedRef.current`; each is a text or absent (`null`
or `undefined`). -/
structure IdentityCells where
  threadId : Option Str
  chatIdRef : Option Str
  lastUpdated : Option Str
deriving DecidableEq, Repr

/-- Lines 833-838 of `loadChat` on a record whose `chatId` and `lastUpdated` may be
absent. -/
def loadChatCells (chatId lastUpdated : Option Str) (cells : IdentityCells) : IdentityCells :=
  { threadId := chatId
    chatIdRef := chatId
    lastUpdated := if truthy lastUpdated then lastUpdated else cells.lastUpdated }

/-- Line 448, `threadId || chatIdRef.current`, with an id that may be absent. -/
def chatIdOf (threadId chatIdRef : Option Str) : Option Str :=
  if truthy threadId then threadId else chatIdRef

/-- What lines 448-488 do once the guards have passed. -/
inductive SaveAttempt where
  /-- `chatId.startsWith` is called on `undefined` at line 464: the `TypeError` is caught at
  line 505, no request is sent. -/
  | threw
  /-- The request is sent. -/
  | sent (w : RemoteWrite)
  /-- `POST /api/chat/save` with body `{ title, messages }`: `chatId` is `undefined` and
  is left out of the body. -/
  | sentWithoutId (title : Str) (messages : List Message)
deriving DecidableEq, Repr

/-- Lines 448-488 of `saveChat` over cells that may be absent. Line 463 reads `chatId`
only when a last-updated value is recorded; line 470 tests `chatId` first. -/
def saveChatAttempt (cells : IdentityCells) (chatTitle : Str)
    (currentMessages : List Message) : SaveAttempt :=
  let title := deriveTitle chatTitle currentMessages
  let messagesToSave := currentMessages.filter (fun msg => !msg.isTemporary)
  match chatIdOf cells.threadId cells.chatIdRef with
  | none =>
    if truthy cells.lastUpdated then SaveAttempt.threw
    else SaveAttempt.sentWithoutId title messagesToSave
  | some chatId =>
    let isJustLoading :=
      truthy cells.lastUpdated &&
      !startsWith chatId "temp_".toList &&
      !startsWith chatId "new_".toList
    if !chatId.isEmpty && !startsWith chatId "temp_".toList && !startsWith chatId "new_".toList
    then SaveAttempt.sent (RemoteWrite.update chatId title messagesToSave isJustLoading)
    else SaveAttempt.sent (RemoteWrite.create chatId title messagesToSave)

/-! ## Cookies of the authentication controller -/

/-- The options object passed to `res.cookie`. -/
structure CookieOptions where
  httpOnly : Bool
  secure : Bool
  sameSite : Str
  path : Str
  maxAge : Nat
deriving DecidableEq, Repr

/-- A call `res.cookie(name, token, options)`, without the token. -/
structure CookieCall where
  name : Str
  options : CookieOptions
deriving DecidableEq, Repr

/-- The cookie of `generateToken` in `controllers/authController.js`, lines 135-141. -/
def generateTokenCookie : CookieCall :=
  { name := "jwt".toList,
    options := { httpOnly := true, secure := true, sameSite := "none".toList,
                 path := "/".toList, maxAge := 30 * 24 * 60 * 60 * 1000 } }

/-- The cookie of `generateToken` in `lib/utils.js`, lines 9-15. -/
def utilsGenerateTokenCookie : CookieCall :=
  { name := "jwt".toList,
    options := { httpOnly := true, secure := true, sameSite := "none".toList,
                 path := "/".toList, maxAge := 30 * 24 * 60 * 60 * 1000 } }

/-- The cookie of `googleCallback`, lines 160-166; `nodeEnv` is `process.env.NODE_ENV`. -/
def googleCallbackCookie (nodeEnv : Option Str) : CookieCall :=
  { name := "jwt".toList,
    options := { httpOnly := true,
                 secure := nodeEnv == some "production".toList,
                 sameSite := if nodeEnv == some "production".toList then "none".toList
                             else "lax".toList,
                 path := "/".toList, maxAge := 30 * 24 * 60 * 60 * 1000 } }

/-! ## Reference definitions for the line decoder, following the specification -/

/-- The newline-terminated segments of a text, in order: every piece of the split on the
newline except the last, which no newline terminates. -/
def terminatedSegments (text : Str) : List Str :=
  (splitOnChar '\n' text).dropLast

/-- The text after the last newline (the whole text when it has no newline). -/
def unterminatedTail (text : Str) : Str :=
  (text.reverse.takeWhile (fun c => c != '\n')).reverse

/-- The newline-terminated segments, each trimmed, without those that are empty after
trimming. -/
def trimmedLines (text : Str) : List Str :=
  ((terminatedSegments text).map trim).filter (fun line => !line.isEmpty)

/-- The stream text of a sequence of complete lines: each line followed by a newline. -/
def joinLines (lines : List Str) : Str :=
  (lines.map (fun line => line ++ ['\n'])).flatten

/-! ## Reference definition of the intent, following the specification -/

/-- The text contains at least one of the terms. -/
def containsAny (s : Str) (terms : List Str) : Bool :=
  terms.any (fun term => includes s term)

/-- The intent of a lower-cased text `s`: audio when `s` contains a song term and either
contains an audio verb or starts with `play` or `sing`; otherwise image when `s` contains
a visual noun and a generation verb; otherwise none. -/
def referenceIntent (s : Str) : Intent :=
  if containsAny s ["song".toList, "music".toList, "audio".toList, "tune".toList,
        "melody".toList, "compose".toList] &&
      (containsAny s ["generate".toList, "create".toList, "make".toList, "compose".toList,
          "play".toList] ||
        startsWith s "play".toList || startsWith s "sing".toList) then Intent.audio
  else if containsAny s ["image".toList, "picture".toList, "photo".toList,
        "drawing".toList] &&
      containsAny s ["generate".toList, "create".toList, "draw".toList, "make".toList]
    then Intent.image
  else Intent.none

/-! ## Sample inputs -/

/-- Sample user message `hi`. -/
def sampleUser : Message :=
  { role := "user".toList, content := "hi".toList, isTemporary := false, id := none }

/-- Sample closure of a plain text exchange in a new conversation. -/
def sampleClosure : Closure :=
  { threadId := none, isGeneratingMedia := false, isMediaRequest := false,
    clock := fun k => 1000 + k }

/-- Sample closure of a media exchange in a new conversation. -/
def sampleMediaClosure : Closure :=
  { threadId := none, isGeneratingMedia := false, isMediaRequest := true,
    clock := fun k => 1000 + k }

/-- Sample state: a new conversation right after the user message `hi` was appended. -/
def sampleState : ChatState :=
  { messages := [sampleUser], threadId := none, chatIdRef := "temp_1".toList,
    agentStatus := [], isLoading := false, isGeneratingMedia := false,
    generatingMediaType := none, fullResponse := [], saveChatCalls := [], dateNowCalls := 0 }

/-- Sample state with a placeholder that already holds `Hel`. -/
def sampleStreaming : ChatState :=
  { sampleState with
    messages := [sampleUser, { chatPlaceholder 1000 with content := "Hel".toList }]
    dateNowCalls := 1 }

/-- Sample list left behind by a research exchange whose stream ended without a result
line, after the next user message was appended. -/
def sampleLeftover : List Message :=
  sendUpdate sampleUser [sampleUser, reactPlaceholder 5]

/-- Wire line `{"type":"status","status":"thinking"}`. -/
def lineStatus : Str := "\x7b\"type\":\"status\",\"status\":\"thinking\"\x7d".toList

/-- Wire line `{"type":"chunk","chunk":"Hel"}`. -/
def lineChunkHel : Str := "\x7b\"type\":\"chunk\",\"chunk\":\"Hel\"\x7d".toList

/-- Wire line `{"type":"chunk","chunk":"lo"}`. -/
def lineChunkLo : Str := "\x7b\"type\":\"chunk\",\"chunk\":\"lo\"\x7d".toList

/-- Wire line `{"type":"chunk","chunk":"hi"}`. -/
def lineChunkHi : Str := "\x7b\"type\":\"chunk\",\"chunk\":\"hi\"\x7d".toList

/-- Wire line `{"type":"done"}`. -/
def lineDone : Str := "\x7b\"type\":\"done\"\x7d".toList

/-- A line that is not JSON. -/
def lineMalformed : Str := "\x7boops".toList

/-- The stream text of scenario A: status, chunk `Hel`, chunk `lo`, done, one per line. -/
def scenarioA : Str :=
  lineStatus ++ ['\n'] ++ lineChunkHel ++ ['\n'] ++ lineChunkLo ++ ['\n'] ++ lineDone ++ ['\n']

/-- The committed assistant message `Hello` with the id of the placeholder. -/
def helloMessage (id : Nat) : Message :=
  { role := "assistant".toList, content := "Hello".toList, isTemporary := false, id := some id }

/-- First network chunk of the split line: `{"type":"ch`. -/
def fragmentHead : Str := "\x7b\"type\":\"ch".toList

/-- Second network chunk of the split line: `unk","chunk":"hi"}` and the newline. -/
def fragmentRest : Str := "unk\",\"chunk\":\"hi\"\x7d\n".toList

/-- A committed assistant message whose content contains `Generating`. -/
def sampleNote : Message :=
  { role := "assistant".toList, content := "Generating ideas is fun".toList,
    isTemporary := false, id := none }

/-- The assistant message carried by a sample result event. -/
def sampleResult : Message :=
  { role := "assistant".toList, content := "https://x.test/cat.png".toList,
    isTemporary := false, id := none }

/-- The view of a new conversation: no message, no thread, a client-local id. -/
def newView : ChatState :=
  { messages := [], threadId := none, chatIdRef := "temp_1".toList,
    agentStatus := [], isLoading := false, isGeneratingMedia := false,
    generatingMediaType := none, fullResponse := [], saveChatCalls := [], dateNowCalls := 0 }

/-- The session of a signed-in user who has not sent anything yet. -/
def newSession : Session :=
  { view := newView, user := true, chatTitle := "New Chat".toList, isLoadingChat := false,
    mediaType := none, chatLastUpdatedRef := none, saveInProgress := false }

/-- Options of a plain send: no file, no research, no agent. -/
def plainOptions : SendOptions :=
  { file_url := none, deep_research := false, use_agent := false }

/-- A user message with the given text. -/
def userText (text : Str) : Message :=
  { role := "user".toList, content := text, isTemporary := false, id := none }

/-- The session after the user message `hi` and its committed answer `Hello`. -/
def answeredSession : Session :=
  { newSession with view := { newView with messages := [sampleUser, helloMessage 1000] } }

/-- A session that holds a conversation of the store under the identity `abc`, with the
placeholder of a running exchange at the end of its list. -/
def storedStreaming : Session :=
  { newSession with
    view :=
      { newView with
        messages := [sampleUser, chatPlaceholder 1000]
        threadId := some "abc".toList
        chatIdRef := "abc".toList }
    chatTitle := "Greetings".toList }

/-- A user message of forty characters. -/
def longUser : Message :=
  userText "0123456789012345678901234567890123456789".toList

/-- The record the store answers with after saving the sample conversation. -/
def sampleSaved : SavedChat :=
  { id := some "srv9".toList, title := "hi".toList, lastUpdated := some "t2".toList }

/-- A stored conversation without a last-updated value. -/
def sampleLoadedBare : LoadedChat :=
  { messages := [sampleUser, helloMessage 1000], title := "Greetings".toList,
    chatId := "abc".toList, lastUpdated := none }

/-- A session whose thread identity begins with `new_`, after an answered exchange. -/
def newPrefixedSession : Session :=
  { answeredSession with
    view := { answeredSession.view with
              threadId := some "new_1".toList, chatIdRef := "new_1".toList } }

/-- A stored conversation with a last-updated value. -/
def sampleLoaded : LoadedChat :=
  { messages := [sampleUser, helloMessage 1000], title := "Greetings".toList,
    chatId := "abc".toList, lastUpdated := some "t1".toList }

/-- A view whose thread identity `T1` was adopted after the render of `newSession`. -/
def staleView : ChatState :=
  { newView with
    messages := [sampleUser, helloMessage 1000]
    threadId := some "T1".toList
    chatIdRef := "T1".toList }

/-- The session while the answer to `hi` is streaming in a new conversation. -/
def streamingSession : Session :=
  { newSession with view := sampleStreaming }

/-- The session right after the done event of that exchange. -/
def doneSession : Session :=
  { streamingSession with
    view := chatApplyEvent sampleClosure sampleStreaming (StreamEvent.done none) }

/-- The done event of the sample exchange over time: its updater calls `saveChat` at
once with the function of the render of the send, the commit runs the effect, and the
response of the store arrives 100 ms later. -/
def doneOccurrences : List (Nat × Occurrence) :=
  [(0, Occurrence.direct (renderOf newSession) doneSession.view.messages),
   (0, Occurrence.handler
      (fun s => { s with view := chatApplyEvent sampleClosure s.view (StreamEvent.done none) })
      true),
   (100, Occurrence.reply (SaveReply.succeeded sampleSaved))]

/-- A burst of two message changes 200 ms apart in a new conversation: the send of the
user message `hi`, then the committed answer `Hello`. -/
def sampleBurstRest : List (Nat × (Session → Session)) :=
  [(200, fun s => { s with view := { s.view with
      messages := plainResultUpdate (helloMessage 1000) s.view.messages } })]

/-- The first change of the sample burst. -/
def sampleBurstFirst : Nat × (Session → Session) :=
  (0, handleSendMessage sampleUser plainOptions)

/-- The done event of the sample exchange carrying the thread identity `T1`, with a
store that rejects the request of the updater. -/
def adoptOccurrences : List (Nat × Occurrence) :=
  [(0, Occurrence.direct (renderOf newSession) doneSession.view.messages),
   (0, Occurrence.handler
      (fun s => { s with view := chatApplyEvent sampleClosure s.view
                                   (StreamEvent.done (some "T1".toList)) })
      true),
   (100, Occurrence.reply SaveReply.failed)]

/-- The same done event with a store that answers the request of the updater. -/
def adoptThenSaved : List (Nat × Occurrence) :=
  [(0, Occurrence.direct (renderOf newSession) doneSession.view.messages),
   (0, Occurrence.handler
      (fun s => { s with view := chatApplyEvent sampleClosure s.view
                                   (StreamEvent.done (some "T1".toList)) })
      true),
   (100, Occurrence.reply (SaveReply.succeeded sampleSaved))]

/-- The session after the stored conversation `abc` was loaded. -/
def loadedSession : Session := loadChat (some sampleLoaded) newSession

/-- A user message that asks for an image. -/
def imageRequest : Message := userText "generate an image of a cat".toList

/-- The closure of the chat handler that the send of `imageRequest` starts. -/
def imageClosure : Closure :=
  chatClosureOf (renderOf loadedSession) imageRequest (fun k => 1000 + k)

/-- The list the result updater of the image exchange computes. -/
def imageResultMessages : List Message :=
  chatResultUpdate imageClosure.isMediaRequest sampleResult
    (handleSendMessage imageRequest plainOptions loadedSession).view.messages

/-- An image exchange in the loaded conversation over time: the send at 0, the response
to the debounced save at 2100, and the result event at 9000, whose updater calls
`saveChat` with the function of the render of the send. -/
def imageOccurrences : List (Nat × Occurrence) :=
  [(0, Occurrence.handler (handleSendMessage imageRequest plainOptions) true),
   (2100, Occurrence.reply (SaveReply.succeeded
      { id := some "abc".toList, title := "Greetings".toList,
        lastUpdated := some "t2".toList })),
   (9000, Occurrence.direct (renderOf loadedSession) imageResultMessages),
   (9000, Occurrence.handler
      (fun s => { s with view := chatApplyEvent imageClosure s.view
                                   (StreamEvent.result sampleResult none) })
      true)]

/-- A plain exchange without a `thread_id`: send, placeholder, one chunk, done. -/
def sampleSteps : List Step :=
  [Step.send sampleUser plainOptions,
   Step.chatStarted sampleClosure,
   Step.chatEvent sampleClosure (StreamEvent.chunk "Hello".toList),
   Step.chatEvent sampleClosure (StreamEvent.done none)]

/-- The identity cells of a new conversation. -/
def newCells : IdentityCells :=
  { threadId := none, chatIdRef := some "temp_1".toList, lastUpdated := none }

/-- A response of the store whose title differs from every derived title. -/
def serverTitled : SavedChat :=
  { id := some "srv9".toList, title := "Server title".toList,
    lastUpdated := some "t2".toList }

/-- The session while the answer to a first user message of forty characters is
streaming in a new conversation. -/
def longStreaming : Session :=
  { newSession with
    view := { sampleStreaming with
              messages := [longUser, { chatPlaceholder 1000 with content := "Hel".toList }] } }

/-- The done event of that exchange over time: its updater calls `saveChat` at once, the
commit runs the effect, and the store answers 100 ms later with its own title. -/
def titleOccurrences : List (Nat × Occurrence) :=
  [(0, Occurrence.direct (renderOf newSession)
        (doneUpdate longStreaming.view.messages)),
   (0, Occurrence.handler
      (fun s => { s with view := chatApplyEvent sampleClosure s.view (StreamEvent.done none) })
      true),
   (100, Occurrence.reply (SaveReply.succeeded serverTitled))]

/-- A send while a save is in flight: the conversation `abc` is loaded at 0, its
debounced save goes out at 2000, the user sends an image request at 2050, and the store
answers the save at 2100. -/
def sendDuringSave : List (Nat × Occurrence) :=
  [(0, Occurrence.handler (loadChat (some sampleLoaded)) true),
   (2050, Occurrence.handler (handleSendMessage imageRequest plainOptions) true),
   (2100, Occurrence.reply (SaveReply.succeeded
      { id := some "abc".toList, title := "Greetings".toList,
        lastUpdated := some "t2".toList }))]

/-- A stored conversation under the identity `xyz`. -/
def otherLoaded : LoadedChat :=
  { messages := [sampleUser, helloMessage 1000], title := "Other".toList,
    chatId := "xyz".toList, lastUpdated := some "t1".toList }

/-! ## Lemmas on the message updaters -/

theorem findIdx?_first_temporary (l1 l2 : List Message) (old : Message)
    (h1 : ∀ m ∈ l1, m.isTemporary = false) (ho : old.isTemporary = true) :
    (l1 ++ old :: l2).findIdx? (fun msg => msg.isTemporary) = some l1.length := by
  have hnone : l1.findIdx? (fun msg => msg.isTemporary) = none :=
    List.findIdx?_eq_none_iff.2 h1
  rw [List.findIdx?_append, hnone]
  simp [List.findIdx?_cons, ho]

theorem chunkUpdate_first_temporary (now : Nat) (d : Str) (l1 l2 : List Message)
    (old : Message) (h1 : ∀ m ∈ l1, m.isTemporary = false) (ho : old.isTemporary = true) :
    chunkUpdate now d (l1 ++ old :: l2) =
      l1 ++ { old with content := old.content ++ d } :: l2 := by
  unfold chunkUpdate
  rw [findIdx?_first_temporary l1 l2 old h1 ho]
  have hget : (l1 ++ old :: l2)[l1.length]? = some old := by
    rw [List.getElem?_append_right (Nat.le_refl _)]
    simp
  simp only [hget]
  simp

theorem chunkUpdate_no_temporary (now : Nat) (d : Str) (prev : List Message)
    (h : ∀ m ∈ prev, m.isTemporary = false) :
    chunkUpdate now d prev =
      prev ++ [{ role := "assistant".toList, content := d, isTemporary := true,
                 id := some now }] := by
  unfold chunkUpdate
  rw [List.findIdx?_eq_none_iff.2 h]

theorem countTemporary_eq_zero_iff (l : List Message) :
    countTemporary l = 0 ↔ ∀ m ∈ l, m.isTemporary = false := by
  unfold countTemporary
  rw [List.countP_eq_zero]
  constructor
  · intro h m hm
    simpa using h m hm
  · intro h m hm
    simpa using h m hm

/-- A list with a temporary message at index `i` and at most one temporary message splits
around that message into two parts without temporary messages. -/
theorem split_at_temporary (l : List Message) (i : Nat) (old : Message)
    (hi : l[i]? = some old) (ho : old.isTemporary = true) (hone : countTemporary l ≤ 1) :
    ∃ l1 l2, l = l1 ++ old :: l2 ∧ l1.length = i ∧
      (∀ m ∈ l1, m.isTemporary = false) ∧ (∀ m ∈ l2, m.isTemporary = false) := by
  have hlt : i < l.length := by
    rcases Nat.lt_or_ge i l.length with h | h
    · exact h
    · rw [List.getElem?_eq_none h] at hi
      cases hi
  have hget : l[i] = old := by
    rw [List.getElem?_eq_getElem hlt] at hi
    exact Option.some.inj hi
  have hsplit : l = l.take i ++ old :: l.drop (i + 1) := by
    rw [← hget]
    simp
  refine ⟨l.take i, l.drop (i + 1), hsplit, ?_, ?_, ?_⟩
  · simp [List.length_take]; omega
  · have hc : countTemporary (l.take i ++ old :: l.drop (i + 1)) ≤ 1 := by
      rw [← hsplit]; exact hone
    unfold countTemporary at hc
    rw [List.countP_append, List.countP_cons] at hc
    simp only [ho, if_true] at hc
    have : countTemporary (l.take i) = 0 := by unfold countTemporary; omega
    exact (countTemporary_eq_zero_iff _).1 this
  · have hc : countTemporary (l.take i ++ old :: l.drop (i + 1)) ≤ 1 := by
      rw [← hsplit]; exact hone
    unfold countTemporary at hc
    rw [List.countP_append, List.countP_cons] at hc
    simp only [ho, if_true] at hc
    have : countTemporary (l.drop (i + 1)) = 0 := by unfold countTemporary; omega
    exact (countTemporary_eq_zero_iff _).1 this

/-- Folding chunk events over a state whose first temporary message is `old`. -/
theorem foldl_chunk_first_temporary (env : Closure) (hshow : showsPlaceholder env = true)
    (deltas : List Str) :
    ∀ (st : ChatState) (l1 l2 : List Message) (old : Message),
      st.messages = l1 ++ old :: l2 → (∀ m ∈ l1, m.isTemporary = false) →
      old.isTemporary = true →
      ((deltas.map StreamEvent.chunk).foldl (chatApplyEvent env) st).messages =
        l1 ++ { old with content := old.content ++ deltas.flatten } :: l2 := by
  induction deltas with
  | nil =>
    intro st l1 l2 old hst _ _
    simp [hst]
  | cons d ds ih =>
    intro st l1 l2 old hst h1 ho
    simp only [List.map_cons, List.foldl_cons]
    have hstep : (chatApplyEvent env st (StreamEvent.chunk d)).messages =
        l1 ++ { old with content := old.content ++ d } :: l2 := by
      simp only [chatApplyEvent, hshow, if_true]
      rw [hst, chunkUpdate_first_temporary _ _ _ _ _ h1 ho]
    rw [ih _ l1 l2 { old with content := old.content ++ d } hstep h1 ho]
    simp [List.append_assoc]

theorem adoptThreadId_messages (env : Closure) (tid : Option Str) (st : ChatState) :
    (adoptThreadId env tid st).messages = st.messages := by
  unfold adoptThreadId
  cases tid with
  | none => rfl
  | some t => by_cases h : (!truthy env.threadId && truthy (some t)) = true <;> simp [h]

theorem countTemporary_filter_committed (l : List Message) :
    countTemporary (l.filter (fun msg => !msg.isTemporary)) = 0 := by
  rw [countTemporary_eq_zero_iff]
  intro m hm
  simpa using (List.mem_filter.1 hm).2

theorem countTemporary_doneUpdate (l : List Message) : countTemporary (doneUpdate l) = 0 := by
  rw [countTemporary_eq_zero_iff]
  intro m hm
  unfold doneUpdate at hm
  obtain ⟨a, _, rfl⟩ := List.mem_map.1 hm
  cases h : a.isTemporary <;> simp [h]

theorem countTemporary_mediaFilter (l : List Message) :
    countTemporary (l.filter mediaResultKeep) = 0 := by
  rw [countTemporary_eq_zero_iff]
  intro m hm
  have h := (List.mem_filter.1 hm).2
  cases ht : m.isTemporary
  · rfl
  · simp [mediaResultKeep, ht] at h

theorem countTemporary_append_singleton (l : List Message) (m : Message) :
    countTemporary (l ++ [m]) = countTemporary l + (if m.isTemporary then 1 else 0) := by
  unfold countTemporary
  rw [List.countP_append]
  simp [List.countP_cons]

theorem countTemporary_chatResultUpdate (media : Bool) (m : Message) (l : List Message) :
    countTemporary (chatResultUpdate media m l) ≤ 1 := by
  unfold chatResultUpdate mediaResultUpdate plainResultUpdate
  cases media
  · simp only [Bool.false_eq_true, if_false]
    rw [countTemporary_append_singleton, countTemporary_filter_committed]
    split <;> omega
  · simp only [if_true]
    rw [countTemporary_append_singleton, countTemporary_mediaFilter]
    split <;> omega

theorem exists_temporary_of_count_pos (l : List Message) (h : 0 < countTemporary l) :
    ∃ (i : Nat) (old : Message), l[i]? = some old ∧ old.isTemporary = true := by
  unfold countTemporary at h
  obtain ⟨a, ha, hp⟩ := List.countP_pos_iff.1 h
  obtain ⟨i, hi⟩ := List.getElem?_of_mem ha
  exact ⟨i, a, hi, hp⟩

theorem countTemporary_chunkUpdate (now : Nat) (d : Str) (l : List Message)
    (hone : countTemporary l ≤ 1) : countTemporary (chunkUpdate now d l) ≤ 1 := by
  rcases Nat.eq_zero_or_pos (countTemporary l) with h0 | hpos
  · rw [chunkUpdate_no_temporary now d l ((countTemporary_eq_zero_iff l).1 h0),
      countTemporary_append_singleton, h0]
    simp
  · obtain ⟨i, old, hi, ho⟩ := exists_temporary_of_count_pos l hpos
    obtain ⟨l1, l2, hsplit, _, h1, h2⟩ := split_at_temporary l i old hi ho hone
    rw [hsplit, chunkUpdate_first_temporary now d l1 l2 old h1 ho]
    unfold countTemporary
    rw [List.countP_append, List.countP_cons]
    have e1 : List.countP (fun msg => msg.isTemporary) l1 = 0 :=
      (countTemporary_eq_zero_iff l1).2 h1
    have e2 : List.countP (fun msg => msg.isTemporary) l2 = 0 :=
      (countTemporary_eq_zero_iff l2).2 h2
    rw [e1, e2]
    simp [ho]

theorem countTemporary_filter_le (p : Message → Bool) (l : List Message) :
    countTemporary (l.filter p) ≤ countTemporary l := by
  unfold countTemporary
  exact List.Sublist.countP_le _ (List.filter_sublist l)

theorem temporaryOnlyLast_concat (init : List Message) (x : Message) :
    temporaryOnlyLast (init ++ [x]) = true ↔ ∀ m ∈ init, m.isTemporary = false := by
  unfold temporaryOnlyLast
  rw [List.dropLast_concat]
  simp

theorem temporaryOnlyLast_of_no_temporary (l : List Message)
    (h : ∀ m ∈ l, m.isTemporary = false) : temporaryOnlyLast l = true := by
  unfold temporaryOnlyLast
  rw [List.all_eq_true]
  intro m hm
  simpa using h m (List.mem_of_mem_dropLast hm)

theorem filter_committed_no_temporary (l : List Message) :
    ∀ m ∈ l.filter (fun msg => !msg.isTemporary), m.isTemporary = false := by
  intro m hm
  simpa using (List.mem_filter.1 hm).2

theorem mediaFilter_no_temporary (l : List Message) :
    ∀ m ∈ l.filter mediaResultKeep, m.isTemporary = false :=
  (countTemporary_eq_zero_iff _).1 (countTemporary_mediaFilter l)

theorem doneUpdate_no_temporary (l : List Message) :
    ∀ m ∈ doneUpdate l, m.isTemporary = false :=
  (countTemporary_eq_zero_iff _).1 (countTemporary_doneUpdate l)

theorem temporaryOnlyLast_chunkUpdate (now : Nat) (d : Str) (l : List Message)
    (h : temporaryOnlyLast l = true) : temporaryOnlyLast (chunkUpdate now d l) = true := by
  rcases List.eq_nil_or_concat l with hnil | ⟨init, x, hl⟩
  · subst hnil
    rw [chunkUpdate_no_temporary now d [] (by simp)]
    exact (temporaryOnlyLast_concat _ _).2 (by simp)
  · rw [List.concat_eq_append] at hl
    subst hl
    have hinit := (temporaryOnlyLast_concat init x).1 h
    cases hx : x.isTemporary
    · have hall : ∀ m ∈ init ++ [x], m.isTemporary = false := by
        intro m hm
        rcases List.mem_append.1 hm with h1 | h1
        · exact hinit m h1
        · rw [List.mem_singleton.1 h1]; exact hx
      rw [chunkUpdate_no_temporary now d _ hall]
      exact (temporaryOnlyLast_concat _ _).2 hall
    · rw [chunkUpdate_first_temporary now d init [] x hinit hx]
      exact (temporaryOnlyLast_concat _ _).2 hinit

theorem doneUpdate_of_no_temporary (l : List Message)
    (h : ∀ m ∈ l, m.isTemporary = false) : doneUpdate l = l := by
  unfold doneUpdate
  conv_rhs => rw [← List.map_id l]
  apply List.map_congr_left
  intro m hm
  simp [h m hm]

/-! ## Lemmas on splitting at newlines -/

theorem splitOnChar_ne_nil (sep : Char) (s : Str) : splitOnChar sep s ≠ [] := by
  induction s with
  | nil => simp [splitOnChar]
  | cons c s ih =>
    unfold splitOnChar
    split
    · simp
    · split
      · simp
      · simp

theorem splitOnChar_of_not_mem (sep : Char) (a : Str) (h : sep ∉ a) :
    splitOnChar sep a = [a] := by
  induction a with
  | nil => rfl
  | cons c s ih =>
    have hc : ¬ c = sep := fun e => h (by simp [e])
    have hs : sep ∉ s := fun e => h (List.mem_cons_of_mem _ e)
    unfold splitOnChar
    rw [if_neg hc, ih hs]

theorem splitOnChar_append_sep (sep : Char) (a b : Str) (h : sep ∉ a) :
    splitOnChar sep (a ++ sep :: b) = a :: splitOnChar sep b := by
  induction a with
  | nil => simp [splitOnChar]
  | cons c s ih =>
    have hc : ¬ c = sep := fun e => h (by simp [e])
    have hs : sep ∉ s := fun e => h (List.mem_cons_of_mem _ e)
    rw [List.cons_append, splitOnChar, if_neg hc, ih hs]

theorem exists_first_newline (s : Str) (h : '\n' ∈ s) :
    ∃ a b, s = a ++ '\n' :: b ∧ '\n' ∉ a := by
  induction s with
  | nil => simp at h
  | cons c s ih =>
    by_cases hc : c = '\n'
    · exact ⟨[], s, by simp [hc], by simp⟩
    · have hs : '\n' ∈ s := by
        rcases List.mem_cons.1 h with e | e
        · exact absurd e.symm hc
        · exact e
      obtain ⟨a, b, hab, hna⟩ := ih hs
      refine ⟨c :: a, b, by simp [hab], ?_⟩
      intro hmem
      rcases List.mem_cons.1 hmem with e | e
      · exact hc e.symm
      · exact hna e

theorem terminatedSegments_of_not_mem (a : Str) (h : '\n' ∉ a) :
    terminatedSegments a = [] := by
  unfold terminatedSegments
  rw [splitOnChar_of_not_mem _ a h]
  rfl

theorem terminatedSegments_append_newline (a b : Str) (h : '\n' ∉ a) :
    terminatedSegments (a ++ '\n' :: b) = a :: terminatedSegments b := by
  unfold terminatedSegments
  rw [splitOnChar_append_sep _ a b h, List.dropLast_cons_of_ne_nil (splitOnChar_ne_nil _ b)]

theorem trimmedLines_of_not_mem (a : Str) (h : '\n' ∉ a) : trimmedLines a = [] := by
  unfold trimmedLines
  rw [terminatedSegments_of_not_mem a h]
  rfl

theorem trimmedLines_append_newline (a b : Str) (h : '\n' ∉ a) :
    trimmedLines (a ++ '\n' :: b) =
      (if (trim a).isEmpty then [] else [trim a]) ++ trimmedLines b := by
  unfold trimmedLines
  rw [terminatedSegments_append_newline a b h]
  by_cases he : (trim a).isEmpty = true
  · simp [List.filter_cons, he]
  · simp [List.filter_cons, he]

theorem takeWhile_append_stop {α : Type} (p : α → Bool) (xs : List α) (y : α)
    (zs : List α) (hy : p y = false) :
    (xs ++ y :: zs).takeWhile p = xs.takeWhile p := by
  induction xs with
  | nil => simp [List.takeWhile_cons, hy]
  | cons x xs ih =>
    rw [List.cons_append, List.takeWhile_cons, List.takeWhile_cons, ih]

theorem unterminatedTail_of_not_mem (a : Str) (h : '\n' ∉ a) : unterminatedTail a = a := by
  unfold unterminatedTail
  have : a.reverse.takeWhile (fun c => c != '\n') = a.reverse := by
    rw [List.takeWhile_eq_self_iff]
    intro c hc
    have hca : c ∈ a := List.mem_reverse.1 hc
    have : c ≠ '\n' := fun e => h (e ▸ hca)
    simpa using this
  rw [this, List.reverse_reverse]

theorem unterminatedTail_append_newline (a b : Str) :
    unterminatedTail (a ++ '\n' :: b) = unterminatedTail b := by
  unfold unterminatedTail
  rw [List.reverse_append, List.reverse_cons, List.append_assoc, List.singleton_append,
    takeWhile_append_stop _ _ _ _ (by simp)]

theorem unterminatedTail_no_newline (s : Str) : '\n' ∉ unterminatedTail s := by
  unfold unterminatedTail
  intro h
  have h2 := List.mem_reverse.1 h
  have := List.mem_takeWhile_imp h2
  simp at this

theorem unterminatedTail_length_le (s : Str) : (unterminatedTail s).length ≤ s.length := by
  unfold unterminatedTail
  rw [List.length_reverse]
  calc (s.reverse.takeWhile _).length ≤ s.reverse.length :=
        (List.takeWhile_sublist _).length_le
    _ = s.length := List.length_reverse s

theorem drop_unterminatedTail (s : Str) :
    s.drop (s.length - (unterminatedTail s).length) = unterminatedTail s := by
  have hsplit : s = (s.reverse.dropWhile (fun c => c != '\n')).reverse ++ unterminatedTail s := by
    unfold unterminatedTail
    rw [← List.reverse_append, List.takeWhile_append_dropWhile, List.reverse_reverse]
  have hlen : s.length - (unterminatedTail s).length =
      ((s.reverse.dropWhile (fun c => c != '\n')).reverse).length := by
    have := congrArg List.length hsplit
    rw [List.length_append] at this
    omega
  rw [hlen]
  calc s.drop ((s.reverse.dropWhile (fun c => c != '\n')).reverse).length
      = ((s.reverse.dropWhile (fun c => c != '\n')).reverse ++ unterminatedTail s).drop
          ((s.reverse.dropWhile (fun c => c != '\n')).reverse).length := by rw [← hsplit]
    _ = unterminatedTail s := List.drop_left _ _

theorem trimmedLines_append_aux (n : Nat) :
    ∀ t r : Str, t.length ≤ n →
      trimmedLines (t ++ r) = trimmedLines t ++ trimmedLines (unterminatedTail t ++ r) ∧
      unterminatedTail (t ++ r) = unterminatedTail (unterminatedTail t ++ r) := by
  induction n with
  | zero =>
    intro t r ht
    have : t = [] := List.length_eq_zero.1 (Nat.le_zero.1 ht)
    subst this
    exact ⟨rfl, rfl⟩
  | succ n ih =>
    intro t r ht
    by_cases hmem : '\n' ∈ t
    · obtain ⟨a, b, hab, hna⟩ := exists_first_newline t hmem
      subst hab
      have hlt : b.length ≤ n := by
        rw [List.length_append, List.length_cons] at ht; omega
      obtain ⟨ih1, ih2⟩ := ih b r hlt
      rw [List.append_assoc, List.cons_append, trimmedLines_append_newline a (b ++ r) hna,
        trimmedLines_append_newline a b hna, unterminatedTail_append_newline,
        unterminatedTail_append_newline, ih1, ih2, List.append_assoc]
      exact ⟨rfl, rfl⟩
    · rw [trimmedLines_of_not_mem t hmem, unterminatedTail_of_not_mem t hmem]
      exact ⟨rfl, rfl⟩

/-- Splitting a text anywhere: the lines of the whole are the lines of the first part
followed by the lines of its carried tail joined with the second part. -/
theorem trimmedLines_append (t r : Str) :
    trimmedLines (t ++ r) = trimmedLines t ++ trimmedLines (unterminatedTail t ++ r) ∧
      unterminatedTail (t ++ r) = unterminatedTail (unterminatedTail t ++ r) :=
  trimmedLines_append_aux t.length t r (Nat.le_refl _)

theorem splitOnChar_joinLines (lines : List Str) (h : ∀ l ∈ lines, '\n' ∉ l) :
    splitOnChar '\n' (joinLines lines) = lines ++ [[]] := by
  induction lines with
  | nil => rfl
  | cons l ls ih =>
    have hl : '\n' ∉ l := h l (List.mem_cons_self _ _)
    have hls : ∀ x ∈ ls, '\n' ∉ x := fun x hx => h x (List.mem_cons_of_mem _ hx)
    have : joinLines (l :: ls) = l ++ '\n' :: joinLines ls := by
      simp [joinLines]
    rw [this, splitOnChar_append_sep _ l _ hl, ih hls]
    rfl

theorem trim_nil : trim [] = [] := rfl

theorem chatLinesOf_joinLines (lines : List Str) (h : ∀ l ∈ lines, '\n' ∉ l) :
    chatLinesOf (joinLines lines) = lines.filter (fun line => !(trim line).isEmpty) := by
  unfold chatLinesOf
  rw [splitOnChar_joinLines lines h, List.filter_append]
  simp [trim_nil]

theorem trimmedLines_joinLines (lines : List Str) (h : ∀ l ∈ lines, '\n' ∉ l) :
    trimmedLines (joinLines lines) =
      (lines.map trim).filter (fun line => !line.isEmpty) := by
  unfold trimmedLines terminatedSegments
  rw [splitOnChar_joinLines lines h, List.dropLast_concat]

theorem unterminatedTail_joinLines (lines : List Str) : unterminatedTail (joinLines lines) = [] := by
  induction lines with
  | nil => rfl
  | cons l ls ih =>
    have : joinLines (l :: ls) = l ++ '\n' :: joinLines ls := by
      simp [joinLines]
    rw [this, unterminatedTail_append_newline, ih]

/-! ## Lemmas on the read loops -/

theorem findIdx_newline_of_not_mem (s : Str) (h : '\n' ∉ s) :
    s.findIdx (fun x => x == '\n') = s.length := by
  induction s with
  | nil => rfl
  | cons c s ih =>
    have hc : (c == '\n') = false := by
      have : c ≠ '\n' := fun e => h (by simp [e])
      simpa using this
    have hs : '\n' ∉ s := fun e => h (List.mem_cons_of_mem _ e)
    rw [List.findIdx_cons, hc, ih hs]
    rfl

theorem findIdx_newline_first (a b : Str) (h : '\n' ∉ a) :
    (a ++ '\n' :: b).findIdx (fun x => x == '\n') = a.length := by
  induction a with
  | nil => simp [List.findIdx_cons]
  | cons c s ih =>
    have hc : (c == '\n') = false := by
      have : c ≠ '\n' := fun e => h (by simp [e])
      simpa using this
    have hs : '\n' ∉ s := fun e => h (List.mem_cons_of_mem _ e)
    rw [List.cons_append, List.findIdx_cons, hc, ih hs]
    rfl

theorem indexOfFrom_none (pre s : Str) (h : '\n' ∉ s) :
    indexOfFrom '\n' (pre ++ s) pre.length = none := by
  unfold indexOfFrom
  simp only [List.drop_left]
  rw [findIdx_newline_of_not_mem s h]
  simp

theorem indexOfFrom_first (pre a b : Str) (h : '\n' ∉ a) :
    indexOfFrom '\n' (pre ++ (a ++ '\n' :: b)) pre.length = some (pre.length + a.length) := by
  unfold indexOfFrom
  simp only [List.drop_left]
  rw [findIdx_newline_first a b h]
  simp

theorem substring_middle (pre a rest : Str) :
    substring (pre ++ (a ++ rest)) pre.length (pre.length + a.length) = a := by
  unfold substring
  rw [← List.append_assoc]
  have h1 : (pre ++ a ++ rest).take (pre.length + a.length) = pre ++ a := by
    rw [← List.length_append]
    exact List.take_left _ _
  rw [h1, List.drop_left]

/-- The loop, run with enough iterations from the position after `pre`, hands over the
trimmed lines of the remaining text and stops right after its last newline. -/
theorem reactLineLoop_eq (fuel : Nat) :
    ∀ pre s : Str, s.length < fuel →
      reactLineLoop fuel (pre ++ s) pre.length =
        (trimmedLines s, pre.length + (s.length - (unterminatedTail s).length)) := by
  induction fuel with
  | zero => intro pre s h; omega
  | succ fuel ih =>
    intro pre s hlen
    by_cases hmem : '\n' ∈ s
    · obtain ⟨a, b, hab, hna⟩ := exists_first_newline s hmem
      subst hab
      have hb : b.length < fuel := by
        rw [List.length_append, List.length_cons] at hlen; omega
      have hpos : pre.length + a.length + 1 = (pre ++ (a ++ ['\n'])).length := by
        simp [List.length_append]; omega
      have hbuf : pre ++ (a ++ '\n' :: b) = (pre ++ (a ++ ['\n'])) ++ b := by
        simp [List.append_assoc]
      have hrec := ih (pre ++ (a ++ ['\n'])) b hb
      rw [← hbuf, ← hpos] at hrec
      have htail := unterminatedTail_length_le b
      rw [reactLineLoop, indexOfFrom_first pre a b hna]
      simp only [substring_middle, hrec, trimmedLines_append_newline a b hna,
        unterminatedTail_append_newline]
      have hnum : pre.length + a.length + 1 + (b.length - (unterminatedTail b).length) =
          pre.length + ((a ++ '\n' :: b).length - (unterminatedTail b).length) := by
        rw [List.length_append, List.length_cons]; omega
      by_cases he : (trim a).isEmpty = true
      · simp [he, hnum]
      · simp [he, hnum]
    · rw [reactLineLoop, indexOfFrom_none pre s hmem, trimmedLines_of_not_mem s hmem,
        unterminatedTail_of_not_mem s hmem]
      simp

/-- One read: the lines handed over are the trimmed lines of buffer plus chunk, and the
buffer keeps the text after the last newline. -/
theorem reactFeed_eq (buffer chunk : Str) :
    reactFeed buffer chunk =
      (trimmedLines (buffer ++ chunk), unterminatedTail (buffer ++ chunk)) := by
  unfold reactFeed
  have h := reactLineLoop_eq ((buffer ++ chunk).length + 1) [] (buffer ++ chunk)
    (Nat.lt_succ_self _)
  simp only [List.nil_append, List.length_nil, Nat.zero_add] at h
  simp only [h, drop_unterminatedTail]

theorem reactLinesOfChunks_eq (chunks : List Str) :
    ∀ buffer : Str, '\n' ∉ buffer →
      reactLinesOfChunks buffer chunks =
        (trimmedLines (buffer ++ chunks.flatten), unterminatedTail (buffer ++ chunks.flatten)) := by
  induction chunks with
  | nil =>
    intro buffer hb
    simp [reactLinesOfChunks, trimmedLines_of_not_mem buffer hb,
      unterminatedTail_of_not_mem buffer hb]
  | cons c cs ih =>
    intro buffer hb
    have hrec := ih (unterminatedTail (buffer ++ c)) (unterminatedTail_no_newline _)
    obtain ⟨h1, h2⟩ := trimmedLines_append (buffer ++ c) cs.flatten
    simp only [reactLinesOfChunks, reactFeed_eq, hrec, List.flatten_cons]
    rw [← List.append_assoc, h1, h2]

/-- The read loop of the research handler applies the `try` block to the lines of
`reactLinesOfChunks`, in order, and ends with its buffer. -/
theorem reactReadLoop_eq (env : Closure) (tempMessageId : Nat) (chunks : List Str) :
    ∀ (st : ChatState) (buffer : Str),
      reactReadLoop env tempMessageId (st, buffer) chunks =
        ((reactLinesOfChunks buffer chunks).1.foldlM (reactHandleLine env tempMessageId) st).map
          (fun out => (out, (reactLinesOfChunks buffer chunks).2)) := by
  induction chunks with
  | nil =>
    intro st buffer
    simp [reactReadLoop, reactLinesOfChunks]
  | cons c cs ih =>
    intro st buffer
    unfold reactReadLoop at ih ⊢
    rw [List.foldlM_cons]
    simp only [reactLinesOfChunks, List.foldlM_append]
    unfold reactReadChunk
    cases hfold : List.foldlM (reactHandleLine env tempMessageId) st (reactFeed buffer c).1 with
    | none => simp [hfold]
    | some st2 =>
      simp only [hfold, Option.some_bind, Option.bind_eq_bind]
      exact ih st2 (reactFeed buffer c).2

theorem research_lines_chunking_aux (chunks : List Str) :
    reactLinesOfChunks [] chunks =
      (trimmedLines chunks.flatten, unterminatedTail chunks.flatten) ∧
    (∀ (env : Closure) (tempMessageId : Nat) (st : ChatState),
      reactReadLoop env tempMessageId (st, []) chunks =
        ((trimmedLines chunks.flatten).foldlM (reactHandleLine env tempMessageId) st).map
          (fun out => (out, unterminatedTail chunks.flatten))) := by
  have h := reactLinesOfChunks_eq chunks [] (by simp)
  rw [List.nil_append] at h
  refine ⟨h, ?_⟩
  intro env tempMessageId st
  rw [reactReadLoop_eq, h]

theorem foldlM_skip {σ α : Type} (f : σ → α → Option σ) (bad : α)
    (hskip : ∀ st, f st bad = some st) (before after : List α) (st : σ) :
    (before ++ bad :: after).foldlM f st = (before ++ after).foldlM f st := by
  rw [List.foldlM_append, List.foldlM_append]
  cases List.foldlM f st before with
  | none => rfl
  | some st2 =>
    simp only [Option.some_bind, Option.bind_eq_bind, List.foldlM_cons, hskip]

theorem parseLine_of_parse_none (line : Str) (h : JSONparse line = none) :
    parseLine line = some LineOutcome.thrown := by
  unfold parseLine
  rw [h]

theorem chatHandleLine_malformed (env : Closure) (bad : Str) (h : JSONparse bad = none)
    (st : ChatState) : chatHandleLine env st bad = some st := by
  unfold chatHandleLine
  rw [parseLine_of_parse_none bad h]
  split <;> rfl

theorem reactHandleLine_malformed (env : Closure) (tempMessageId : Nat) (bad : Str)
    (h : JSONparse bad = none) (st : ChatState) :
    reactHandleLine env tempMessageId st bad = some st := by
  unfold reactHandleLine
  rw [parseLine_of_parse_none bad h]

theorem chatReadLoop_groups (env : Closure) (groups : List (List Str)) :
    ∀ st : ChatState, (∀ l ∈ groups.flatten, '\n' ∉ l) →
      chatReadLoop env st (groups.map joinLines) =
        (groups.flatten.filter (fun line => !(trim line).isEmpty)).foldlM
          (chatHandleLine env) st := by
  induction groups with
  | nil => intro st _; rfl
  | cons g gs ih =>
    intro st h
    have hg : ∀ l ∈ g, '\n' ∉ l := fun l hl => h l (by simp [hl])
    have hgs : ∀ l ∈ gs.flatten, '\n' ∉ l := fun l hl => h l (by
      rw [List.flatten_cons]; exact List.mem_append_right _ hl)
    unfold chatReadLoop at ih ⊢
    rw [List.map_cons, List.foldlM_cons, List.flatten_cons, List.filter_append,
      List.foldlM_append]
    unfold chatReadChunk
    rw [chatLinesOf_joinLines g hg]
    cases List.foldlM (chatHandleLine env) st
        (List.filter (fun line => !(trim line).isEmpty) g) with
    | none => rfl
    | some st2 =>
      simp only [Option.some_bind, Option.bind_eq_bind]
      exact ih st2 hgs

theorem chatLinesOf_scenarioA :
    chatLinesOf scenarioA = [lineStatus, lineChunkHel, lineChunkLo, lineDone] := by
  decide

theorem chatHandleLine_event (env : Closure) (st : ChatState) (line : Str) (e : StreamEvent)
    (hblank : (trim line).isEmpty = false)
    (hparse : parseLine line = some (LineOutcome.event e)) :
    chatHandleLine env st line = some (chatApplyEvent env st e) := by
  unfold chatHandleLine
  rw [hparse]
  simp [hblank]

/-- The messages after the four lines of scenario A, from a state whose list ends with the
fresh placeholder. -/
theorem scenarioA_messages (env : Closure) (hshow : showsPlaceholder env = true)
    (st : ChatState) (prev : List Message) (now : Nat)
    (hst : st.messages = prev ++ [chatPlaceholder now])
    (hprev : ∀ m ∈ prev, m.isTemporary = false) :
    (chatReadLoop env st [scenarioA]).map (fun out => out.messages) =
      some (prev ++ [helloMessage now]) := by
  unfold chatReadLoop chatReadChunk
  rw [List.foldlM_cons, chatLinesOf_scenarioA]
  simp only [List.foldlM_cons, List.foldlM_nil]
  rw [chatHandleLine_event env st lineStatus (StreamEvent.status "thinking".toList)
    (by decide) (by decide)]
  simp only [Option.some_bind, Option.bind_eq_bind]
  rw [chatHandleLine_event env _ lineChunkHel (StreamEvent.chunk "Hel".toList)
    (by decide) (by decide)]
  simp only [Option.some_bind, Option.bind_eq_bind]
  rw [chatHandleLine_event env _ lineChunkLo (StreamEvent.chunk "lo".toList)
    (by decide) (by decide)]
  simp only [Option.some_bind, Option.bind_eq_bind]
  rw [chatHandleLine_event env _ lineDone (StreamEvent.done none) (by decide) (by decide)]
  simp only [Option.some_bind, Option.bind_eq_bind, Option.pure_def, Option.map_some']
  congr 1
  simp only [chatApplyEvent, hshow, if_true, adoptThreadId_messages, hst]
  rw [chunkUpdate_first_temporary _ _ prev [] _ hprev rfl,
    chunkUpdate_first_temporary _ _ prev [] _ hprev rfl]
  unfold doneUpdate
  rw [List.map_append]
  have := doneUpdate_of_no_temporary prev hprev
  unfold doneUpdate at this
  rw [this]
  rfl

/-! ## Lemmas on the intent classification -/

theorem classifyIntent_eq_reference (s : Str) : classifyIntent s = referenceIntent s := by
  unfold classifyIntent referenceIntent isImageRequest containsAny
  have haudio : isAudioRequest s =
      (List.any ["song".toList, "music".toList, "audio".toList, "tune".toList,
          "melody".toList, "compose".toList] (fun term => includes s term) &&
        (List.any ["generate".toList, "create".toList, "make".toList, "compose".toList,
            "play".toList] (fun term => includes s term) ||
          startsWith s "play".toList || startsWith s "sing".toList)) := rfl
  have himage : ((includes s "image".toList || includes s "picture".toList ||
        includes s "photo".toList || includes s "drawing".toList) &&
      (includes s "generate".toList || includes s "create".toList ||
        includes s "draw".toList || includes s "make".toList)) =
      (List.any ["image".toList, "picture".toList, "photo".toList, "drawing".toList]
          (fun term => includes s term) &&
        List.any ["generate".toList, "create".toList, "draw".toList, "make".toList]
          (fun term => includes s term)) := by
    simp only [List.any_cons, List.any_nil, Bool.or_false, Bool.or_assoc]
  rw [← haudio, himage]
  cases isAudioRequest s <;> simp

/-! ## Lemmas on `saveChat` -/

theorem lastIsTemporary_concat (init : List Message) (last : Message) :
    lastIsTemporary (init ++ [last]) = last.isTemporary := by
  unfold lastIsTemporary
  rw [List.getLast?_concat]

theorem saveChatBegin_of_stop (r : Render) (msgs : List Message) (s : Session)
    (h : saveChatProceeds r msgs s = false) : saveChatBegin r msgs s = none := by
  unfold saveChatBegin
  rw [h]
  rfl

theorem saveChatBegin_of_proceeds (r : Render) (msgs : List Message) (s : Session)
    (h : saveChatProceeds r msgs s = true) :
    saveChatBegin r msgs s = some (saveChatRequest r msgs s) := by
  unfold saveChatBegin
  rw [h]
  rfl

theorem saveChatRequest_messages (r : Render) (msgs : List Message) (s : Session) :
    (saveChatRequest r msgs s).messages = msgs.filter (fun msg => !msg.isTemporary) := by
  unfold saveChatRequest
  simp only []
  split <;> rfl

theorem saveChatRequest_title (r : Render) (msgs : List Message) (s : Session) :
    (saveChatRequest r msgs s).title = deriveTitle r.chatTitle msgs := by
  unfold saveChatRequest
  simp only []
  split <;> rfl

theorem exists_first_user_of_proceeds (r : Render) (msgs : List Message) (s : Session)
    (h : saveChatProceeds r msgs s = true) :
    ∃ first, msgs.find? (fun m => m.role == "user".toList) = some first ∧ 0 < msgs.length := by
  unfold saveChatProceeds at h
  simp only [Bool.and_eq_true, Bool.not_eq_true', Bool.or_eq_false_iff] at h
  obtain ⟨⟨⟨⟨⟨_, hlen⟩, hany⟩, _⟩, _⟩, _⟩ := h
  have hany2 : msgs.any (fun m => m.role == "user".toList) = true := by
    cases hb : msgs.any (fun m => m.role == "user".toList)
    · rw [hb] at hany; cases hany
    · rfl
  obtain ⟨m, hm, hp⟩ := List.any_eq_true.1 hany2
  have hlen2 : 0 < msgs.length := List.length_pos_of_mem hm
  cases hf : msgs.find? (fun m => m.role == "user".toList) with
  | none =>
    have := List.find?_eq_none.1 hf m hm
    exact absurd hp this
  | some first => exact ⟨first, rfl, hlen2⟩

theorem saveChatSuccess_chatTitle (r : Render) (title : Str) (chat : SavedChat)
    (s : Session) :
    (saveChatSuccess r title chat s).chatTitle =
      if (title == "New Chat".toList || endsWith title "...".toList) = true then chat.title
      else s.chatTitle := by
  unfold saveChatSuccess
  simp only []
  split <;> split <;> rfl

theorem saveChatSuccess_lastUpdated (r : Render) (title : Str) (chat : SavedChat)
    (s : Session) :
    (saveChatSuccess r title chat s).chatLastUpdatedRef = chat.lastUpdated := rfl

theorem saveChat_of_proceeds (r : Render) (msgs : List Message) (reply : SaveReply)
    (s : Session) (h : saveChatProceeds r msgs s = true) :
    saveChat r msgs reply s =
      (some (saveChatRequest r msgs s),
       saveChatFinish r (deriveTitle r.chatTitle msgs) reply
        { s with saveInProgress := true }) := by
  unfold saveChat
  rw [saveChatBegin_of_proceeds _ _ _ h]
  simp only [saveChatRequest_title]

theorem effectiveChatId_some (chatId ref : Str) (h : chatId ≠ []) :
    effectiveChatId (some chatId) ref = chatId := by
  unfold effectiveChatId
  cases chatId with
  | nil => exact absurd rfl h
  | cons c rest => rfl

/-! ## Lemmas on substrings and on media chunks -/

theorem includes_of_isPrefixOf_append (p q : Str) :
    ∀ l : Str, (p ++ q).isPrefixOf l = true → p.isPrefixOf l = true := by
  induction p with
  | nil => intro l _; simp [List.isPrefixOf]
  | cons a p ih =>
    intro l h
    cases l with
    | nil => simp [List.isPrefixOf] at h
    | cons b l =>
      simp only [List.cons_append, List.isPrefixOf, Bool.and_eq_true] at h ⊢
      exact ⟨h.1, ih l h.2⟩

theorem includes_append_left (p q : Str) (hp : p ≠ []) :
    ∀ s : Str, includes s (p ++ q) = true → includes s p = true := by
  intro s
  induction s with
  | nil =>
    intro h
    unfold includes at h
    have : (p ++ q) = [] := by simpa using h
    exact absurd (List.append_eq_nil.1 this).1 hp
  | cons c s ih =>
    intro h
    unfold includes at h ⊢
    rw [Bool.or_eq_true] at h ⊢
    rcases h with h | h
    · exact Or.inl (includes_of_isPrefixOf_append p q _ h)
    · exact Or.inr (ih h)

theorem foldl_chunk_media (env : Closure) (hmedia : showsPlaceholder env = false)
    (deltas : List Str) :
    ∀ st : ChatState,
      ((deltas.map StreamEvent.chunk).foldl (chatApplyEvent env) st).messages = st.messages := by
  induction deltas with
  | nil => intro st; rfl
  | cons d ds ih =>
    intro st
    simp only [List.map_cons, List.foldl_cons]
    rw [ih]
    simp [chatApplyEvent, hmedia]

/-! ## Lemmas on the timeline -/

theorem saveChatProceeds_flag (r : Render) (msgs : List Message) (s : Session)
    (h : saveChatProceeds r msgs s = true) : s.saveInProgress = false := by
  unfold saveChatProceeds at h
  simp only [Bool.and_eq_true, Bool.not_eq_true'] at h
  exact h.1.2

theorem saveChatBegin_in_flight (r : Render) (msgs : List Message) (s : Session)
    (h : s.saveInProgress = true) : saveChatBegin r msgs s = none := by
  apply saveChatBegin_of_stop
  unfold saveChatProceeds
  rw [h]
  simp

theorem callSave_flag (t : Nat) (r : Render) (msgs : List Message) (tl : Timeline)
    (h : flagMatchesInFlight tl = true) : flagMatchesInFlight (callSave t r msgs tl) = true := by
  unfold callSave
  cases hb : saveChatBegin r msgs tl.session with
  | none => exact h
  | some w =>
    have hp : saveChatProceeds r msgs tl.session = true := by
      unfold saveChatBegin at hb
      split at hb
      · assumption
      · cases hb
    have hflag := saveChatProceeds_flag _ _ _ hp
    unfold flagMatchesInFlight at h ⊢
    rw [hflag] at h
    have hnil : tl.inFlight = [] := by
      have : tl.inFlight.length = 0 := by simpa using h
      exact List.length_eq_zero.1 this
    simp [hnil]

theorem fireDue_flag (t : Nat) (tl : Timeline) (h : flagMatchesInFlight tl = true) :
    flagMatchesInFlight (fireDue t tl) = true := by
  unfold fireDue
  split
  · split
    · exact callSave_flag _ _ _ _ h
    · exact h
  · exact h

theorem occur_flag (tl : Timeline) (ev : Nat × Occurrence)
    (h : flagMatchesInFlight tl = true) : flagMatchesInFlight (occur tl ev) = true := by
  have h1 := fireDue_flag ev.1 tl h
  unfold occur
  simp only []
  cases hev : ev.2 with
  | handler run messagesSet =>
    simp only []
    have h2 : flagMatchesInFlight
        { fireDue ev.1 tl with session := keepFlag run (fireDue ev.1 tl).session } = true := h1
    cases messagesSet
    · exact h2
    · exact h2
  | direct r msgs => exact callSave_flag _ _ _ _ h1
  | reply reply =>
    simp only []
    cases hf : (fireDue ev.1 tl).inFlight with
    | nil =>
      simp only []
      exact h1
    | cons p rest =>
      simp only []
      unfold flagMatchesInFlight at h1 ⊢
      rw [hf] at h1
      have hrest : rest = [] := by
        cases hs : (fireDue ev.1 tl).session.saveInProgress
        · rw [hs] at h1; simp at h1
        · rw [hs] at h1
          have : rest.length = 0 := by simpa using h1
          exact List.length_eq_zero.1 this
      have hfin : (saveChatFinish p.1 p.2 reply (fireDue ev.1 tl).session).saveInProgress
          = false := by
        unfold saveChatFinish
        split <;> rfl
      simp [hrest, hfin]

theorem foldl_occur_flag (events : List (Nat × Occurrence)) :
    ∀ tl : Timeline, flagMatchesInFlight tl = true →
      flagMatchesInFlight (events.foldl occur tl) = true := by
  induction events with
  | nil => intro tl h; exact h
  | cons ev rest ih =>
    intro tl h
    exact ih _ (occur_flag tl ev h)

theorem length_le_one_of_flag (tl : Timeline) (h : flagMatchesInFlight tl = true) :
    tl.inFlight.length ≤ 1 := by
  unfold flagMatchesInFlight at h
  have : tl.inFlight.length = (if tl.session.saveInProgress then 1 else 0) := by
    simpa using h
  rw [this]
  split <;> omega

theorem saveChatProceeds_of_effect (r : Render) (s : Session)
    (he : effectProceeds r = true) (hflag : s.saveInProgress = false) :
    saveChatProceeds r r.messages s = true := by
  unfold effectProceeds at he
  unfold saveChatProceeds
  rw [hflag]
  simp only [Bool.and_eq_true] at he ⊢
  exact ⟨⟨he.1, rfl⟩, he.2⟩

theorem occur_handler_no_fire (tl : Timeline) (p : Nat × (Session → Session))
    (hnot : ∀ due r, tl.timer = some (due, r) → p.1 < due) :
    occur tl (p.1, Occurrence.handler p.2 true) = afterChange tl p := by
  have hfire : fireDue p.1 tl = tl := by
    unfold fireDue
    cases ht : tl.timer with
    | none => rfl
    | some q =>
      obtain ⟨due, r⟩ := q
      have := hnot due r ht
      simp only []
      rw [if_neg (by omega)]
  unfold occur
  simp only [hfire]
  rfl

theorem afterChange_timer (tl : Timeline) (p : Nat × (Session → Session)) :
    ∀ due r, (afterChange tl p).timer = some (due, r) → due = p.1 + 2000 := by
  intro due r h
  unfold afterChange rerunEffect at h
  simp only [] at h
  split at h
  · have := Option.some.inj h
    exact (congrArg Prod.fst this).symm
  · cases h

theorem foldl_burst (rest : List (Nat × (Session → Session))) :
    ∀ (tl : Timeline) (first : Nat × (Session → Session)),
      (∀ due r, tl.timer = some (due, r) → first.1 < due) →
      withinWindow first.1 rest = true →
      (burstOf (first :: rest)).foldl occur tl = (first :: rest).foldl afterChange tl := by
  induction rest with
  | nil =>
    intro tl first hnot _
    unfold burstOf
    simp only [List.map_cons, List.map_nil, List.foldl_cons, List.foldl_nil]
    exact occur_handler_no_fire tl first hnot
  | cons next rest ih =>
    intro tl first hnot hwin
    unfold withinWindow at hwin
    simp only [Bool.and_eq_true, decide_eq_true_eq] at hwin
    have hstep : occur tl (first.1, Occurrence.handler first.2 true) = afterChange tl first :=
      occur_handler_no_fire tl first hnot
    have hnext : ∀ due r, (afterChange tl first).timer = some (due, r) → next.1 < due := by
      intro due r h
      rw [afterChange_timer tl first due r h]
      exact hwin.1.2
    have hrec := ih (afterChange tl first) next hnext hwin.2
    unfold burstOf at hrec ⊢
    simp only [List.map_cons, List.foldl_cons] at hrec ⊢
    rw [hstep, hrec]

/-- The state a burst leaves when no timer fires in it: the handlers have run in order,
nothing was sent, and the timer is the one of the last change. -/
theorem foldl_afterChange (rest : List (Nat × (Session → Session))) :
    ∀ (tl : Timeline) (first : Nat × (Session → Session)),
      (first :: rest).foldl afterChange tl =
        rerunEffect (lastTime first rest)
          { tl with session := burstSession tl.session (first :: rest) } := by
  induction rest with
  | nil => intro tl first; rfl
  | cons next rest ih =>
    intro tl first
    have hrec := ih (afterChange tl first) next
    simp only [List.foldl_cons] at hrec ⊢
    rw [hrec]
    have hlast : lastTime next rest = lastTime first (next :: rest) := by
      unfold lastTime
      cases rest with
      | nil => rfl
      | cons a l =>
        have hx : (a :: l).getLast? = some ((a :: l).getLast (by simp)) :=
          List.getLast?_eq_getLast _ (by simp)
        simp only [List.getLast?_cons_cons, hx, Option.getD_some]
    rw [hlast]
    rfl

/-! ## Lemmas on the identity of an unsaved conversation -/

theorem adoptThreadId_of_not_truthy (env : Closure) (thread_id : Option Str) (st : ChatState)
    (h : truthy thread_id = false) : adoptThreadId env thread_id st = st := by
  unfold adoptThreadId
  cases thread_id with
  | none => rfl
  | some tid =>
    simp only [h, Bool.and_false]
    rfl

theorem startsWith_temp_append (rest : Str) :
    startsWith ("temp_".toList ++ rest) "temp_".toList = true := by
  unfold startsWith
  exact List.isPrefixOf_iff_prefix.2 (List.prefix_append _ _)

theorem clearConversation_unsaved (now : Nat) (s : Session) :
    isUnsaved (clearConversation now s) = true := by
  unfold isUnsaved clearConversation
  simp only [startsWith_temp_append]
  rfl

theorem initialSession_unsaved (now : Nat) (user : Bool) :
    isUnsaved (initialSession now user) = true := by
  unfold isUnsaved initialSession
  simp only [startsWith_temp_append]
  rfl

theorem chatApplyEvent_identity (env : Closure) (st : ChatState) (e : StreamEvent)
    (h : e.carriesThreadId = false) :
    (chatApplyEvent env st e).threadId = st.threadId ∧
    (chatApplyEvent env st e).chatIdRef = st.chatIdRef := by
  cases e with
  | status text => exact ⟨rfl, rfl⟩
  | chunk delta =>
    simp only [chatApplyEvent]
    split <;> exact ⟨rfl, rfl⟩
  | done thread_id =>
    simp only [chatApplyEvent]
    rw [adoptThreadId_of_not_truthy _ _ _ h]
    exact ⟨rfl, rfl⟩
  | result message thread_id =>
    simp only [chatApplyEvent]
    rw [adoptThreadId_of_not_truthy _ _ _ h]
    exact ⟨rfl, rfl⟩

theorem reactApplyEvent_identity (env : Closure) (tempMessageId : Nat) (st : ChatState)
    (e : StreamEvent) (h : e.carriesThreadId = false) :
    (reactApplyEvent env tempMessageId st e).threadId = st.threadId ∧
    (reactApplyEvent env tempMessageId st e).chatIdRef = st.chatIdRef := by
  cases e with
  | status text => exact ⟨rfl, rfl⟩
  | chunk delta => exact ⟨rfl, rfl⟩
  | done thread_id => exact ⟨rfl, rfl⟩
  | result message thread_id =>
    simp only [reactApplyEvent]
    rw [adoptThreadId_of_not_truthy _ _ _ h]
    exact ⟨rfl, rfl⟩

theorem handleSendMessage_identity (message : Message) (options : SendOptions) (s : Session) :
    (handleSendMessage message options s).view.threadId = s.view.threadId ∧
    (handleSendMessage message options s).view.chatIdRef = s.view.chatIdRef := by
  unfold handleSendMessage
  simp only []
  split <;> exact ⟨rfl, rfl⟩

theorem applyStep_unsaved (s : Session) (step : Step) (hs : isUnsaved s = true)
    (hquiet : step.carriesThreadId = false) : isUnsaved (applyStep s step) = true := by
  have hkeep : ∀ s2 : Session, s2.view.threadId = s.view.threadId ∧
      s2.view.chatIdRef = s.view.chatIdRef → isUnsaved s2 = true := by
    intro s2 h
    unfold isUnsaved at hs ⊢
    rw [h.1, h.2]
    exact hs
  cases step with
  | send message options => exact hkeep _ (handleSendMessage_identity message options s)
  | chatStarted env =>
    apply hkeep
    unfold applyStep chatStart
    simp only []
    split <;> exact ⟨rfl, rfl⟩
  | chatEvent env e => exact hkeep _ (chatApplyEvent_identity env s.view e hquiet)
  | chatFailed => exact hkeep _ ⟨rfl, rfl⟩
  | researchStarted => exact hkeep _ ⟨rfl, rfl⟩
  | researchEvent env tempMessageId e =>
    exact hkeep _ (reactApplyEvent_identity env tempMessageId s.view e hquiet)
  | researchFailed => exact hkeep _ ⟨rfl, rfl⟩
  | researchEnded => exact hkeep _ ⟨rfl, rfl⟩
  | saveBegun r msgs =>
    apply hkeep
    unfold applyStep
    simp only []
    split <;> exact ⟨rfl, rfl⟩
  | saveUnsuccessful r title refused =>
    apply hkeep
    cases refused <;> exact ⟨rfl, rfl⟩
  | renamed r newTitle reply =>
    apply hkeep
    unfold applyStep updateChatTitle
    simp only []
    split
    · exact ⟨rfl, rfl⟩
    · split <;> exact ⟨rfl, rfl⟩
  | cleared now => exact clearConversation_unsaved now s

theorem foldl_applyStep_unsaved (steps : List Step) :
    ∀ s : Session, isUnsaved s = true →
      steps.all (fun step => !step.carriesThreadId) = true →
      isUnsaved (steps.foldl applyStep s) = true := by
  induction steps with
  | nil => intro s hs _; exact hs
  | cons step rest ih =>
    intro s hs hquiet
    simp only [List.all_cons, Bool.and_eq_true, Bool.not_eq_true'] at hquiet
    rw [List.foldl_cons]
    exact ih _ (applyStep_unsaved s step hs hquiet.1)
      (by simpa only [Bool.not_eq_true'] using hquiet.2)

theorem saveChatSuccess_view_of_assigned (r : Render) (title : Str) (chat : SavedChat)
    (s : Session) (hr : truthy r.threadId = true)
    (hp : startsWith (r.threadId.getD []) "temp_".toList = false) :
    (saveChatSuccess r title chat s).view = s.view := by
  unfold saveChatSuccess
  simp only [hr, hp, Bool.not_true, Bool.or_false, Bool.and_false, Bool.false_eq_true, if_false]
  split <;> rfl

theorem saveChatRequest_of_unsaved (r : Render) (msgs : List Message) (s : Session)
    (hs : isUnsaved s = true) (hr : truthy r.threadId = false) :
    saveChatRequest r msgs s =
      RemoteWrite.create s.view.chatIdRef (deriveTitle r.chatTitle msgs)
        (msgs.filter (fun msg => !msg.isTemporary)) := by
  unfold isUnsaved at hs
  simp only [Bool.and_eq_true] at hs
  have hid : effectiveChatId r.threadId s.view.chatIdRef = s.view.chatIdRef := by
    unfold effectiveChatId
    cases hth : r.threadId with
    | none => rfl
    | some tid =>
      cases tid with
      | nil => rfl
      | cons c cs => rw [hth] at hr; cases hr
  unfold saveChatRequest
  simp only [hid, hs.2, Bool.not_true, Bool.and_false, Bool.false_and]
  rfl

/-! ## Lemmas on the endpoint choice and on the messages written -/

theorem saveChatBegin_create_or_update (r : Render) (msgs : List Message) (s : Session)
    (h : saveChatProceeds r msgs s = true) :
    (truthy r.threadId = true → effectiveChatId r.threadId s.view.chatIdRef = r.threadId.getD []) ∧
    (truthy r.threadId = false → effectiveChatId r.threadId s.view.chatIdRef = s.view.chatIdRef) ∧
    ((effectiveChatId r.threadId s.view.chatIdRef = [] ∨
        startsWith (effectiveChatId r.threadId s.view.chatIdRef) "temp_".toList = true ∨
        startsWith (effectiveChatId r.threadId s.view.chatIdRef) "new_".toList = true) →
      ∃ title list, saveChatBegin r msgs s =
        some (RemoteWrite.create (effectiveChatId r.threadId s.view.chatIdRef) title list)) ∧
    (¬ (effectiveChatId r.threadId s.view.chatIdRef = [] ∨
        startsWith (effectiveChatId r.threadId s.view.chatIdRef) "temp_".toList = true ∨
        startsWith (effectiveChatId r.threadId s.view.chatIdRef) "new_".toList = true) →
      ∃ title list flag, saveChatBegin r msgs s =
        some (RemoteWrite.update (effectiveChatId r.threadId s.view.chatIdRef) title list
          flag)) := by
  refine ⟨?_, ?_, ?_, ?_⟩
  · intro ht
    unfold effectiveChatId
    cases hid : r.threadId with
    | none => rw [hid] at ht; cases ht
    | some t =>
      cases t with
      | nil => rw [hid] at ht; cases ht
      | cons c rest => rfl
  · intro ht
    unfold effectiveChatId
    cases hid : r.threadId with
    | none => rfl
    | some t =>
      cases t with
      | nil => rfl
      | cons c rest => rw [hid] at ht; cases ht
  · intro hE
    rw [saveChatBegin_of_proceeds r msgs s h]
    unfold saveChatRequest
    simp only []
    split
    · rename_i hcond
      simp only [Bool.and_eq_true, Bool.not_eq_true', List.isEmpty_eq_false] at hcond
      rcases hE with h1 | h1 | h1
      · exact absurd h1 (by simpa using hcond.1.1)
      · rw [h1] at hcond; exact absurd hcond.1.2 (by simp)
      · rw [h1] at hcond; exact absurd hcond.2 (by simp)
    · exact ⟨_, _, rfl⟩
  · intro hE
    rw [saveChatBegin_of_proceeds r msgs s h]
    unfold saveChatRequest
    simp only []
    split
    · exact ⟨_, _, _, rfl⟩
    · rename_i hcond
      exfalso
      apply hcond
      have h1 : ¬ effectiveChatId r.threadId s.view.chatIdRef = [] := fun e => hE (Or.inl e)
      have h2 : startsWith (effectiveChatId r.threadId s.view.chatIdRef) "temp_".toList = false := by
        cases hb : startsWith (effectiveChatId r.threadId s.view.chatIdRef) "temp_".toList
        · rfl
        · exact absurd (Or.inr (Or.inl hb)) hE
      have h3 : startsWith (effectiveChatId r.threadId s.view.chatIdRef) "new_".toList = false := by
        cases hb : startsWith (effectiveChatId r.threadId s.view.chatIdRef) "new_".toList
        · rfl
        · exact absurd (Or.inr (Or.inr hb)) hE
      rw [h2, h3]
      cases hl : effectiveChatId r.threadId s.view.chatIdRef with
      | nil => exact absurd hl h1
      | cons c rest => rfl

theorem chatIdOf_text (threadId : Option Str) (ref : Str) :
    chatIdOf threadId (some ref) = some (effectiveChatId threadId ref) := by
  unfold chatIdOf effectiveChatId
  cases threadId with
  | none => rfl
  | some t => cases t <;> rfl

theorem saveChatAttempt_text (r : Render) (msgs : List Message) (s : Session) :
    saveChatAttempt { threadId := r.threadId, chatIdRef := some s.view.chatIdRef,
                      lastUpdated := s.chatLastUpdatedRef } r.chatTitle msgs =
      SaveAttempt.sent (saveChatRequest r msgs s) := by
  unfold saveChatAttempt saveChatRequest
  simp only [chatIdOf_text]
  split <;> rfl

theorem filter_all_committed (msgs : List Message) :
    (msgs.filter (fun msg => !msg.isTemporary)).all (fun msg => !msg.isTemporary) = true := by
  rw [List.all_eq_true]
  intro m hm
  exact (List.mem_filter.1 hm).2

theorem saveChatBegin_committed (r : Render) (msgs : List Message) (s : Session)
    (w : RemoteWrite) (h : saveChatBegin r msgs s = some w) :
    w.messages = msgs.filter (fun msg => !msg.isTemporary) := by
  unfold saveChatBegin at h
  split at h
  · rw [← Option.some.inj h]
    exact saveChatRequest_messages r msgs s
  · cases h

theorem callSave_committed (t : Nat) (r : Render) (msgs : List Message) (tl : Timeline)
    (h : writesCommitted tl = true) : writesCommitted (callSave t r msgs tl) = true := by
  unfold callSave
  cases hb : saveChatBegin r msgs tl.session with
  | none => exact h
  | some w =>
    unfold writesCommitted at h ⊢
    simp only [List.all_append, List.all_cons, List.all_nil, Bool.and_true, Bool.and_eq_true]
    refine ⟨h, ?_⟩
    rw [saveChatBegin_committed r msgs tl.session w hb]
    exact filter_all_committed msgs

theorem fireDue_committed (t : Nat) (tl : Timeline) (h : writesCommitted tl = true) :
    writesCommitted (fireDue t tl) = true := by
  unfold fireDue
  split
  · split
    · exact callSave_committed _ _ _ _ h
    · exact h
  · exact h

theorem occur_committed (tl : Timeline) (ev : Nat × Occurrence)
    (h : writesCommitted tl = true) : writesCommitted (occur tl ev) = true := by
  have h1 := fireDue_committed ev.1 tl h
  unfold occur
  cases ev.2 with
  | handler run messagesSet =>
    simp only []
    cases messagesSet
    · exact h1
    · exact h1
  | direct r msgs => exact callSave_committed _ _ _ _ h1
  | reply reply =>
    simp only []
    split
    · exact h1
    · exact h1

theorem foldl_occur_committed (events : List (Nat × Occurrence)) :
    ∀ tl : Timeline, writesCommitted tl = true →
      writesCommitted (events.foldl occur tl) = true := by
  induction events with
  | nil => intro tl h; exact h
  | cons ev rest ih =>
    intro tl h
    rw [List.foldl_cons]
    exact ih _ (occur_committed tl ev h)

/-! ## Properties of the specification -/

/-- C1: in a non-media exchange, chunk events with deltas `d1..dn` applied in arrival order
leave the temporary message with its earlier content followed by `d1 ++ ... ++ dn` and leave
every other message unchanged; when no temporary message exists the first chunk creates it,
and after the placeholder creation of the handler the content is exactly `d1 ++ ... ++ dn`. -/
theorem chunk_deltas_accumulate_in_order (env : Closure) (st : ChatState)
    (deltas : List Str) (hshow : showsPlaceholder env = true)
    (hone : countTemporary st.messages ≤ 1) :
    (∀ i old, st.messages[i]? = some old → old.isTemporary = true →
      ((deltas.map StreamEvent.chunk).foldl (chatApplyEvent env) st).messages =
        st.messages.set i { old with content := old.content ++ deltas.flatten }) ∧
    (countTemporary st.messages = 0 → deltas ≠ [] →
      ((deltas.map StreamEvent.chunk).foldl (chatApplyEvent env) st).messages =
        st.messages ++ [{ role := "assistant".toList, content := deltas.flatten,
                          isTemporary := true, id := some (env.clock st.dateNowCalls) }]) ∧
    (countTemporary st.messages = 0 →
      ((deltas.map StreamEvent.chunk).foldl (chatApplyEvent env) (chatStart env st)).messages =
        st.messages ++ [{ chatPlaceholder (env.clock st.dateNowCalls) with
                          content := deltas.flatten }]) := by
  refine ⟨?_, ?_, ?_⟩
  · intro i old hi ho
    obtain ⟨l1, l2, hsplit, hlen, h1, _⟩ := split_at_temporary st.messages i old hi ho hone
    rw [foldl_chunk_first_temporary env hshow deltas st l1 l2 old hsplit h1 ho, hsplit, ← hlen]
    simp
  · intro hzero hne
    have hall := (countTemporary_eq_zero_iff _).1 hzero
    cases deltas with
    | nil => exact absurd rfl hne
    | cons d ds =>
      simp only [List.map_cons, List.foldl_cons]
      have hstep : (chatApplyEvent env st (StreamEvent.chunk d)).messages =
          st.messages ++ { role := "assistant".toList, content := d, isTemporary := true,
                           id := some (env.clock st.dateNowCalls) } :: [] := by
        simp only [chatApplyEvent, hshow, if_true]
        rw [chunkUpdate_no_temporary _ _ _ hall]
      rw [foldl_chunk_first_temporary env hshow ds _ st.messages [] _ hstep hall rfl]
      simp
  · intro hzero
    have hall := (countTemporary_eq_zero_iff _).1 hzero
    have hstart : (chatStart env st).messages =
        st.messages ++ chatPlaceholder (env.clock st.dateNowCalls) :: [] := by
      simp [chatStart, hshow, chatPlaceholderUpdate]
    rw [foldl_chunk_first_temporary env hshow deltas _ st.messages [] _ hstart hall rfl]
    simp [chatPlaceholder]

/-- Witness for C1: two chunks `l`, `o` after `Hel` give `Hello`. -/
theorem chunk_deltas_accumulate_in_order_witness :
    showsPlaceholder sampleClosure = true ∧ countTemporary sampleStreaming.messages ≤ 1 ∧
    ((["l".toList, "o".toList].map StreamEvent.chunk).foldl
        (chatApplyEvent sampleClosure) sampleStreaming).messages =
      [sampleUser, { chatPlaceholder 1000 with content := "Hello".toList }] :=
  ⟨by decide, by decide,
   (chunk_deltas_accumulate_in_order sampleClosure sampleStreaming ["l".toList, "o".toList]
      (by decide) (by decide)).1 1 { chatPlaceholder 1000 with content := "Hel".toList }
      rfl rfl⟩

/-- C2 (as stated, refuted): placeholder creation in either handler appends a temporary
message to a list that already has one, here the list left by a research exchange whose
stream ended without a result; the research result keeps a temporary message of another
exchange next to a temporary result message. -/
theorem placeholder_creation_adds_second_temporary :
    countTemporary sampleLeftover ≤ 1 ∧
    ¬ countTemporary (chatPlaceholderUpdate 9 sampleLeftover) ≤ 1 ∧
    ¬ countTemporary (reactPlaceholderUpdate 9 sampleLeftover) ≤ 1 ∧
    ¬ countTemporary (reactResultUpdate 9 (chatPlaceholder 7) sampleLeftover) ≤ 1 := by
  decide

/-- C2 (amended): from a list with at most one temporary message, appending a committed
user message, every event of the chat handler, every event of the research handler whose
result message is committed, and both failure handlers give a list with at most one
temporary message; placeholder creation in either handler adds exactly one. -/
theorem single_temporary_preserved (prev : List Message) (hone : countTemporary prev ≤ 1) :
    (∀ userMessage : Message, userMessage.isTemporary = false →
      countTemporary (sendUpdate userMessage prev) ≤ 1) ∧
    (∀ (env : Closure) (st : ChatState) (e : StreamEvent), st.messages = prev →
      countTemporary (chatApplyEvent env st e).messages ≤ 1) ∧
    (∀ (env : Closure) (tempMessageId : Nat) (st : ChatState) (e : StreamEvent),
      st.messages = prev →
      (∀ m tid, e = StreamEvent.result m tid → m.isTemporary = false) →
      countTemporary (reactApplyEvent env tempMessageId st e).messages ≤ 1) ∧
    countTemporary (chatFailureUpdate prev) = 0 ∧
    countTemporary (reactFailureUpdate prev) = 0 ∧
    (∀ now, countTemporary (chatPlaceholderUpdate now prev) = countTemporary prev + 1) ∧
    (∀ now, countTemporary (reactPlaceholderUpdate now prev) = countTemporary prev + 1) := by
  refine ⟨?_, ?_, ?_, ?_, ?_, ?_, ?_⟩
  · intro userMessage hu
    unfold sendUpdate
    rw [countTemporary_append_singleton, hu]
    simpa using hone
  · intro env st e hst
    cases e with
    | status text => simpa [chatApplyEvent, hst] using hone
    | chunk delta =>
      by_cases hshow : showsPlaceholder env = true
      · simp only [chatApplyEvent, hshow, if_true, hst]
        exact countTemporary_chunkUpdate _ _ _ hone
      · simp only [chatApplyEvent, hshow, if_false, hst]
        exact hone
    | done tid =>
      simp only [chatApplyEvent, adoptThreadId_messages]
      rw [countTemporary_doneUpdate]
      omega
    | result m tid =>
      simp only [chatApplyEvent, adoptThreadId_messages]
      exact countTemporary_chatResultUpdate _ _ _
  · intro env tempMessageId st e hst hm
    cases e with
    | status text => simpa [reactApplyEvent, hst] using hone
    | chunk delta => simpa [reactApplyEvent, hst] using hone
    | done tid => simpa [reactApplyEvent, hst] using hone
    | result m tid =>
      simp only [reactApplyEvent, adoptThreadId_messages, reactResultUpdate]
      rw [countTemporary_append_singleton, hm m tid rfl, hst]
      have := countTemporary_filter_le (fun msg => msg.id != some tempMessageId) prev
      simp only [Bool.false_eq_true, if_false]
      omega
  · exact countTemporary_filter_committed prev
  · unfold reactFailureUpdate
    rw [countTemporary_append_singleton, countTemporary_filter_committed]
    rfl
  · intro now
    unfold chatPlaceholderUpdate
    rw [countTemporary_append_singleton]
    rfl
  · intro now
    unfold reactPlaceholderUpdate
    rw [countTemporary_append_singleton]
    rfl

/-- Witness for C2: the streaming sample state has one temporary message and keeps at most
one under a chunk event. -/
theorem single_temporary_preserved_witness :
    countTemporary sampleStreaming.messages ≤ 1 ∧
    countTemporary
      (chatApplyEvent sampleClosure sampleStreaming (StreamEvent.chunk "lo".toList)).messages
      ≤ 1 :=
  ⟨by decide,
   (single_temporary_preserved sampleStreaming.messages (by decide)).2.1
      sampleClosure sampleStreaming (StreamEvent.chunk "lo".toList) rfl⟩

/-- C3 (as stated, refuted): a user message sent while a temporary message is the last
element, and a placeholder created then, leave that temporary message in the interior. -/
theorem send_leaves_temporary_interior :
    temporaryOnlyLast [sampleUser, reactPlaceholder 5] = true ∧
    temporaryOnlyLast (sendUpdate sampleUser [sampleUser, reactPlaceholder 5]) = false ∧
    temporaryOnlyLast (chatPlaceholderUpdate 9 [sampleUser, reactPlaceholder 5]) = false ∧
    temporaryOnlyLast (reactPlaceholderUpdate 9 [sampleUser, reactPlaceholder 5]) = false ∧
    temporaryOnlyLast (reactResultUpdate 9 sampleUser [sampleUser, reactPlaceholder 5])
      = false := by
  decide

/-- C3 (amended): when temporary messages are only ever last, they still are after every
event of the chat handler, after both failure handlers, and after every event of the
research handler provided the temporary messages of the list carry the id of its
placeholder; a user send and a placeholder creation give such a list when the list they
extend has no temporary message. -/
theorem temporary_stays_last (prev : List Message) (hlast : temporaryOnlyLast prev = true) :
    (∀ (env : Closure) (st : ChatState) (e : StreamEvent), st.messages = prev →
      temporaryOnlyLast (chatApplyEvent env st e).messages = true) ∧
    (∀ (env : Closure) (tempMessageId : Nat) (st : ChatState) (e : StreamEvent),
      st.messages = prev →
      (∀ m ∈ prev, m.isTemporary = true → m.id = some tempMessageId) →
      temporaryOnlyLast (reactApplyEvent env tempMessageId st e).messages = true) ∧
    temporaryOnlyLast (chatFailureUpdate prev) = true ∧
    temporaryOnlyLast (reactFailureUpdate prev) = true ∧
    (countTemporary prev = 0 →
      (∀ userMessage, temporaryOnlyLast (sendUpdate userMessage prev) = true) ∧
      (∀ now, temporaryOnlyLast (chatPlaceholderUpdate now prev) = true) ∧
      (∀ now, temporaryOnlyLast (reactPlaceholderUpdate now prev) = true)) := by
  refine ⟨?_, ?_, ?_, ?_, ?_⟩
  · intro env st e hst
    cases e with
    | status text => simpa [chatApplyEvent, hst] using hlast
    | chunk delta =>
      by_cases hshow : showsPlaceholder env = true
      · simp only [chatApplyEvent, hshow, if_true, hst]
        exact temporaryOnlyLast_chunkUpdate _ _ _ hlast
      · simp only [chatApplyEvent, hshow, if_false, hst]
        exact hlast
    | done tid =>
      simp only [chatApplyEvent, adoptThreadId_messages]
      exact temporaryOnlyLast_of_no_temporary _ (doneUpdate_no_temporary _)
    | result m tid =>
      simp only [chatApplyEvent, adoptThreadId_messages, chatResultUpdate]
      split
      · exact (temporaryOnlyLast_concat _ _).2 (mediaFilter_no_temporary _)
      · exact (temporaryOnlyLast_concat _ _).2 (filter_committed_no_temporary _)
  · intro env tempMessageId st e hst hid
    cases e with
    | status text => simpa [reactApplyEvent, hst] using hlast
    | chunk delta => simpa [reactApplyEvent, hst] using hlast
    | done tid => simpa [reactApplyEvent, hst] using hlast
    | result m tid =>
      simp only [reactApplyEvent, adoptThreadId_messages, reactResultUpdate, hst]
      refine (temporaryOnlyLast_concat _ _).2 ?_
      intro x hx
      obtain ⟨hmem, hkeep⟩ := List.mem_filter.1 hx
      cases hxt : x.isTemporary
      · rfl
      · have := hid x hmem hxt
        simp [this] at hkeep
  · exact temporaryOnlyLast_of_no_temporary _ (filter_committed_no_temporary _)
  · exact (temporaryOnlyLast_concat _ _).2 (filter_committed_no_temporary _)
  · intro hzero
    have hall := (countTemporary_eq_zero_iff prev).1 hzero
    exact ⟨fun _ => (temporaryOnlyLast_concat _ _).2 hall,
      fun _ => (temporaryOnlyLast_concat _ _).2 hall,
      fun _ => (temporaryOnlyLast_concat _ _).2 hall⟩

/-- Witness for C3: the streaming sample state keeps its temporary message last under a
chunk event. -/
theorem temporary_stays_last_witness :
    temporaryOnlyLast sampleStreaming.messages = true ∧
    temporaryOnlyLast
      (chatApplyEvent sampleClosure sampleStreaming (StreamEvent.chunk "lo".toList)).messages
      = true :=
  ⟨by decide,
   (temporary_stays_last sampleStreaming.messages (by decide)).1
      sampleClosure sampleStreaming (StreamEvent.chunk "lo".toList) rfl⟩

/-- C4: a line split across two network reads is not reassembled by the chat handler. The
unsplit chunk line puts `hi` in the placeholder; split after `{"type":"ch` both pieces
are rejected by the parser and the state stays as it was before the first read, while the
research handler joins the same two reads into the one line. -/
theorem split_line_applies_no_event :
    fragmentHead ++ fragmentRest = lineChunkHi ++ ['\n'] ∧
    (handleChatStreamingRequest sampleClosure sampleUser
        (Transport.response true [lineChunkHi ++ ['\n']] false) sampleState).map
        (fun out => out.messages) =
      some [sampleUser, { chatPlaceholder 1000 with content := "hi".toList }] ∧
    handleChatStreamingRequest sampleClosure sampleUser
        (Transport.response true [fragmentHead, fragmentRest] false) sampleState =
      some (chatStart sampleClosure sampleState) ∧
    reactLinesOfChunks [] [fragmentHead, fragmentRest] = ([lineChunkHi], []) := by
  decide

/-- C5: whatever the chunking of the stream text, the research handler hands the same
lines to the JSON parser: the newline-terminated segments of the text in order, trimmed,
without the empty ones; the text after the last newline stays in the buffer and gives no
line. The read loop applies its `try` block to exactly these lines. -/
theorem research_lines_independent_of_chunking (chunks : List Str) :
    reactLinesOfChunks [] chunks =
      (trimmedLines chunks.flatten, unterminatedTail chunks.flatten) ∧
    (∀ (env : Closure) (tempMessageId : Nat) (st : ChatState),
      reactReadLoop env tempMessageId (st, []) chunks =
        ((trimmedLines chunks.flatten).foldlM (reactHandleLine env tempMessageId) st).map
          (fun out => (out, unterminatedTail chunks.flatten))) ∧
    (∀ other : List Str, other.flatten = chunks.flatten →
      reactLinesOfChunks [] other = reactLinesOfChunks [] chunks) := by
  obtain ⟨h, hloop⟩ := research_lines_chunking_aux chunks
  refine ⟨h, hloop, ?_⟩
  intro other ho
  rw [h, (research_lines_chunking_aux other).1, ho]

/-- Witness for C5: two chunkings of the same text give the same lines and buffer. -/
theorem research_lines_independent_of_chunking_witness :
    ["a\nb".toList, "c\n\n d \ne".toList].flatten = ["a\nbc\n\n d \ne".toList].flatten ∧
    reactLinesOfChunks [] ["a\nb".toList, "c\n\n d \ne".toList] =
      reactLinesOfChunks [] ["a\nbc\n\n d \ne".toList] :=
  ⟨by decide,
   (research_lines_independent_of_chunking ["a\nbc\n\n d \ne".toList]).2.2
      ["a\nb".toList, "c\n\n d \ne".toList] (by decide)⟩

/-- C6: the chat handler parses and applies the text after the last newline. With the
stream `{"type":"chunk","chunk":"hi"}`, newline, `{"type":"done"}` and no final newline,
the done event commits the message and calls `saveChat`; the research handler keeps the
same tail in its buffer and hands only the first line to the parser. -/
theorem unterminated_tail_is_applied :
    unterminatedTail (lineChunkHi ++ ['\n'] ++ lineDone) = lineDone ∧
    (handleChatStreamingRequest sampleClosure sampleUser
        (Transport.response true [lineChunkHi ++ ['\n'] ++ lineDone] false) sampleState).map
        (fun out => (out.messages, out.saveChatCalls.length)) =
      some ([sampleUser, { chatPlaceholder 1000 with
                           content := "hi".toList, isTemporary := false }], 1) ∧
    reactLinesOfChunks [] [lineChunkHi ++ ['\n'] ++ lineDone] = ([lineChunkHi], lineDone) := by
  decide

/-- C7: a line that `JSON.parse` rejects changes nothing. Inserting it anywhere in a
sequence of lines gives the same final state (messages, thread identity, status and every
other cell) in the per-line loop of either handler, and so for the chat handler reading
complete lines in any grouping into network chunks, and for the research handler reading
the text of the lines in any chunking, where the text it parses is the trimmed line. -/
theorem malformed_line_is_skipped (env : Closure) (tempMessageId : Nat) (st : ChatState)
    (before after : List Str) (bad : Str) (hbad : JSONparse bad = none) :
    (before ++ bad :: after).foldlM (chatHandleLine env) st =
      (before ++ after).foldlM (chatHandleLine env) st ∧
    (before ++ bad :: after).foldlM (reactHandleLine env tempMessageId) st =
      (before ++ after).foldlM (reactHandleLine env tempMessageId) st ∧
    ((∀ l ∈ before ++ bad :: after, '\n' ∉ l) →
      ∀ groups1 groups2 : List (List Str),
        groups1.flatten = before ++ bad :: after → groups2.flatten = before ++ after →
        chatReadLoop env st (groups1.map joinLines) =
          chatReadLoop env st (groups2.map joinLines)) ∧
    ((∀ l ∈ before ++ bad :: after, '\n' ∉ l) → JSONparse (trim bad) = none →
      ∀ chunks1 chunks2 : List Str,
        chunks1.flatten = joinLines (before ++ bad :: after) →
        chunks2.flatten = joinLines (before ++ after) →
        reactReadLoop env tempMessageId (st, []) chunks1 =
          reactReadLoop env tempMessageId (st, []) chunks2) := by
  have hsub : (∀ l ∈ before ++ bad :: after, '\n' ∉ l) → ∀ l ∈ before ++ after, '\n' ∉ l := by
    intro h l hl
    apply h l
    rcases List.mem_append.1 hl with h1 | h1
    · exact List.mem_append_left _ h1
    · exact List.mem_append_right _ (List.mem_cons_of_mem _ h1)
  refine ⟨?_, ?_, ?_, ?_⟩
  · exact foldlM_skip _ bad (chatHandleLine_malformed env bad hbad) before after st
  · exact foldlM_skip _ bad (reactHandleLine_malformed env tempMessageId bad hbad)
      before after st
  · intro hnl groups1 groups2 h1 h2
    rw [chatReadLoop_groups env groups1 st (by rw [h1]; exact hnl),
      chatReadLoop_groups env groups2 st (by rw [h2]; exact hsub hnl), h1, h2,
      List.filter_append, List.filter_append, List.filter_cons]
    split
    · exact foldlM_skip _ bad (chatHandleLine_malformed env bad hbad) _ _ st
    · rfl
  · intro hnl htrim chunks1 chunks2 h1 h2
    rw [(research_lines_chunking_aux chunks1).2 env tempMessageId st,
      (research_lines_chunking_aux chunks2).2 env tempMessageId st, h1, h2,
      trimmedLines_joinLines _ hnl, trimmedLines_joinLines _ (hsub hnl),
      unterminatedTail_joinLines, unterminatedTail_joinLines,
      List.map_append, List.map_append, List.map_cons,
      List.filter_append, List.filter_append, List.filter_cons]
    split
    · rw [foldlM_skip _ (trim bad)
        (reactHandleLine_malformed env tempMessageId (trim bad) htrim) _ _ st]
    · rfl

/-- Witness for C7: the malformed line between the chunk lines changes nothing, and the
run ends with the committed message `Hello`. -/
theorem malformed_line_is_skipped_witness :
    JSONparse lineMalformed = none ∧
    ([lineChunkHel] ++ lineMalformed :: [lineChunkLo, lineDone]).foldlM
        (chatHandleLine sampleClosure) sampleState =
      ([lineChunkHel] ++ [lineChunkLo, lineDone]).foldlM
        (chatHandleLine sampleClosure) sampleState ∧
    (([lineChunkHel] ++ [lineChunkLo, lineDone]).foldlM
        (chatHandleLine sampleClosure) sampleState).map (fun out => out.messages) =
      some [sampleUser, helloMessage 1000] :=
  ⟨rfl,
   (malformed_line_is_skipped sampleClosure 0 sampleState [lineChunkHel]
      [lineChunkLo, lineDone] lineMalformed rfl).1,
   by decide⟩

/-- C8: the done transition keeps the length and order of the list and the role, content
and id of every message, leaves no message temporary, and is the list the done event
installs. In particular the stream of scenario A (status, chunk `Hel`, chunk `lo`, done)
in a plain exchange adds to a list without temporary messages exactly one committed
assistant message with content `Hello`. -/
theorem done_commits_in_place (prev : List Message) :
    (doneUpdate prev).length = prev.length ∧
    (∀ i : Nat, ((doneUpdate prev)[i]?).map (fun m => (m.role, m.content, m.id)) =
      (prev[i]?).map (fun m => (m.role, m.content, m.id))) ∧
    countTemporary (doneUpdate prev) = 0 ∧
    (∀ (env : Closure) (st : ChatState) (thread_id : Option Str),
      (chatApplyEvent env { st with messages := prev } (StreamEvent.done thread_id)).messages =
        doneUpdate prev) ∧
    (∀ (env : Closure) (message : Message) (st : ChatState),
      message.role = "user".toList → showsPlaceholder env = true → st.messages = prev →
      countTemporary prev = 0 →
      (handleChatStreamingRequest env message (Transport.response true [scenarioA] false)
          st).map (fun out => out.messages) =
        some (prev ++ [helloMessage (env.clock st.dateNowCalls)])) := by
  refine ⟨?_, ?_, countTemporary_doneUpdate prev, ?_, ?_⟩
  · simp [doneUpdate]
  · intro i
    unfold doneUpdate
    rw [List.getElem?_map]
    cases prev[i]? with
    | none => rfl
    | some m => cases h : m.isTemporary <;> simp [h]
  · intro env st thread_id
    simp [chatApplyEvent, adoptThreadId_messages]
  · intro env message st hrole hshow hst hzero
    have hprev := (countTemporary_eq_zero_iff prev).1 hzero
    have hstart : ({ chatStart env st with fullResponse := [] } : ChatState).messages =
        prev ++ [chatPlaceholder (env.clock st.dateNowCalls)] := by
      simp [chatStart, hshow, chatPlaceholderUpdate, hst]
    have hrun := scenarioA_messages env hshow { chatStart env st with fullResponse := [] }
      prev (env.clock st.dateNowCalls) hstart hprev
    unfold handleChatStreamingRequest
    rw [if_pos hrole]
    simp only []
    split
    · rename_i hnone
      rw [hnone] at hrun
      cases hrun
    · rename_i st2 hsome
      rw [hsome] at hrun
      simpa using hrun

/-- Witness for C8: scenario A run on the sample conversation. -/
theorem done_commits_in_place_witness :
    sampleUser.role = "user".toList ∧ showsPlaceholder sampleClosure = true ∧
    countTemporary [sampleUser] = 0 ∧
    (handleChatStreamingRequest sampleClosure sampleUser
        (Transport.response true [scenarioA] false) sampleState).map
        (fun out => out.messages) = some [sampleUser, helloMessage 1000] :=
  ⟨rfl, rfl, rfl,
   (done_commits_in_place [sampleUser]).2.2.2.2 sampleClosure sampleUser sampleState
      rfl rfl rfl rfl⟩

/-- C9 (as stated, refuted): in a media exchange the result transition also removes a
committed assistant message whose content contains `Generating`. -/
theorem media_result_removes_committed_note :
    (chatApplyEvent sampleMediaClosure { sampleState with messages := [sampleUser, sampleNote] }
        (StreamEvent.result sampleResult none)).messages = [sampleUser, sampleResult] ∧
    [sampleUser, sampleNote].filter (fun msg => !msg.isTemporary) ++ [sampleResult] =
      [sampleUser, sampleNote, sampleResult] := by
  decide

/-- C9 (amended): the result transition of the chat handler gives the messages of the
prior list that are kept, in their original order, followed by the result message. In a
plain exchange the kept messages are exactly the non-temporary ones; in a media exchange
they are the non-temporary ones that are not assistant messages containing
`Processing information` or `Generating`. -/
theorem result_replaces_placeholder (env : Closure) (st : ChatState) (message : Message)
    (thread_id : Option Str) :
    (env.isMediaRequest = false →
      (chatApplyEvent env st (StreamEvent.result message thread_id)).messages =
        st.messages.filter (fun msg => !msg.isTemporary) ++ [message]) ∧
    (env.isMediaRequest = true →
      (chatApplyEvent env st (StreamEvent.result message thread_id)).messages =
        (st.messages.filter (fun msg => !msg.isTemporary)).filter
          (fun msg => !isProgressNote msg) ++ [message]) := by
  refine ⟨?_, ?_⟩
  · intro h
    simp [chatApplyEvent, adoptThreadId_messages, chatResultUpdate, plainResultUpdate, h]
  · intro h
    simp only [chatApplyEvent, adoptThreadId_messages, chatResultUpdate, mediaResultUpdate, h,
      if_true, List.filter_filter]
    congr 1
    apply List.filter_congr
    intro msg _
    unfold mediaResultKeep
    cases msg.isTemporary <;> cases isProgressNote msg <;> rfl

/-- Witness for C9: the plain exchange replaces the placeholder by the result message. -/
theorem result_replaces_placeholder_witness :
    sampleClosure.isMediaRequest = false ∧
    (chatApplyEvent sampleClosure sampleStreaming
        (StreamEvent.result sampleResult none)).messages = [sampleUser, sampleResult] :=
  ⟨rfl, (result_replaces_placeholder sampleClosure sampleStreaming sampleResult none).1 rfl⟩

/-- C10: when the chat handler fails it removes the temporary message and appends nothing.
After one applied chunk and a failed read, and after a rejected request, the list is the
user message alone; the research handler appends its fallback message in the same
situation. -/
theorem chat_failure_appends_no_fallback :
    (handleChatStreamingRequest sampleClosure sampleUser
        (Transport.response true [lineChunkHi ++ ['\n']] true) sampleState).map
        (fun out => out.messages) = some [sampleUser] ∧
    (handleChatStreamingRequest sampleClosure sampleUser Transport.rejected sampleState).map
        (fun out => out.messages) = some [sampleUser] ∧
    (handleChatStreamingRequest sampleClosure sampleUser
        (Transport.response false [] false) sampleState).map
        (fun out => out.messages) = some [sampleUser] ∧
    (handleReactAgentStreamingRequest sampleClosure sampleUser
        (Transport.response true [] true) sampleState).map
        (fun out => out.messages) = some [sampleUser, reactFallback] := by
  decide

/-- C11: for every user text the tag `handleSendMessage` chooses on the lower-cased text
equals the reference definition, and it is the tag the send leaves in
`generatingMediaType`; audio wins when both conditions hold, and
`generate an image of a cat` is image. -/
theorem intent_matches_reference (t : Str) :
    classifyIntent (toLowerCase t) = referenceIntent (toLowerCase t) ∧
    (∀ (s : Session),
      (handleSendMessage (userText t) plainOptions s).view.generatingMediaType =
        (referenceIntent (toLowerCase t)).mediaTypeTag ∧
      (handleSendMessage (userText t) plainOptions s).view.isGeneratingMedia =
        (referenceIntent (toLowerCase t) != Intent.none)) ∧
    (isAudioRequest (toLowerCase t) = true → classifyIntent (toLowerCase t) = Intent.audio) ∧
    classifyIntent (toLowerCase "generate an image of a cat".toList) = Intent.image := by
  refine ⟨classifyIntent_eq_reference _, ?_, ?_, by decide⟩
  · intro s
    have hrole : (buildUserMessage (userText t) plainOptions).role = "user".toList := rfl
    have hcontent : (buildUserMessage (userText t) plainOptions).content = t := rfl
    unfold handleSendMessage
    simp only [hrole, hcontent, if_true, classifyIntent_eq_reference]
    constructor <;> first | rfl | trivial
  · intro h
    unfold classifyIntent
    rw [h]
    rfl

/-- Witness for C11: `Play me a tune` has the audio conditions and is tagged audio. -/
theorem intent_matches_reference_witness :
    isAudioRequest (toLowerCase "Play me a tune".toList) = true ∧
    classifyIntent (toLowerCase "Play me a tune".toList) = Intent.audio :=
  ⟨by decide, (intent_matches_reference "Play me a tune".toList).2.2.1 (by decide)⟩

/-- C12: `play a song` is classified as audio intent, and `draw a picture of a cat` as
image intent, yet the media request test of the chat handler is false for both. The
handler called by the send still sees `isGeneratingMedia` false, so it pushes the
placeholder and its chunk event writes `hi` into the message list. -/
theorem media_intent_still_gets_placeholder :
    classifyIntent (toLowerCase "play a song".toList) = Intent.audio ∧
    isMediaRequestOf (toLowerCase "play a song".toList) = false ∧
    classifyIntent (toLowerCase "draw a picture of a cat".toList) = Intent.image ∧
    isMediaRequestOf (toLowerCase "draw a picture of a cat".toList) = false ∧
    (handleSendMessage (userText "play a song".toList) plainOptions newSession).view.isGeneratingMedia
      = true ∧
    dispatchOf (userText "play a song".toList) plainOptions =
      Dispatch.chat (userText "play a song".toList) ∧
    showsPlaceholder (chatClosureOf (renderOf newSession) (userText "play a song".toList)
      (fun k => 1000 + k)) = true ∧
    (handleChatStreamingRequest
        (chatClosureOf (renderOf newSession) (userText "play a song".toList)
          (fun k => 1000 + k))
        (userText "play a song".toList)
        (Transport.response true [lineChunkHi ++ ['\n']] false)
        (handleSendMessage (userText "play a song".toList) plainOptions newSession).view).map
        (fun out => out.messages) =
      some [userText "play a song".toList,
            { chatPlaceholder 1000 with content := "hi".toList }] := by
  decide

/-- C13: when the list given to `saveChat` is empty, has no message with role `user`, or
ends with a temporary message, `saveChat` sends no request and leaves the session as it
was, whatever the service would have answered. -/
theorem saveChat_guards_skip (r : Render) (msgs : List Message) (reply : SaveReply)
    (s : Session)
    (h : msgs = [] ∨ (∀ m ∈ msgs, (m.role == "user".toList) = false) ∨
      (∃ init last, msgs = init ++ [last] ∧ last.isTemporary = true)) :
    saveChatBegin r msgs s = none ∧ saveChat r msgs reply s = (none, s) := by
  have hstop : saveChatProceeds r msgs s = false := by
    unfold saveChatProceeds
    rcases h with h | h | ⟨init, last, h, hl⟩
    · subst h
      simp
    · have : msgs.any (fun m => m.role == "user".toList) = false := by
        rw [List.any_eq_false]
        intro m hm
        rw [h m hm]
        simp
      rw [this]
      simp
    · subst h
      rw [lastIsTemporary_concat, hl]
      simp
  have hbegin := saveChatBegin_of_stop r msgs s hstop
  refine ⟨hbegin, ?_⟩
  unfold saveChat
  rw [hbegin]

/-- Witness for C13: a list that ends with the placeholder is not saved. -/
theorem saveChat_guards_skip_witness :
    saveChat (renderOf storedStreaming) storedStreaming.view.messages
      (SaveReply.succeeded { id := some "abc".toList, title := "Greetings".toList,
                             lastUpdated := some "t1".toList })
      storedStreaming = (none, storedStreaming) :=
  (saveChat_guards_skip (renderOf storedStreaming) storedStreaming.view.messages _
    storedStreaming (Or.inr (Or.inr ⟨[sampleUser], chatPlaceholder 1000, rfl, rfl⟩))).2

/-- C14: `saveChat` calls `chatId.startsWith` at line 464 without the test of `chatId`
that line 470 makes. After `loadChat` stored a record without `chatId` and with a
last-updated value, the identity is absent, the call throws, and no request is sent where
a create was due; with no last-updated value recorded the same list is saved by a create
without `chatId`. Whenever the client-local id is a text the attempt is the request of
`saveChatRequest`, and past the guards that is a create when the identity is empty or
begins with `temp_` or `new_`, and an update addressed by exactly that identity
otherwise. -/
theorem absent_identity_save_throws :
    saveChatAttempt (loadChatCells none (some "t1".toList) newCells) "Greetings".toList
        [sampleUser, helloMessage 1000] = SaveAttempt.threw ∧
    saveChatAttempt (loadChatCells none none newCells) "Greetings".toList
        [sampleUser, helloMessage 1000] =
      SaveAttempt.sentWithoutId "Greetings".toList [sampleUser, helloMessage 1000] ∧
    (∀ (lastUpdated : Option Str) (chatTitle : Str) (msgs : List Message),
      saveChatAttempt { threadId := none, chatIdRef := none, lastUpdated := lastUpdated }
          chatTitle msgs =
        if truthy lastUpdated then SaveAttempt.threw
        else SaveAttempt.sentWithoutId (deriveTitle chatTitle msgs)
          (msgs.filter (fun msg => !msg.isTemporary))) ∧
    (∀ (r : Render) (msgs : List Message) (s : Session),
      saveChatAttempt { threadId := r.threadId, chatIdRef := some s.view.chatIdRef,
                        lastUpdated := s.chatLastUpdatedRef } r.chatTitle msgs =
        SaveAttempt.sent (saveChatRequest r msgs s)) ∧
    (∀ (r : Render) (msgs : List Message) (s : Session),
      saveChatProceeds r msgs s = true →
      ((effectiveChatId r.threadId s.view.chatIdRef = [] ∨
          startsWith (effectiveChatId r.threadId s.view.chatIdRef) "temp_".toList = true ∨
          startsWith (effectiveChatId r.threadId s.view.chatIdRef) "new_".toList = true) →
        ∃ title list, saveChatBegin r msgs s =
          some (RemoteWrite.create (effectiveChatId r.threadId s.view.chatIdRef) title list)) ∧
      (¬ (effectiveChatId r.threadId s.view.chatIdRef = [] ∨
          startsWith (effectiveChatId r.threadId s.view.chatIdRef) "temp_".toList = true ∨
          startsWith (effectiveChatId r.threadId s.view.chatIdRef) "new_".toList = true) →
        ∃ title list flag, saveChatBegin r msgs s =
          some (RemoteWrite.update (effectiveChatId r.threadId s.view.chatIdRef) title list
            flag))) := by
  refine ⟨by decide, by decide, ?_, saveChatAttempt_text, ?_⟩
  · intro lastUpdated chatTitle msgs
    rfl
  · intro r msgs s h
    exact (saveChatBegin_create_or_update r msgs s h).2.2

/-- Witness for C14: the answered new conversation has the identity `temp_1` and is
saved by a create. -/
theorem absent_identity_save_throws_witness :
    saveChatProceeds (renderOf answeredSession) answeredSession.view.messages answeredSession
      = true ∧
    ∃ title list, saveChatBegin (renderOf answeredSession) answeredSession.view.messages
        answeredSession = some (RemoteWrite.create "temp_1".toList title list) :=
  ⟨by decide,
   (absent_identity_save_throws.2.2.2.2 (renderOf answeredSession)
      answeredSession.view.messages answeredSession (by decide)).1
      (Or.inr (Or.inl (by decide)))⟩

/-- C15 (as stated, refuted): `updateChatTitle` sends the message list of its render as
it is. Called while an exchange is streaming in the conversation `abc`, its update carries
the placeholder, a temporary message. -/
theorem rename_writes_temporary_message :
    updateChatTitleRequest (renderOf storedStreaming) "Hello there".toList =
      some (RemoteWrite.update "abc".toList "Hello there".toList
        [sampleUser, chatPlaceholder 1000] false) ∧
    countTemporary [sampleUser, chatPlaceholder 1000] = 1 := by
  decide

/-- C15 (amended): the list `saveChat` writes, in a create or an update, is exactly the
non-temporary messages of its input in their order; over every course of handler runs,
direct and debounced `saveChat` calls and responses, no request sent carries a temporary
message. `updateChatTitle`, which no handler calls, writes the list of its render as it
is whenever it sends. -/
theorem saveChat_writes_committed_only :
    (∀ (r : Render) (msgs : List Message) (s : Session),
      (saveChatBegin r msgs s).map RemoteWrite.messages =
        if saveChatProceeds r msgs s then some (msgs.filter (fun msg => !msg.isTemporary))
        else none) ∧
    (∀ (r : Render) (msgs : List Message) (s : Session),
      countTemporary (saveChatRequest r msgs s).messages = 0) ∧
    (∀ (s0 : Session) (events : List (Nat × Occurrence)) (quietUntil : Nat),
      writesCommitted (runTimeline (timelineOf s0) events quietUntil) = true) ∧
    (∀ (r : Render) (newTitle : Str),
      (updateChatTitleRequest r newTitle).map RemoteWrite.messages =
        (updateChatTitleRequest r newTitle).map (fun _ => r.messages)) := by
  refine ⟨?_, ?_, ?_, ?_⟩
  · intro r msgs s
    unfold saveChatBegin
    split
    · simp [saveChatRequest_messages]
    · rfl
  · intro r msgs s
    rw [saveChatRequest_messages]
    exact countTemporary_filter_committed msgs
  · intro s0 events quietUntil
    unfold runTimeline
    exact fireDue_committed _ _ (foldl_occur_committed events _ rfl)
  · intro r newTitle
    unfold updateChatTitleRequest
    split <;> rfl

/-- C16 (as stated, refuted): the title sent is derived from the title of the closure,
not from the session title. After the done event of a new conversation the store answers
the create with the title `Server title`, which becomes the session title; the debounced
`saveChat`, set before the response, still sends the derived title. -/
theorem stale_render_derives_title :
    (titleOccurrences.foldl occur (timelineOf longStreaming)).session.chatTitle =
      "Server title".toList ∧
    (runTimeline (timelineOf longStreaming) titleOccurrences 3000).session.chatTitle =
      "Server title".toList ∧
    (runTimeline (timelineOf longStreaming) titleOccurrences 3000).writes =
      [(0, RemoteWrite.create "temp_1".toList "012345678901234567890123456789...".toList
            [longUser, { chatPlaceholder 1000 with
                         content := "Hel".toList, isTemporary := false }]),
       (2000, RemoteWrite.update "srv9".toList "012345678901234567890123456789...".toList
            [longUser, { chatPlaceholder 1000 with
                         content := "Hel".toList, isTemporary := false }] true)] := by
  decide

/-- C16 (amended): the title `saveChat` sends is set by the title of the render that made
the function, whatever the session title is by then. When the title of the render is
`New Chat` it is the content of the first user message if that has at most 30 characters,
and otherwise its first 30 characters followed by `...`, so at most 33 characters; when
the title of the render is anything else it is that title. -/
theorem saveChat_title (r : Render) (msgs : List Message) (s : Session)
    (h : saveChatProceeds r msgs s = true) :
    ∃ w first, saveChatBegin r msgs s = some w ∧
      msgs.find? (fun m => m.role == "user".toList) = some first ∧
      (r.chatTitle = "New Chat".toList →
        w.title = (if first.content.length ≤ 30 then first.content
                   else first.content.take 30 ++ "...".toList) ∧
        w.title.length ≤ 33) ∧
      (r.chatTitle ≠ "New Chat".toList → w.title = r.chatTitle) := by
  obtain ⟨first, hfirst, hlen⟩ := exists_first_user_of_proceeds r msgs s h
  refine ⟨saveChatRequest r msgs s, first, saveChatBegin_of_proceeds r msgs s h, hfirst, ?_, ?_⟩
  · intro htitle
    have hd : deriveTitle r.chatTitle msgs =
        (if first.content.length ≤ 30 then first.content
         else first.content.take 30 ++ "...".toList) := by
      unfold deriveTitle
      rw [if_pos ⟨htitle, hlen⟩, hfirst]
      simp only [substring, List.drop_zero]
      by_cases hc : first.content.length > 30
      · rw [if_pos hc, if_neg (by omega)]
      · rw [if_neg hc, if_pos (by omega), List.take_of_length_le (by omega)]
    rw [saveChatRequest_title, hd]
    refine ⟨rfl, ?_⟩
    by_cases hc : first.content.length ≤ 30
    · rw [if_pos hc]; omega
    · rw [if_neg hc, List.length_append, List.length_take]
      have : ("...".toList).length = 3 := rfl
      omega
  · intro htitle
    rw [saveChatRequest_title]
    unfold deriveTitle
    rw [if_neg (fun hh => htitle hh.1)]

/-- Witness for C16: a first user message of forty characters gives its first thirty
characters and `...`. -/
theorem saveChat_title_witness :
    saveChatProceeds (renderOf newSession) [longUser] newSession = true ∧
    (saveChatBegin (renderOf newSession) [longUser] newSession).map RemoteWrite.title =
      some "012345678901234567890123456789...".toList :=
  ⟨by decide,
   by
    obtain ⟨w, first, hw, hfirst, hnew, _⟩ :=
      saveChat_title (renderOf newSession) [longUser] newSession (by decide)
    have hf : first = longUser := by
      have : [longUser].find? (fun m => m.role == "user".toList) = some longUser := by decide
      rw [this] at hfirst
      exact (Option.some.inj hfirst).symm
    rw [hw, Option.map_some', (hnew rfl).1, hf]
    decide⟩

/-- C17 (as stated, refuted): the first user message `hi` gives the derived title `hi`;
after the successful save the session title is still `New Chat`, and the next save
derives the title again instead of sending the stored one. -/
theorem short_title_is_not_stored :
    (saveChat (renderOf answeredSession) answeredSession.view.messages
        (SaveReply.succeeded sampleSaved) answeredSession).1.map RemoteWrite.title =
      some "hi".toList ∧
    (saveChat (renderOf answeredSession) answeredSession.view.messages
        (SaveReply.succeeded sampleSaved) answeredSession).2.chatTitle = "New Chat".toList ∧
    (saveChatBegin
        (renderOf (saveChat (renderOf answeredSession) answeredSession.view.messages
          (SaveReply.succeeded sampleSaved) answeredSession).2)
        answeredSession.view.messages
        (saveChat (renderOf answeredSession) answeredSession.view.messages
          (SaveReply.succeeded sampleSaved) answeredSession).2).map RemoteWrite.title =
      some "hi".toList := by
  decide

/-- C17 (amended): after a successful `saveChat` in a session whose title is `New Chat`,
the session title becomes the title of the response exactly when the title sent equals
`New Chat` or ends with `...`, and stays `New Chat` otherwise. Once stored, if the
returned title is not `New Chat`, every `saveChat` whose closure holds the stored title
sends it and does not derive again. Every `saveChat` whose closure holds `New Chat`, one
made before the response included, derives the title again. -/
theorem title_stored_when_truncated (r : Render) (s : Session) (msgs : List Message)
    (chat : SavedChat)
    (hproceeds : saveChatProceeds r msgs s = true)
    (hsentinel : s.chatTitle = "New Chat".toList) :
    ((deriveTitle r.chatTitle msgs == "New Chat".toList ||
        endsWith (deriveTitle r.chatTitle msgs) "...".toList) = true →
      (saveChat r msgs (SaveReply.succeeded chat) s).2.chatTitle = chat.title ∧
      (chat.title ≠ "New Chat".toList →
        ∀ (later : Render) (list : List Message) (s2 : Session),
          later.chatTitle = (saveChat r msgs (SaveReply.succeeded chat) s).2.chatTitle →
          (saveChatRequest later list s2).title = chat.title)) ∧
    ((deriveTitle r.chatTitle msgs == "New Chat".toList ||
        endsWith (deriveTitle r.chatTitle msgs) "...".toList) = false →
      (saveChat r msgs (SaveReply.succeeded chat) s).2.chatTitle = "New Chat".toList) ∧
    (∀ (earlier : Render) (list : List Message) (s2 : Session),
      earlier.chatTitle = "New Chat".toList →
      (saveChatRequest earlier list s2).title = deriveTitle "New Chat".toList list) := by
  rw [saveChat_of_proceeds _ _ _ _ hproceeds]
  have htitle : ∀ t : Str, (saveChatFinish r t (SaveReply.succeeded chat)
      { s with saveInProgress := true }).chatTitle =
        if (t == "New Chat".toList || endsWith t "...".toList) = true then chat.title
        else s.chatTitle := by
    intro t
    simp only [saveChatFinish, saveChatSuccess_chatTitle]
  simp only [htitle]
  refine ⟨?_, ?_, ?_⟩
  · intro hcond
    rw [if_pos hcond]
    refine ⟨rfl, ?_⟩
    intro hne later list s2 hlater
    rw [saveChatRequest_title, hlater]
    unfold deriveTitle
    rw [if_neg (fun hh => hne hh.1)]
  · intro hcond
    rw [hcond]
    exact hsentinel
  · intro earlier list s2 hearlier
    rw [saveChatRequest_title, hearlier]

/-- Witness for C17: a first user message of forty characters is truncated, the title of
the response is stored, and a later `saveChat` of the new render sends it. -/
theorem title_stored_when_truncated_witness :
    saveChatProceeds (renderOf newSession) [longUser] newSession = true ∧
    (saveChat (renderOf newSession) [longUser] (SaveReply.succeeded sampleSaved)
      newSession).2.chatTitle = "hi".toList ∧
    (saveChatRequest
        (renderOf (saveChat (renderOf newSession) [longUser] (SaveReply.succeeded sampleSaved)
          newSession).2)
        [longUser, helloMessage 1000]
        (saveChat (renderOf newSession) [longUser] (SaveReply.succeeded sampleSaved)
          newSession).2).title = "hi".toList :=
  ⟨by decide,
   ((title_stored_when_truncated (renderOf newSession) newSession [longUser] sampleSaved
      (by decide) rfl).1 (by decide)).1,
   ((title_stored_when_truncated (renderOf newSession) newSession [longUser] sampleSaved
      (by decide) rfl).1 (by decide)).2 (by decide) _ _ _ rfl⟩

/-- C18 (as stated, refuted): a stored conversation without a last-updated value, loaded
into a new session, is saved by an update whose `preserveTimestamp` is not true. -/
theorem load_without_timestamp_not_preserved :
    saveChatBegin (renderOf (loadChat (some sampleLoadedBare) newSession))
        (loadChat (some sampleLoadedBare) newSession).view.messages
        (loadChat (some sampleLoadedBare) newSession) =
      some (RemoteWrite.update "abc".toList "Greetings".toList
        [sampleUser, helloMessage 1000] false) := by
  decide

/-- C18 (amended): `loadChat` succeeded for a record whose identity is not empty and not
a placeholder, and that carries a last-updated value (or one was still recorded); the
client-local id and the recorded value are as `loadChat` left them. Then a `saveChat`
that passes its guards and whose closure has no `threadId`, or the loaded identity,
sends an update addressed to the loaded identity with `preserveTimestamp` true; one whose
closure holds another stored identity addresses that identity. -/
theorem load_then_save_preserves_timestamp (s s2 : Session) (chatData : LoadedChat)
    (r : Render) (msgs : List Message)
    (hid : chatData.chatId ≠ [])
    (htemp : startsWith chatData.chatId "temp_".toList = false)
    (hnew : startsWith chatData.chatId "new_".toList = false)
    (hstamp : truthy chatData.lastUpdated = true ∨ truthy s.chatLastUpdatedRef = true)
    (hidref : s2.view.chatIdRef = (loadChat (some chatData) s).view.chatIdRef)
    (hstampref : s2.chatLastUpdatedRef = (loadChat (some chatData) s).chatLastUpdatedRef)
    (hproceeds : saveChatProceeds r msgs s2 = true) :
    ((truthy r.threadId = false ∨ r.threadId = some chatData.chatId) →
      saveChatBegin r msgs s2 =
        some (RemoteWrite.update chatData.chatId (deriveTitle r.chatTitle msgs)
          (msgs.filter (fun msg => !msg.isTemporary)) true)) ∧
    (∀ other : Str, r.threadId = some other → other ≠ [] →
      startsWith other "temp_".toList = false → startsWith other "new_".toList = false →
      saveChatBegin r msgs s2 =
        some (RemoteWrite.update other (deriveTitle r.chatTitle msgs)
          (msgs.filter (fun msg => !msg.isTemporary)) true)) := by
  rw [saveChatBegin_of_proceeds _ _ _ hproceeds]
  have hstampAfter : truthy s2.chatLastUpdatedRef = true := by
    rw [hstampref]
    show truthy (if truthy chatData.lastUpdated then chatData.lastUpdated
      else s.chatLastUpdatedRef) = true
    rcases hstamp with h | h
    · rw [if_pos h]; exact h
    · by_cases hc : truthy chatData.lastUpdated = true
      · rw [if_pos hc]; exact hc
      · rw [if_neg hc]; exact h
  have hrefid : s2.view.chatIdRef = chatData.chatId := hidref
  have hupdate : ∀ id : Str, effectiveChatId r.threadId s2.view.chatIdRef = id → id ≠ [] →
      startsWith id "temp_".toList = false → startsWith id "new_".toList = false →
      saveChatRequest r msgs s2 =
        RemoteWrite.update id (deriveTitle r.chatTitle msgs)
          (msgs.filter (fun msg => !msg.isTemporary)) true := by
    intro id hE hne ht hn
    have hempty : id.isEmpty = false := by
      cases hc : id with
      | nil => exact absurd hc hne
      | cons c rest => rfl
    unfold saveChatRequest
    simp only [hE, ht, hn, hstampAfter, hempty]
    rfl
  refine ⟨?_, ?_⟩
  · intro hclosure
    have hE : effectiveChatId r.threadId s2.view.chatIdRef = chatData.chatId := by
      rcases hclosure with h | h
      · rw [hrefid]
        unfold effectiveChatId
        cases hth : r.threadId with
        | none => rfl
        | some t =>
          cases t with
          | nil => rfl
          | cons c cs => rw [hth] at h; cases h
      · rw [h]
        exact effectiveChatId_some _ _ hid
    rw [hupdate _ hE hid htemp hnew]
  · intro other hother hne ht hn
    have hE : effectiveChatId r.threadId s2.view.chatIdRef = other := by
      rw [hother]
      exact effectiveChatId_some _ _ hne
    rw [hupdate _ hE hne ht hn]

/-- Witness for C18: the stored conversation `abc` with a last-updated value, saved by
the render after the load and by a render made before any conversation was loaded; and,
after `xyz` was loaded, a `saveChat` whose closure still holds `abc`. -/
theorem load_then_save_preserves_timestamp_witness :
    saveChatBegin (renderOf (loadChat (some sampleLoaded) newSession))
        sampleLoaded.messages (loadChat (some sampleLoaded) newSession) =
      some (RemoteWrite.update "abc".toList "Greetings".toList
        [sampleUser, helloMessage 1000] true) ∧
    saveChatBegin (renderOf newSession) [sampleUser, helloMessage 1000]
        (loadChat (some sampleLoaded) newSession) =
      some (RemoteWrite.update "abc".toList "hi".toList
        [sampleUser, helloMessage 1000] true) ∧
    saveChatBegin (renderOf (loadChat (some sampleLoaded) newSession))
        [sampleUser, helloMessage 1000] (loadChat (some otherLoaded) newSession) =
      some (RemoteWrite.update "abc".toList "Greetings".toList
        [sampleUser, helloMessage 1000] true) :=
  ⟨(load_then_save_preserves_timestamp newSession (loadChat (some sampleLoaded) newSession)
      sampleLoaded (renderOf (loadChat (some sampleLoaded) newSession)) sampleLoaded.messages
      (by decide) (by decide) (by decide) (Or.inl (by decide)) rfl rfl (by decide)).1
      (Or.inr rfl),
   (load_then_save_preserves_timestamp newSession (loadChat (some sampleLoaded) newSession)
      sampleLoaded (renderOf newSession) [sampleUser, helloMessage 1000]
      (by decide) (by decide) (by decide) (Or.inl (by decide)) rfl rfl (by decide)).1
      (Or.inl rfl),
   (load_then_save_preserves_timestamp newSession (loadChat (some otherLoaded) newSession)
      otherLoaded (renderOf (loadChat (some sampleLoaded) newSession))
      [sampleUser, helloMessage 1000]
      (by decide) (by decide) (by decide) (Or.inl (by decide)) rfl rfl (by decide)).2
      "abc".toList rfl (by decide) (by decide) (by decide)⟩

/-- C19: a response to a save that was in flight at the send records a last-updated
value again. The conversation `abc` is loaded and its debounced save goes out at 2000;
the user sends an image request at 2050, which clears the recorded value; the store
answers at 2100; the next request, at 4050, carries the new user message and goes out
with `preserveTimestamp` true. With no response in between, the request after a send
never has the flag, whatever was recorded before. -/
theorem response_after_send_flags_write :
    (runTimeline (timelineOf newSession) sendDuringSave 5000).writes =
      [(2000, RemoteWrite.update "abc".toList "Greetings".toList
          [sampleUser, helloMessage 1000] true),
       (4050, RemoteWrite.update "abc".toList "Greetings".toList
          [sampleUser, helloMessage 1000, imageRequest] true)] ∧
    (∀ (message : Message) (options : SendOptions) (s : Session) (view : ChatState)
        (r : Render) (msgs : List Message),
      (handleSendMessage message options s).chatLastUpdatedRef = none ∧
      (saveChatRequest r msgs
        { handleSendMessage message options s with view := view }).preservesTimestamp =
        false) := by
  refine ⟨by decide, ?_⟩
  intro message options s view r msgs
  have hnone : (handleSendMessage message options s).chatLastUpdatedRef = none := by
    unfold handleSendMessage
    simp only []
    split <;> rfl
  refine ⟨hnone, ?_⟩
  unfold saveChatRequest
  simp only [hnone, truthy, Bool.false_and]
  split <;> rfl

/-- C20: the identity of the response is adopted only when the `threadId` of the closure
is unset or begins with `temp_`. With `threadId` `new_1` the conversation is saved by a
create, and after the successful response `threadId` and the client-local id are still
`new_1`, not the returned `srv9`; the last-updated value is recorded. From the client-local
id `temp_1` the same response is adopted. -/
theorem new_identity_is_not_replaced :
    (saveChat (renderOf newPrefixedSession) newPrefixedSession.view.messages
        (SaveReply.succeeded sampleSaved) newPrefixedSession).1 =
      some (RemoteWrite.create "new_1".toList "hi".toList [sampleUser, helloMessage 1000]) ∧
    (saveChat (renderOf newPrefixedSession) newPrefixedSession.view.messages
        (SaveReply.succeeded sampleSaved) newPrefixedSession).2.view.threadId =
      some "new_1".toList ∧
    (saveChat (renderOf newPrefixedSession) newPrefixedSession.view.messages
        (SaveReply.succeeded sampleSaved) newPrefixedSession).2.view.chatIdRef =
      "new_1".toList ∧
    (saveChat (renderOf newPrefixedSession) newPrefixedSession.view.messages
        (SaveReply.succeeded sampleSaved) newPrefixedSession).2.chatLastUpdatedRef =
      some "t2".toList ∧
    (saveChat (renderOf answeredSession) answeredSession.view.messages
        (SaveReply.succeeded sampleSaved) answeredSession).2.view.threadId =
      some "srv9".toList ∧
    (saveChat (renderOf answeredSession) answeredSession.view.messages
        (SaveReply.succeeded sampleSaved) answeredSession).2.view.chatIdRef =
      "srv9".toList := by
  decide

/-- C21: a `saveChat` call that finds the in-flight flag set sends no request and leaves
the session, flag included, as it is, whatever list and closure it has; and along every
course of handler runs, direct and debounced `saveChat` calls and responses that starts
with no save in flight, at most one request of `saveChat` awaits its response. -/
theorem save_in_flight_drops_call :
    (∀ (r : Render) (msgs : List Message) (reply : SaveReply) (s : Session),
      s.saveInProgress = true →
        saveChatBegin r msgs s = none ∧ saveChat r msgs reply s = (none, s) ∧
        ∀ (t : Nat) (tl : Timeline), tl.session = s → callSave t r msgs tl = tl) ∧
    (∀ (s0 : Session) (events : List (Nat × Occurrence)) (quietUntil : Nat),
      s0.saveInProgress = false →
        ((events.foldl occur (timelineOf s0)).inFlight.length ≤ 1 ∧
         (runTimeline (timelineOf s0) events quietUntil).inFlight.length ≤ 1)) := by
  refine ⟨?_, ?_⟩
  · intro r msgs reply s h
    have hb := saveChatBegin_in_flight r msgs s h
    refine ⟨hb, ?_, ?_⟩
    · unfold saveChat
      rw [hb]
    · intro t tl htl
      unfold callSave
      rw [htl, hb]
  · intro s0 events quietUntil h0
    have hstart : flagMatchesInFlight (timelineOf s0) = true := by
      unfold flagMatchesInFlight timelineOf
      simp [h0]
    have hfold := foldl_occur_flag events _ hstart
    exact ⟨length_le_one_of_flag _ hfold,
      length_le_one_of_flag _ (fireDue_flag quietUntil _ hfold)⟩

/-- Witness for C21: while the save of the done event is in flight, the debounced call
that would follow is dropped; here a second direct call at 50 ms sends nothing. -/
theorem save_in_flight_drops_call_witness :
    newSession.saveInProgress = false ∧
    (([(0, Occurrence.direct (renderOf newSession) doneSession.view.messages),
       (50, Occurrence.direct (renderOf newSession) doneSession.view.messages)].foldl occur
        (timelineOf doneSession)).inFlight.length ≤ 1) ∧
    ([(0, Occurrence.direct (renderOf newSession) doneSession.view.messages),
      (50, Occurrence.direct (renderOf newSession) doneSession.view.messages)].foldl occur
        (timelineOf doneSession)).writes.length = 1 :=
  ⟨rfl,
   (save_in_flight_drops_call.2 doneSession
      [(0, Occurrence.direct (renderOf newSession) doneSession.view.messages),
       (50, Occurrence.direct (renderOf newSession) doneSession.view.messages)] 0 rfl).1,
   by decide⟩

/-- C22: when the request of `saveChat` rejects, throws or is answered without success,
the session is what it was before the call (thread identity, client-local id, title,
recorded timestamp, messages, and the in-flight flag cleared again) and exactly the one
request was sent; whenever such a response arrives, only the in-flight flag is written. -/
theorem failed_save_changes_nothing (r : Render) (msgs : List Message) (s : Session)
    (reply : SaveReply) (hproceeds : saveChatProceeds r msgs s = true)
    (hfail : reply = SaveReply.failed ∨ reply = SaveReply.refused) :
    saveChat r msgs reply s = (some (saveChatRequest r msgs s), s) ∧
    (∀ (later : Session) (title : Str),
      saveChatFinish r title reply later = { later with saveInProgress := false }) := by
  have hflag : s.saveInProgress = false := by
    unfold saveChatProceeds at hproceeds
    simp only [Bool.and_eq_true, Bool.not_eq_true'] at hproceeds
    exact hproceeds.1.2
  have hfin : ∀ (later : Session) (title : Str),
      saveChatFinish r title reply later = { later with saveInProgress := false } := by
    intro later title
    rcases hfail with h | h <;> subst h <;> rfl
  refine ⟨?_, hfin⟩
  rw [saveChat_of_proceeds _ _ _ _ hproceeds, hfin]
  cases s
  simp only at hflag
  simp [hflag]

/-- Witness for C22: the save of the answered new conversation fails. -/
theorem failed_save_changes_nothing_witness :
    saveChatProceeds (renderOf answeredSession) answeredSession.view.messages answeredSession
      = true ∧
    saveChat (renderOf answeredSession) answeredSession.view.messages SaveReply.failed
        answeredSession =
      (some (RemoteWrite.create "temp_1".toList "hi".toList [sampleUser, helloMessage 1000]),
       answeredSession) :=
  ⟨by decide,
   (failed_save_changes_nothing (renderOf answeredSession) answeredSession.view.messages
      answeredSession SaveReply.failed (by decide) (Or.inl rfl)).1⟩

/-- C23 (as stated, refuted): one done event gives two requests. Its updater calls
`saveChat` at once (a create at time 0), and the effect run by the same message change
calls it again 2000 ms later (an update to the identity the first response returned). -/
theorem done_event_writes_twice :
    (runTimeline (timelineOf streamingSession) doneOccurrences 3000).writes =
      [(0, RemoteWrite.create "temp_1".toList "hi".toList
            [sampleUser, { chatPlaceholder 1000 with
                           content := "Hel".toList, isTemporary := false }]),
       (2000, RemoteWrite.update "srv9".toList "hi".toList
            [sampleUser, { chatPlaceholder 1000 with
                           content := "Hel".toList, isTemporary := false }] true)] := by
  decide

/-- C23 (amended): for a burst of one or more message changes, each less than 2000 ms
after the previous one, that starts with no timer pending and no save in flight and
after whose last change the session passes the guards of the effect, no request is sent
during the burst, and after a quiet window exactly one request is sent, 2000 ms after
the last change, with the non-temporary messages of the list as of the last change. -/
theorem debounce_burst_one_write (s0 : Session) (first : Nat × (Session → Session))
    (rest : List (Nat × (Session → Session))) (quietUntil : Nat)
    (hidle : s0.saveInProgress = false)
    (hwin : withinWindow first.1 rest = true)
    (hguards : effectProceeds (renderOf (burstSession s0 (first :: rest))) = true)
    (hquiet : lastTime first rest + 2000 ≤ quietUntil) :
    ((burstOf (first :: rest)).foldl occur (timelineOf s0)).writes = [] ∧
    ∃ w, (runTimeline (timelineOf s0) (burstOf (first :: rest)) quietUntil).writes =
        [(lastTime first rest + 2000, w)] ∧
      w.messages =
        (burstSession s0 (first :: rest)).view.messages.filter
          (fun msg => !msg.isTemporary) := by
  have hfold : (burstOf (first :: rest)).foldl occur (timelineOf s0) =
      rerunEffect (lastTime first rest)
        { timelineOf s0 with session := burstSession s0 (first :: rest) } := by
    rw [foldl_burst rest (timelineOf s0) first (by intro due r h; cases h) hwin,
      foldl_afterChange]
    rfl
  have hflag : ∀ (changes : List (Nat × (Session → Session))) (s : Session),
      (burstSession s changes).saveInProgress = s.saveInProgress := by
    intro changes
    induction changes with
    | nil => intro s; rfl
    | cons p ps ih =>
      intro s
      unfold burstSession at ih ⊢
      rw [List.foldl_cons, ih]
      rfl
  refine ⟨by rw [hfold]; rfl, ?_⟩
  have hproceeds : saveChatProceeds (renderOf (burstSession s0 (first :: rest)))
      (renderOf (burstSession s0 (first :: rest))).messages
      (burstSession s0 (first :: rest)) = true :=
    saveChatProceeds_of_effect _ _ hguards (by rw [hflag]; exact hidle)
  have hbegin := saveChatBegin_of_proceeds _ _ _ hproceeds
  refine ⟨saveChatRequest (renderOf (burstSession s0 (first :: rest)))
      (renderOf (burstSession s0 (first :: rest))).messages
      (burstSession s0 (first :: rest)), ?_, ?_⟩
  · unfold runTimeline
    rw [hfold]
    unfold fireDue rerunEffect timelineOf
    simp only []
    rw [if_pos hguards]
    simp only []
    rw [if_pos hquiet]
    unfold callSave
    simp only [hbegin]
    rfl
  · rw [saveChatRequest_messages]
    rfl

/-- Witness for C23: two changes 200 ms apart, then quiet; one request, at 2200 ms, with
the answered list. -/
theorem debounce_burst_one_write_witness :
    ∃ w, (runTimeline (timelineOf newSession) (burstOf (sampleBurstFirst :: sampleBurstRest))
        5000).writes = [(2200, w)] ∧
      w.messages = [sampleUser, helloMessage 1000] :=
  (debounce_burst_one_write newSession sampleBurstFirst sampleBurstRest 5000 rfl
    (by decide) (by decide) (by decide)).2

/-- C24 (as stated, refuted): the guard of `updateChatTitle` tests `temp_` only. With
`threadId` `new_1`, an identity `saveChat` persists with a create, `updateChatTitle` sends
an update addressed to `new_1` and, on success, changes the title. With no `threadId` it
sends nothing, and a response without success never changes the title. -/
theorem rename_writes_to_new_identity :
    saveChatBegin (renderOf newPrefixedSession)
        newPrefixedSession.view.messages newPrefixedSession =
      some (RemoteWrite.create "new_1".toList "hi".toList [sampleUser, helloMessage 1000]) ∧
    updateChatTitle (renderOf newPrefixedSession) "Renamed".toList
        (SaveReply.succeeded sampleSaved) newPrefixedSession =
      (some (RemoteWrite.update "new_1".toList "Renamed".toList
          [sampleUser, helloMessage 1000] false),
       { newPrefixedSession with chatTitle := "Renamed".toList }) ∧
    updateChatTitle (renderOf answeredSession) "Renamed".toList
        (SaveReply.succeeded sampleSaved) answeredSession = (none, answeredSession) ∧
    (∀ (r : Render) (newTitle : Str) (s : Session),
      (updateChatTitle r newTitle SaveReply.failed s).2 = s ∧
      (updateChatTitle r newTitle SaveReply.refused s).2 = s) := by
  refine ⟨by decide, by decide, by decide, ?_⟩
  intro r newTitle s
  unfold updateChatTitle
  constructor <;> split <;> rfl

/-- C24 (amended): `updateChatTitle` sends nothing and leaves the session as it is
whenever the `threadId` of its render is absent or begins with `temp_`. For any other
`threadId`, one that begins with `new_` included, with a signed-in user and no chat
loading, it sends an update addressed to `threadId` with the new title and the list of the
render; the session title becomes the new title when the store reports success, and the
session is unchanged otherwise. -/
theorem rename_guard_tests_temp_only (r : Render) (newTitle : Str) (reply : SaveReply)
    (s : Session) :
    ((truthy r.threadId = false ∨ startsWith (r.threadId.getD []) "temp_".toList = true) →
      updateChatTitle r newTitle reply s = (none, s)) ∧
    (r.user = true → r.isLoadingChat = false → truthy r.threadId = true →
      startsWith (r.threadId.getD []) "temp_".toList = false →
      (updateChatTitle r newTitle reply s).1 =
        some (RemoteWrite.update (r.threadId.getD []) newTitle r.messages false) ∧
      (∀ chat, reply = SaveReply.succeeded chat →
        (updateChatTitle r newTitle reply s).2 = { s with chatTitle := newTitle }) ∧
      ((reply = SaveReply.failed ∨ reply = SaveReply.refused) →
        (updateChatTitle r newTitle reply s).2 = s)) := by
  refine ⟨?_, ?_⟩
  · intro h
    have hreq : updateChatTitleRequest r newTitle = none := by
      unfold updateChatTitleRequest
      rcases h with h | h
      · rw [h]
        cases r.user <;> cases startsWith (r.threadId.getD []) "temp_".toList <;>
          cases r.isLoadingChat <;> rfl
      · rw [h]
        cases r.user <;> cases truthy r.threadId <;> cases r.isLoadingChat <;> rfl
    unfold updateChatTitle
    rw [hreq]
  · intro huser hload hthread htemp
    have hreq : updateChatTitleRequest r newTitle =
        some (RemoteWrite.update (r.threadId.getD []) newTitle r.messages false) := by
      unfold updateChatTitleRequest
      rw [huser, hload, hthread, htemp]
      rfl
    unfold updateChatTitle
    rw [hreq]
    refine ⟨?_, ?_, ?_⟩
    · cases reply <;> rfl
    · intro chat hreply
      rw [hreply]
    · intro hreply
      rcases hreply with h | h <;> rw [h]

/-- Witness for C24: with no `threadId` nothing is sent; with `threadId` `abc` the
update is addressed to `abc` and a refused response leaves the session as it is. -/
theorem rename_guard_tests_temp_only_witness :
    updateChatTitle (renderOf answeredSession) "Renamed".toList
        (SaveReply.succeeded sampleSaved) answeredSession = (none, answeredSession) ∧
    (updateChatTitle (renderOf (loadChat (some sampleLoaded) newSession)) "Renamed".toList
        SaveReply.refused (loadChat (some sampleLoaded) newSession)).1 =
      some (RemoteWrite.update "abc".toList "Renamed".toList
        [sampleUser, helloMessage 1000] false) ∧
    (updateChatTitle (renderOf (loadChat (some sampleLoaded) newSession)) "Renamed".toList
        SaveReply.refused (loadChat (some sampleLoaded) newSession)).2 =
      loadChat (some sampleLoaded) newSession :=
  ⟨(rename_guard_tests_temp_only (renderOf answeredSession) "Renamed".toList
      (SaveReply.succeeded sampleSaved) answeredSession).1 (Or.inl rfl),
   ((rename_guard_tests_temp_only (renderOf (loadChat (some sampleLoaded) newSession))
      "Renamed".toList SaveReply.refused (loadChat (some sampleLoaded) newSession)).2
      rfl rfl rfl (by decide)).1,
   ((rename_guard_tests_temp_only (renderOf (loadChat (some sampleLoaded) newSession))
      "Renamed".toList SaveReply.refused (loadChat (some sampleLoaded) newSession)).2
      rfl rfl rfl (by decide)).2.2 (Or.inr rfl)⟩

/-- C25: the guards that protect an assigned identity read the `threadId` of the closure,
not the current one. In a session whose `threadId` is `T1`, a done or result event of
either stream handler whose closure was made while `threadId` was absent replaces
`threadId` and the client-local id by the `thread_id` it carries, and so does a response
to a `saveChat` call of such a closure (to `srv9` here, after the done event of the same
exchange had set `T1`). With the closure of the current render all three leave both
unchanged, whatever they carry. -/
theorem stale_closure_replaces_identity :
    (∀ (c : Char) (cs : Str) (message : Message) (tempMessageId : Nat),
      (chatApplyEvent sampleClosure staleView (StreamEvent.done (some (c :: cs)))).threadId =
        some (c :: cs) ∧
      (chatApplyEvent sampleClosure staleView (StreamEvent.done (some (c :: cs)))).chatIdRef =
        c :: cs ∧
      (chatApplyEvent sampleClosure staleView
          (StreamEvent.result message (some (c :: cs)))).threadId = some (c :: cs) ∧
      (chatApplyEvent sampleClosure staleView
          (StreamEvent.result message (some (c :: cs)))).chatIdRef = c :: cs ∧
      (reactApplyEvent sampleClosure tempMessageId staleView
          (StreamEvent.result message (some (c :: cs)))).threadId = some (c :: cs) ∧
      (reactApplyEvent sampleClosure tempMessageId staleView
          (StreamEvent.result message (some (c :: cs)))).chatIdRef = c :: cs) ∧
    ((adoptThenSaved.take 2).foldl occur (timelineOf streamingSession)).session.view.threadId =
      some "T1".toList ∧
    (adoptThenSaved.foldl occur (timelineOf streamingSession)).session.view.threadId =
      some "srv9".toList ∧
    (adoptThenSaved.foldl occur (timelineOf streamingSession)).session.view.chatIdRef =
      "srv9".toList ∧
    (∀ (thread_id : Option Str) (message : Message) (tempMessageId : Nat),
      (chatApplyEvent { sampleClosure with threadId := some "T1".toList } staleView
          (StreamEvent.done thread_id)).threadId = some "T1".toList ∧
      (chatApplyEvent { sampleClosure with threadId := some "T1".toList } staleView
          (StreamEvent.result message thread_id)).threadId = some "T1".toList ∧
      (reactApplyEvent { sampleClosure with threadId := some "T1".toList } tempMessageId
          staleView (StreamEvent.result message thread_id)).threadId = some "T1".toList) ∧
    (∀ (chat : SavedChat) (title : Str),
      (saveChatFinish { renderOf newSession with threadId := some "T1".toList } title
          (SaveReply.succeeded chat) { newSession with view := staleView }).view.threadId =
        some "T1".toList ∧
      (saveChatFinish { renderOf newSession with threadId := some "T1".toList } title
          (SaveReply.succeeded chat) { newSession with view := staleView }).view.chatIdRef =
        "T1".toList) := by
  refine ⟨?_, by decide, by decide, by decide, ?_, ?_⟩
  · intro c cs message tempMessageId
    exact ⟨rfl, rfl, rfl, rfl, rfl, rfl⟩
  · intro thread_id message tempMessageId
    cases thread_id <;> exact ⟨rfl, rfl, rfl⟩
  · intro chat title
    have hview := saveChatSuccess_view_of_assigned
      { renderOf newSession with threadId := some "T1".toList } title chat
      { newSession with view := staleView } rfl (by decide)
    exact ⟨congrArg ChatState.threadId hview, congrArg ChatState.chatIdRef hview⟩

/-- C26: a write flagged as timestamp-preserving can carry a message the store has not
seen. In the loaded conversation `abc`, an image request is sent; the debounced save
writes the list with the request (flag false) and its response records a timestamp; the
result event then calls `saveChat` with the list that ends in the new image message, and
that update goes out with `preserveTimestamp` true. -/
theorem flagged_write_carries_new_message :
    loadedSession.view.messages = [sampleUser, helloMessage 1000] ∧
    (runTimeline (timelineOf loadedSession) imageOccurrences 9500).writes =
      [(2000, RemoteWrite.update "abc".toList "Greetings".toList
          [sampleUser, helloMessage 1000, imageRequest] false),
       (9000, RemoteWrite.update "abc".toList "Greetings".toList
          [sampleUser, helloMessage 1000, imageRequest, sampleResult] true)] := by
  decide

/-- C27 (as stated, refuted): in a new conversation whose first request was rejected, so
that nothing has been stored, the done event carried the `thread_id` `T1`; the debounced
`saveChat` then sends an update addressed to `T1`, not a create. -/
theorem stream_identity_gets_update :
    (runTimeline (timelineOf streamingSession) adoptOccurrences 3000).writes =
      [(0, RemoteWrite.create "temp_1".toList "hi".toList
            [sampleUser, { chatPlaceholder 1000 with
                           content := "Hel".toList, isTemporary := false }]),
       (2000, RemoteWrite.update "T1".toList "hi".toList
            [sampleUser, { chatPlaceholder 1000 with
                           content := "Hel".toList, isTemporary := false }] false)] := by
  decide

/-- C27 (amended): from the state of the mounted component or the one `clearConversation`
leaves, after any steps other than a load and a successful save response, none of which is
a stream event with a truthy `thread_id`, the session has no `threadId`, its client-local
id starts with `temp_`, and the request of `saveChat`, for every closure without a
`threadId`, is a create under the client-local id. -/
theorem unsaved_conversation_creates (now : Nat) (user : Bool) (prior start : Session)
    (steps : List Step)
    (hstart : start = initialSession now user ∨ start = clearConversation now prior)
    (hquiet : steps.all (fun step => !step.carriesThreadId) = true) :
    truthy (steps.foldl applyStep start).view.threadId = false ∧
    startsWith (steps.foldl applyStep start).view.chatIdRef "temp_".toList = true ∧
    ∀ (r : Render) (msgs : List Message), truthy r.threadId = false →
      saveChatRequest r msgs (steps.foldl applyStep start) =
        RemoteWrite.create (steps.foldl applyStep start).view.chatIdRef
          (deriveTitle r.chatTitle msgs) (msgs.filter (fun msg => !msg.isTemporary)) := by
  have h0 : isUnsaved start = true := by
    rcases hstart with h | h
    · rw [h]; exact initialSession_unsaved now user
    · rw [h]; exact clearConversation_unsaved now prior
  have hend := foldl_applyStep_unsaved steps start h0 hquiet
  have hparts := hend
  unfold isUnsaved at hparts
  simp only [Bool.and_eq_true, Bool.not_eq_true'] at hparts
  exact ⟨hparts.1, hparts.2, fun r msgs hr => saveChatRequest_of_unsaved r msgs _ hend hr⟩

/-- Witness for C27: the loaded conversation is cleared, then a plain exchange without a
`thread_id` runs; `saveChat` sends a create under the client-local id `temp_7`. -/
theorem unsaved_conversation_creates_witness :
    sampleSteps.all (fun step => !step.carriesThreadId) = true ∧
    saveChatRequest (renderOf (sampleSteps.foldl applyStep (clearConversation 7 loadedSession)))
        [sampleUser, helloMessage 1000]
        (sampleSteps.foldl applyStep (clearConversation 7 loadedSession)) =
      RemoteWrite.create
        (sampleSteps.foldl applyStep (clearConversation 7 loadedSession)).view.chatIdRef
        (deriveTitle "New Chat".toList [sampleUser, helloMessage 1000])
        ([sampleUser, helloMessage 1000].filter (fun msg => !msg.isTemporary)) ∧
    (sampleSteps.foldl applyStep (clearConversation 7 loadedSession)).view.chatIdRef =
      "temp_7".toList :=
  ⟨by decide,
   (unsaved_conversation_creates 7 true loadedSession (clearConversation 7 loadedSession)
      sampleSteps (Or.inr rfl) (by decide)).2.2
      (renderOf (sampleSteps.foldl applyStep (clearConversation 7 loadedSession)))
      [sampleUser, helloMessage 1000] (by decide),
   by decide⟩

/-- C28: `googleCallback` passes the settings of `generateToken` only when `NODE_ENV` is
`production`. With `NODE_ENV` `development`, or unset, it passes `secure` false and
`sameSite` `lax` where `generateToken` (in both files) passes `secure` true and `sameSite`
`none`; name, `httpOnly`, `path` and `maxAge` agree for every `NODE_ENV`. -/
theorem google_cookie_differs_outside_production :
    utilsGenerateTokenCookie = generateTokenCookie ∧
    googleCallbackCookie (some "production".toList) = generateTokenCookie ∧
    (googleCallbackCookie (some "development".toList)).options.secure = false ∧
    (googleCallbackCookie (some "development".toList)).options.sameSite = "lax".toList ∧
    (googleCallbackCookie none).options.secure = false ∧
    (googleCallbackCookie none).options.sameSite = "lax".toList ∧
    generateTokenCookie.options.secure = true ∧
    generateTokenCookie.options.sameSite = "none".toList ∧
    (∀ nodeEnv : Option Str,
      (googleCallbackCookie nodeEnv).name = generateTokenCookie.name ∧
      (googleCallbackCookie nodeEnv).options.httpOnly = generateTokenCookie.options.httpOnly ∧
      (googleCallbackCookie nodeEnv).options.path = generateTokenCookie.options.path ∧
      (googleCallbackCookie nodeEnv).options.maxAge = 2592000000) := by
  refine ⟨rfl, by decide, by decide, by decide, by decide, by decide, rfl, rfl, ?_⟩
  intro nodeEnv
  exact ⟨rfl, rfl, rfl, rfl⟩

/-- C29: in a media exchange, from a list without a temporary message, chunk events
followed by a done event leave the message list as it was before the first chunk; the
deltas only grow the local `fullResponse`. -/
theorem media_chunks_never_become_message (env : Closure) (st : ChatState)
    (deltas : List Str) (thread_id : Option Str)
    (hmedia : env.isMediaRequest = true) (hnone : countTemporary st.messages = 0) :
    ((deltas.map StreamEvent.chunk ++ [StreamEvent.done thread_id]).foldl
        (chatApplyEvent env) st).messages = st.messages := by
  have hshow : showsPlaceholder env = false := by
    unfold showsPlaceholder
    rw [hmedia]
    rfl
  rw [List.foldl_append]
  simp only [List.foldl_cons, List.foldl_nil, chatApplyEvent, adoptThreadId_messages]
  rw [foldl_chunk_media env hshow deltas st]
  exact doneUpdate_of_no_temporary _ ((countTemporary_eq_zero_iff _).1 hnone)

/-- Witness for C29: two chunks and a done event in the sample media exchange. -/
theorem media_chunks_never_become_message_witness :
    sampleMediaClosure.isMediaRequest = true ∧ countTemporary sampleState.messages = 0 ∧
    ((["Hel".toList, "lo".toList].map StreamEvent.chunk ++ [StreamEvent.done none]).foldl
        (chatApplyEvent sampleMediaClosure) sampleState).messages = [sampleUser] :=
  ⟨rfl, by decide,
   media_chunks_never_become_message sampleMediaClosure sampleState
      ["Hel".toList, "lo".toList] none rfl (by decide)⟩

/-- C30: a text whose lower-cased form contains `compose` is audio intent, whatever else
it contains; a text whose lower-cased form contains `drawing` and that is not audio
intent is image intent. -/
theorem compose_is_audio_drawing_is_image (t : Str) :
    (includes (toLowerCase t) "compose".toList = true →
      classifyIntent (toLowerCase t) = Intent.audio) ∧
    (includes (toLowerCase t) "drawing".toList = true →
      classifyIntent (toLowerCase t) ≠ Intent.audio →
      classifyIntent (toLowerCase t) = Intent.image) := by
  refine ⟨?_, ?_⟩
  · intro h
    have h1 : songTerms.any (fun term => includes (toLowerCase t) term) = true :=
      List.any_eq_true.2 ⟨"compose".toList, by decide, h⟩
    have h2 : audioVerbs.any (fun verb => includes (toLowerCase t) verb) = true :=
      List.any_eq_true.2 ⟨"compose".toList, by decide, h⟩
    have haudio : isAudioRequest (toLowerCase t) = true := by
      unfold isAudioRequest
      rw [h1, h2]
      rfl
    unfold classifyIntent
    rw [haudio]
    rfl
  · intro h hna
    have hdraw : includes (toLowerCase t) "draw".toList = true :=
      includes_append_left "draw".toList "ing".toList (by decide) _ h
    have haudio : isAudioRequest (toLowerCase t) = false := by
      cases hb : isAudioRequest (toLowerCase t)
      · rfl
      · exfalso
        apply hna
        unfold classifyIntent
        rw [hb]
        rfl
    have himage : isImageRequest (toLowerCase t) = true := by
      unfold isImageRequest
      rw [haudio, h, hdraw]
      simp
    unfold classifyIntent
    rw [haudio, himage]
    rfl

/-- Witness for C30: `Compose a poem` is audio, `a drawing of a cat` is image. -/
theorem compose_is_audio_drawing_is_image_witness :
    includes (toLowerCase "Compose a poem".toList) "compose".toList = true ∧
    classifyIntent (toLowerCase "Compose a poem".toList) = Intent.audio ∧
    classifyIntent (toLowerCase "a drawing of a cat".toList) = Intent.image :=
  ⟨by decide,
   (compose_is_audio_drawing_is_image "Compose a poem".toList).1 (by decide),
   (compose_is_audio_drawing_is_image "a drawing of a cat".toList).2 (by decide)
     (by decide)⟩

end Vanni
